import Mathlib

/-!
# SiliFuzz: corpus relocator (`snap/snap_relocator.cc`)

The first part of the development; the snap maker (`runner/snap_maker.cc`) and
the snapshot ids follow it, each with the definitions before the theorems.

A shallow embedding of `SnapRelocator`.  The corpus is a byte buffer that the
relocator rewrites in place, so the embedding works over a byte-addressed
memory; every `uintptr_t` / `size_t` computation of the source is a natural
number reduced modulo `2^64`.

`snap/snap.h` is not among the sources: the sizes, alignments and field
offsets of its structs are the fields of `Layout`, and every theorem holds for
every layout unless it says otherwise.
-/

namespace silifuzz

/-! ## Machine words and memory -/

/-- Reduction of a natural number to a 64-bit machine word (`uintptr_t`, `size_t`). -/
def u64 (x : Nat) : Nat := x % 18446744073709551616

/-- Byte-addressed memory: the byte stored at every address. -/
abbrev Mem := Nat → Nat

/-- Little-endian 64-bit load from `a`. -/
def read64 (m : Mem) (a : Nat) : Nat :=
  m (u64 a) % 256
    + 256 * (m (u64 (a + 1)) % 256
    + 256 * (m (u64 (a + 2)) % 256
    + 256 * (m (u64 (a + 3)) % 256
    + 256 * (m (u64 (a + 4)) % 256
    + 256 * (m (u64 (a + 5)) % 256
    + 256 * (m (u64 (a + 6)) % 256
    + 256 * (m (u64 (a + 7)) % 256)))))))

/-- Little-endian 64-bit store of `v` to `a`. -/
def write64 (m : Mem) (a v : Nat) : Mem := fun x =>
  if x = u64 a then v % 256
  else if x = u64 (a + 1) then v / 256 % 256
  else if x = u64 (a + 2) then v / 65536 % 256
  else if x = u64 (a + 3) then v / 16777216 % 256
  else if x = u64 (a + 4) then v / 4294967296 % 256
  else if x = u64 (a + 5) then v / 1099511627776 % 256
  else if x = u64 (a + 6) then v / 281474976710656 % 256
  else if x = u64 (a + 7) then v / 72057594037927936 % 256
  else m x

/-! ## Types of `snap.h` -/

/-- What the relocator uses of a C++ type `T`: `sizeof(T)` and `alignof(T)`. -/
structure CType where
  size : Nat
  align : Nat

/-- The type `char` / `uint8_t`. -/
def CType.byte : CType := ⟨1, 1⟩

/-- A pointer type `T*` on a 64-bit target. -/
def CType.pointer : CType := ⟨8, 8⟩

/-- Struct layout of `snap/snap.h` as far as the relocator depends on it: the
header is not among the sources, so the layout is a parameter.  The field
names are those of the structs; each `Nat` is the byte offset of the field
inside its struct, and every field the relocator reads is a 64-bit word. -/
structure Layout where
  SnapCorpus : CType
  Snap : CType
  RegisterState : CType
  MemoryMapping : CType
  MemoryBytes : CType
  kSnapCorpusMagic : Nat
  corpus_magic : Nat
  corpus_corpus_type_size : Nat
  corpus_snap_type_size : Nat
  corpus_register_state_type_size : Nat
  corpus_snaps : Nat
  snap_id : Nat
  snap_memory_mappings : Nat
  snap_memory_bytes : Nat
  snap_end_state_memory_bytes : Nat
  snap_registers : Nat
  snap_end_state_registers : Nat
  memory_bytes_repeating : Nat
  memory_bytes_byte_values : Nat

/-- Modelled from the spec: the layout of `Snap::Array<T>`, declared in
`snap/snap.h`, which is not among the sources: `Array<T> { size: u64;
elements: *T }`.  This is the address of `array.size` for the array at address
`array`. -/
def Array_size (array : Nat) : Nat := u64 array

/-- Modelled from the spec: the layout of `Snap::Array<T>` (see `Array_size`).
This is the address of `array.elements` for the array at address `array`. -/
def Array_elements (array : Nat) : Nat := u64 (array + 8)

/-! ## Relocator state -/

/-- The enum `SnapRelocator::Error`. -/
inductive Error
  | kOk
  | kEmptyCorpus
  | kOutOfBound
  | kAlignment
  | kBadData
  | kMprotect
  deriving DecidableEq, Repr

/-- History of what the relocator did to the buffer.  It is a record kept for
stating properties only: no function below ever inspects it. -/
inductive Event
  /-- The call `ValidateRelocatedAddress<T>(address)` was evaluated, `size = sizeof(T)`. -/
  | check (address size : Nat)
  /-- A field that is not a relocated pointer (a size, a flag, a header word,
  or an offset about to be adjusted) was read at `address`. -/
  | load (address : Nat)
  /-- The call `AdjustPointer<T>` stored `value` into the pointer at `slot`. -/
  | store (slot value size align : Nat)
  /-- The call `AdjustArray` stored `nullptr` into the `elements` pointer at `slot`. -/
  | null (slot : Nat)
  deriving DecidableEq, Repr

/-- The buffer together with the history of accesses, newest first. -/
structure State where
  mem : Mem
  trace : List Event

/-- Record an event. -/
def State.note (s : State) (e : Event) : State := { s with trace := e :: s.trace }

/-- Store a 64-bit word. -/
def State.write (s : State) (a v : Nat) : State := { s with mem := write64 s.mem a v }

/-- Result of a relocation step: the error code and the buffer afterwards. -/
abbrev Step := State → Error × State

/-- The macro `RETURN_IF_RELOCATION_FAILED(exp)`: evaluate `exp`, return its
error if it is not `kOk`, otherwise go on with `rest`. -/
def RETURN_IF_RELOCATION_FAILED (exp : Step) (rest : Step) : Step := fun s =>
  match exp s with
  | (Error.kOk, s') => rest s'
  | (error, s') => (error, s')

/-! ## `SnapRelocator` -/

/-- The function `SnapRelocator::ValidateRelocatedAddress<T>(address)`.  The sum
`address + sizeof(T)` is unsigned 64-bit arithmetic. -/
def ValidateRelocatedAddress (start_address limit_address : Nat) (T : CType)
    (address : Nat) : Error :=
  if address < start_address ∨ u64 (address + T.size) > limit_address then
    Error.kOutOfBound
  else if address % T.align ≠ 0 then Error.kAlignment
  else Error.kOk

/-- The function `SnapRelocator::AdjustPointer<T>(ptr)`; `ptr` is the address of the
pointer variable the reference `T*& ptr` is bound to. -/
def AdjustPointer (start_address limit_address : Nat) (T : CType) (ptr : Nat) : Step :=
  fun s =>
    let s := s.note (Event.load ptr)
    let adjusted_address := u64 (read64 s.mem ptr + start_address)
    let s := s.note (Event.check adjusted_address T.size)
    match ValidateRelocatedAddress start_address limit_address T adjusted_address with
    | Error.kOk =>
      (Error.kOk,
        (s.write ptr adjusted_address).note
          (Event.store ptr adjusted_address T.size T.align))
    | error => (error, s)

/-- The function `SnapRelocator::AdjustArray<T>(array)`; `array` is the address of the
`Snap::Array<T>`.  `&array.elements[array.size - 1]` is pointer arithmetic,
taken modulo `2^64` like the integer arithmetic around it. -/
def AdjustArray (start_address limit_address : Nat) (T : CType) (array : Nat) : Step :=
  fun s =>
    let s := s.note (Event.load (Array_size array))
    if read64 s.mem (Array_size array) > 0 then
      RETURN_IF_RELOCATION_FAILED
        (AdjustPointer start_address limit_address T (Array_elements array))
        (fun s =>
          let s := s.note (Event.load (Array_size array))
          let size := read64 s.mem (Array_size array)
          let elements := read64 s.mem (Array_elements array)
          let last := u64 (elements + u64 (size + 18446744073709551615) * T.size)
          let s := s.note (Event.check last T.size)
          (ValidateRelocatedAddress start_address limit_address T last, s))
        s
    else
      (Error.kOk,
        (s.write (Array_elements array) 0).note (Event.null (Array_elements array)))

/-- Modelled from the spec: `MemoryBytes::repeating()`, declared in `snap/snap.h`,
which is not among the sources.  `MemoryBytes { start, size, repeating_flag,
union { byte_values; fill } }` with 64-bit fields: the entry at `memory_byte`
is repeating when its flag field is not 0. -/
def repeating (L : Layout) (m : Mem) (memory_byte : Nat) : Bool :=
  read64 m (u64 (memory_byte + L.memory_bytes_repeating)) != 0

/-- The loop of `RelocateMemoryBytesArray`.  The loop variable `i` of type
`size_t` runs upwards from 0; the first argument is `2^64 - i`, so that the
loop is total: `i < size` fails at the latest when `i = 2^64 - 1`. -/
def RelocateMemoryBytesArray_loop (L : Layout) (start_address limit_address : Nat)
    (memory_bytes_array : Nat) : Nat → Step
  | 0, s => (Error.kOk, s)
  | k + 1, s =>
    let i := 18446744073709551616 - (k + 1)
    let s := s.note (Event.load (Array_size memory_bytes_array))
    if i < read64 s.mem (Array_size memory_bytes_array) then
      let memory_byte :=
        u64 (read64 s.mem (Array_elements memory_bytes_array) + i * L.MemoryBytes.size)
      let s := s.note (Event.load (u64 (memory_byte + L.memory_bytes_repeating)))
      if !repeating L s.mem memory_byte then
        RETURN_IF_RELOCATION_FAILED
          (AdjustPointer start_address limit_address CType.byte
            (Array_elements (u64 (memory_byte + L.memory_bytes_byte_values))))
          (RelocateMemoryBytesArray_loop L start_address limit_address memory_bytes_array k)
          s
      else
        RelocateMemoryBytesArray_loop L start_address limit_address memory_bytes_array k s
    else (Error.kOk, s)

/-- The function `SnapRelocator::RelocateMemoryBytesArray(memory_bytes_array)`.
`MemoryBytes::repeating()` reads the flag field of the entry. -/
def RelocateMemoryBytesArray (L : Layout) (start_address limit_address : Nat)
    (memory_bytes_array : Nat) : Step :=
  RETURN_IF_RELOCATION_FAILED
    (AdjustArray start_address limit_address L.MemoryBytes memory_bytes_array)
    (RelocateMemoryBytesArray_loop L start_address limit_address memory_bytes_array
      18446744073709551616)

/-- Body of the loop of `RelocateCorpus()` for the index `i`, followed by
`rest` (the remaining iterations). -/
def RelocateCorpus_body (L : Layout) (start_address limit_address : Nat) (i : Nat)
    (rest : Step) : Step := fun s =>
  let corpus := start_address
  let slot := fun (s : State) =>
    u64 (read64 s.mem (Array_elements (u64 (corpus + L.corpus_snaps))) + i * 8)
  RETURN_IF_RELOCATION_FAILED
    (AdjustPointer start_address limit_address L.Snap (slot s))
    (fun s =>
      let snap := read64 s.mem (slot s)
      RETURN_IF_RELOCATION_FAILED
        (AdjustPointer start_address limit_address CType.byte (u64 (snap + L.snap_id)))
      (RETURN_IF_RELOCATION_FAILED
        (AdjustArray start_address limit_address L.MemoryMapping
          (u64 (snap + L.snap_memory_mappings)))
      (RETURN_IF_RELOCATION_FAILED
        (AdjustPointer start_address limit_address L.RegisterState
          (u64 (snap + L.snap_registers)))
      (RETURN_IF_RELOCATION_FAILED
        (AdjustPointer start_address limit_address L.RegisterState
          (u64 (snap + L.snap_end_state_registers)))
      (RETURN_IF_RELOCATION_FAILED
        (RelocateMemoryBytesArray L start_address limit_address
          (u64 (snap + L.snap_memory_bytes)))
      (RETURN_IF_RELOCATION_FAILED
        (RelocateMemoryBytesArray L start_address limit_address
          (u64 (snap + L.snap_end_state_memory_bytes)))
        rest)))))
        s)
    s

/-- The loop of `RelocateCorpus()`; the first argument is `2^64 - i` as in
`RelocateMemoryBytesArray_loop`. -/
def RelocateCorpus_loop (L : Layout) (start_address limit_address : Nat) : Nat → Step
  | 0, s => (Error.kOk, s)
  | k + 1, s =>
    let i := 18446744073709551616 - (k + 1)
    let corpus := start_address
    let s := s.note (Event.load (Array_size (u64 (corpus + L.corpus_snaps))))
    if i < read64 s.mem (Array_size (u64 (corpus + L.corpus_snaps))) then
      RelocateCorpus_body L start_address limit_address i
        (RelocateCorpus_loop L start_address limit_address k) s
    else (Error.kOk, s)

/-- The function `SnapRelocator::RelocateCorpus()`, the relocation pass over the buffer
`[start_address, limit_address)`. -/
def RelocateCorpus (L : Layout) (start_address limit_address : Nat) : Step := fun s =>
  let s := s.note (Event.check start_address L.SnapCorpus.size)
  match ValidateRelocatedAddress start_address limit_address L.SnapCorpus start_address with
  | Error.kOk =>
    let corpus := start_address
    let s := s.note (Event.load (u64 (corpus + L.corpus_magic)))
    if read64 s.mem (u64 (corpus + L.corpus_magic)) ≠ L.kSnapCorpusMagic then
      (Error.kBadData, s)
    else
    let s := s.note (Event.load (u64 (corpus + L.corpus_corpus_type_size)))
    if read64 s.mem (u64 (corpus + L.corpus_corpus_type_size)) ≠ L.SnapCorpus.size then
      (Error.kBadData, s)
    else
    let s := s.note (Event.load (u64 (corpus + L.corpus_snap_type_size)))
    if read64 s.mem (u64 (corpus + L.corpus_snap_type_size)) ≠ L.Snap.size then
      (Error.kBadData, s)
    else
    let s := s.note (Event.load (u64 (corpus + L.corpus_register_state_type_size)))
    if read64 s.mem (u64 (corpus + L.corpus_register_state_type_size))
        ≠ L.RegisterState.size then
      (Error.kBadData, s)
    else
      RETURN_IF_RELOCATION_FAILED
        (AdjustArray start_address limit_address CType.pointer (u64 (corpus + L.corpus_snaps)))
        (RelocateCorpus_loop L start_address limit_address 18446744073709551616)
        s
  | error => (error, s)

/-- An `MmappedMemoryPtr<T>`: the mapped address (`get()`) and the mapped size
(`MmappedMemorySize`).  The null handle is `MakeMmappedMemoryPtr(nullptr, 0)`. -/
structure MmappedMemoryPtr where
  get : Nat
  byte_size : Nat
  deriving DecidableEq, Repr

/-- The helper `make_null_corpus()`. -/
def make_null_corpus : MmappedMemoryPtr := ⟨0, 0⟩

/-- What the static entry point returns: the corpus handle, the content of
`*error` and the buffer. -/
structure Relocated where
  corpus : MmappedMemoryPtr
  error : Error
  state : State

/-- The static function `SnapRelocator::RelocateCorpus(relocatable, error)`.
`mprotect addr len` is the return value of the system call
`mprotect(addr, len, PROT_READ)`; `error` is what `*error` held on entry. -/
def RelocateCorpus_static (L : Layout) (mprotect : Nat → Nat → Int)
    (relocatable : MmappedMemoryPtr) (error : Error) (s : State) : Relocated :=
  let byte_size := relocatable.byte_size
  if byte_size = 0 then
    let error := Error.kEmptyCorpus
    ⟨make_null_corpus, error, s⟩
  else
    let start_address := relocatable.get
    let limit_address := u64 (start_address + byte_size)
    let r := RelocateCorpus L start_address limit_address s
    let error := r.1
    if error ≠ Error.kOk then ⟨make_null_corpus, error, r.2⟩
    else if mprotect relocatable.get byte_size ≠ 0 then
      let error := Error.kMprotect
      ⟨make_null_corpus, error, r.2⟩
    else
      let corpus := relocatable.get
      let error := Error.kOk
      ⟨⟨corpus, byte_size⟩, error, r.2⟩

/-! ## Auxiliary definitions for the statements -/

/-- The state `AdjustPointer` leaves behind when the adjusted address `a` is rejected. -/
def rejected (T : CType) (ptr a : Nat) (s : State) : State :=
  (s.note (Event.load ptr)).note (Event.check a T.size)

/-- The state `AdjustPointer` leaves behind when the adjusted address `a` is accepted. -/
def accepted (T : CType) (ptr a : Nat) (s : State) : State :=
  ((rejected T ptr a s).write ptr a).note (Event.store ptr a T.size T.align)

/-- The header of the corpus at `start_address` passes every check of
`RelocateCorpus()` that precedes the first pointer rewrite. -/
def ValidHeader (L : Layout) (start_address limit_address : Nat) (m : Mem) : Prop :=
  ValidateRelocatedAddress start_address limit_address L.SnapCorpus start_address = Error.kOk
    ∧ read64 m (u64 (start_address + L.corpus_magic)) = L.kSnapCorpusMagic
    ∧ read64 m (u64 (start_address + L.corpus_corpus_type_size)) = L.SnapCorpus.size
    ∧ read64 m (u64 (start_address + L.corpus_snap_type_size)) = L.Snap.size
    ∧ read64 m (u64 (start_address + L.corpus_register_state_type_size))
        = L.RegisterState.size

instance (L : Layout) (start_address limit_address : Nat) (m : Mem) :
    Decidable (ValidHeader L start_address limit_address m) := by
  unfold ValidHeader; infer_instance

/-- What the relocator guarantees of a pointer value it stores: `AdjustPointer<T>`
stores an address `value` that is at or above `start_address`, is a multiple
of `alignof(T)`, and whose end `value + sizeof(T)`, computed in 64 bits, is at
most `limit_address`. -/
def StoreOk (start_address limit_address : Nat) : Event → Prop
  | Event.store _ value size align =>
    start_address ≤ value ∧ value % align = 0 ∧ u64 (value + size) ≤ limit_address
  | _ => True

/-- The pointer slot an event writes, if it writes one. -/
def Event.stores : Event → Option Nat
  | Event.store slot _ _ _ => some slot
  | Event.null slot => some slot
  | _ => none

/-- The pointer slots written in the course of a history. -/
def Written (t : List Event) : List Nat := t.filterMap Event.stores

/-- The 8 bytes at `a` share no byte with any pointer slot written in `t`. -/
def Fresh (t : List Event) (a : Nat) : Prop := ∀ p ∈ Written t, a + 8 ≤ p ∨ p + 8 ≤ a

/-- The 8 bytes at `a` lie inside the buffer. -/
def InBuf (start_address limit_address a : Nat) : Prop :=
  start_address ≤ a ∧ a + 8 ≤ limit_address

/-- The event `e`, coming after the history `t`, is an access of a traversal
without overflow and without sharing: a validated object does not extend past
the end of the 64-bit address space, and a field that is read as an offset or
a scalar, or written, lies inside the buffer and has not been written before. -/
def EventOk (start_address limit_address : Nat) (t : List Event) : Event → Prop
  | Event.check address size => address + size < 18446744073709551616
  | Event.load address => InBuf start_address limit_address address ∧ Fresh t address
  | Event.store slot _ _ _ => InBuf start_address limit_address slot ∧ Fresh t slot
  | Event.null slot => InBuf start_address limit_address slot ∧ Fresh t slot

/-- Every event of the history (newest first) is `EventOk` after the events
that precede it. -/
def Clean (start_address limit_address : Nat) : List Event → Prop
  | [] => True
  | e :: t => EventOk start_address limit_address t e ∧ Clean start_address limit_address t

instance (t : List Event) (a : Nat) : Decidable (Fresh t a) := by
  unfold Fresh; infer_instance

instance (start_address limit_address a : Nat) :
    Decidable (InBuf start_address limit_address a) := by
  unfold InBuf; infer_instance

instance (start_address limit_address : Nat) (t : List Event) (e : Event) :
    Decidable (EventOk start_address limit_address t e) := by
  cases e <;> unfold EventOk <;> infer_instance

/-- Decision procedure for `Clean`. -/
def Clean.decide (start_address limit_address : Nat) :
    (t : List Event) → Decidable (Clean start_address limit_address t)
  | [] => isTrue trivial
  | e :: t =>
    match Clean.decide start_address limit_address t with
    | isTrue h =>
      if h' : EventOk start_address limit_address t e then isTrue ⟨h', h⟩
      else isFalse fun hc => h' hc.1
    | isFalse h => isFalse fun hc => h hc.2

instance (start_address limit_address : Nat) (t : List Event) :
    Decidable (Clean start_address limit_address t) :=
  Clean.decide start_address limit_address t

/-- The alignments `alignof(T)` of the referent types the relocator checks. -/
def Layout.aligns (L : Layout) : List Nat :=
  [L.SnapCorpus.align, L.Snap.align, L.RegisterState.align, L.MemoryMapping.align,
    L.MemoryBytes.align, CType.byte.align, CType.pointer.align]

/-- The history of `s'` is the history of `s` with further events in front,
and every pointer stored by these is `StoreOk`. -/
def Extends (start_address limit_address : Nat) (s s' : State) : Prop :=
  ∃ evs, s'.trace = evs ++ s.trace ∧ ∀ e ∈ evs, StoreOk start_address limit_address e

/-- The step `f` only appends events to the history, and every pointer it
stores is `StoreOk`. -/
def Appends (start_address limit_address : Nat) (f : Step) : Prop :=
  ∀ s, Extends start_address limit_address s (f s).2

/-- The buffers of two runs, one on a copy of the file at `base₁` and one on a
copy at `base₂` (both of length `len`), are equal up to translation by the
bases, with respect to the history of the first run: every byte outside the
pointer slots written so far is the same in both; a slot into which
`AdjustPointer` stored holds `base₁ + o` in the first and `base₂ + o` in the
second buffer for the same offset `o`; a nulled slot holds null in both. -/
def Rel (base₁ base₂ len : Nat) (s₁ s₂ : State) : Prop :=
  (∀ k, k < len → (∀ p ∈ Written s₁.trace, base₁ + k < p ∨ p + 8 ≤ base₁ + k) →
      s₁.mem (base₁ + k) = s₂.mem (base₂ + k))
  ∧ (∀ p v size align, Event.store p v size align ∈ s₁.trace →
      ∃ po vo, p = base₁ + po ∧ po + 8 ≤ len ∧ v = base₁ + vo
        ∧ read64 s₁.mem p = v ∧ read64 s₂.mem (base₂ + po) = base₂ + vo)
  ∧ (∀ p, Event.null p ∈ s₁.trace →
      ∃ po, p = base₁ + po ∧ po + 8 ≤ len
        ∧ read64 s₁.mem p = 0 ∧ read64 s₂.mem (base₂ + po) = 0)

/-- The addresses `a₁` and `a₂` are computed by the same 64-bit arithmetic from
the two bases. -/
def Corr (base₁ base₂ a₁ a₂ : Nat) : Prop :=
  ∃ z, a₁ = u64 (base₁ + z) ∧ a₂ = u64 (base₂ + z)

/-- The steps `f₁` and `f₂`, run on the states `s₁` and `s₂` of the two copies,
agree: provided both histories come out `Clean`, the error codes are equal and
the buffers are again equal up to translation. -/
def SimAt (base₁ base₂ len : Nat) (f₁ f₂ : Step) (s₁ s₂ : State) : Prop :=
  Clean base₁ (base₁ + len) (f₁ s₁).2.trace → Clean base₂ (base₂ + len) (f₂ s₂).2.trace →
    (f₁ s₁).1 = (f₂ s₂).1 ∧ Rel base₁ base₂ len (f₁ s₁).2 (f₂ s₂).2

/-- The `elements` pointer of the array at `array` is ready to be followed: it
has been stored by `AdjustPointer`, or else the array is empty. -/
def ArrReady (array : Nat) (s : State) : Prop :=
  (∃ v size align, Event.store (Array_elements array) v size align ∈ s.trace)
    ∨ read64 s.mem (Array_size array) = 0

/-- What `AdjustArray` does after `AdjustPointer(array.elements)` succeeded:
the check of the last element. -/
def AdjustArray_last (start_address limit_address : Nat) (T : CType) (array : Nat) : Step :=
  fun s =>
    let s := s.note (Event.load (Array_size array))
    let size := read64 s.mem (Array_size array)
    let elements := read64 s.mem (Array_elements array)
    let last := u64 (elements + u64 (size + 18446744073709551615) * T.size)
    let s := s.note (Event.check last T.size)
    (ValidateRelocatedAddress start_address limit_address T last, s)

/-- What the body of the loop of `RelocateCorpus()` does with the `Snap` at
address `snap`, once `corpus.snaps[i]` has been adjusted; `rest` is what
follows. -/
def RelocateCorpus_snap (L : Layout) (start_address limit_address snap : Nat)
    (rest : Step) : Step :=
  RETURN_IF_RELOCATION_FAILED
    (AdjustPointer start_address limit_address CType.byte (u64 (snap + L.snap_id)))
  (RETURN_IF_RELOCATION_FAILED
    (AdjustArray start_address limit_address L.MemoryMapping
      (u64 (snap + L.snap_memory_mappings)))
  (RETURN_IF_RELOCATION_FAILED
    (AdjustPointer start_address limit_address L.RegisterState
      (u64 (snap + L.snap_registers)))
  (RETURN_IF_RELOCATION_FAILED
    (AdjustPointer start_address limit_address L.RegisterState
      (u64 (snap + L.snap_end_state_registers)))
  (RETURN_IF_RELOCATION_FAILED
    (RelocateMemoryBytesArray L start_address limit_address
      (u64 (snap + L.snap_memory_bytes)))
  (RETURN_IF_RELOCATION_FAILED
    (RelocateMemoryBytesArray L start_address limit_address
      (u64 (snap + L.snap_end_state_memory_bytes)))
    rest)))))

/-- One header check of `RelocateCorpus()`: read the field at `address`,
answer `kBadData` unless it holds `expected`, otherwise go on with `next`. -/
def checkField (address expected : Nat) (next : Step) : Step := fun s =>
  let s := s.note (Event.load address)
  if read64 s.mem address ≠ expected then (Error.kBadData, s) else next s

/-! ## A concrete layout and concrete corpora

The layout below follows the declaration order of the structs with 64-bit
fields; it is used for the concrete evaluations only. -/

/-- Modelled from the spec: a layout of `snap/snap.h` for a 64-bit target,
fields in the order of the spec, 8 bytes each: `SnapCorpus { magic, corpus_type_size,
snap_type_size, register_state_type_size, snaps }`, `Snap { id,
memory_mappings, memory_bytes, end_state_memory_bytes, registers,
end_state_registers }`, `MemoryBytes { start_address, size, repeating flag,
data }`. -/
def L64 : Layout where
  SnapCorpus := ⟨48, 8⟩
  Snap := ⟨72, 8⟩
  RegisterState := ⟨64, 16⟩
  MemoryMapping := ⟨24, 8⟩
  MemoryBytes := ⟨40, 8⟩
  kSnapCorpusMagic := 6011426416574460528
  corpus_magic := 0
  corpus_corpus_type_size := 8
  corpus_snap_type_size := 16
  corpus_register_state_type_size := 24
  corpus_snaps := 32
  snap_id := 0
  snap_memory_mappings := 8
  snap_memory_bytes := 24
  snap_end_state_memory_bytes := 40
  snap_registers := 56
  snap_end_state_registers := 64
  memory_bytes_repeating := 16
  memory_bytes_byte_values := 24

/-- The buffer holding the 64-bit words `words` (pairs of file offset and
value) when the file is mapped at `base`; every other byte is 0. -/
def image (base : Nat) (words : List (Nat × Nat)) : State :=
  ⟨words.foldl (fun m w => write64 m (base + w.1) w.2) (fun _ => 0), []⟩

/-- A corpus header for `L64` with `snaps.size = n` and `snaps.elements = e`. -/
def header (n e : Nat) : List (Nat × Nat) :=
  [(0, 6011426416574460528), (8, 48), (16, 72), (24, 64), (32, n), (40, e)]

/-- A corpus for `L64` with one snap at offset 64: `snaps.elements` is at
offset 48, the snap has the id at offset 200, both register states at offset
256, and three empty arrays whose `elements` fields hold the stale value 999. -/
def one_snap : List (Nat × Nat) :=
  header 1 48 ++ [(48, 64), (64, 200), (72, 0), (80, 999), (88, 0), (96, 999), (104, 0),
    (112, 999), (120, 256), (128, 256)]

/-- A corpus for `L64` whose two entries `snaps[0]` and `snaps[1]` both hold the
offset 64 of the same snap. -/
def shared_snap : List (Nat × Nat) :=
  header 2 48 ++ [(48, 64), (56, 64), (64, 200), (120, 256), (128, 256)]

/-! # SiliFuzz: snap maker (`runner/snap_maker.h`, `runner/snap_maker.cc`)

A shallow embedding of `SnapMaker`.  Snapshots are values; the functions of
the repository that `SnapMaker` calls and that are not among the sources
(`Snapify`, the runner driver, the `can_add_*` predicates of `Snapshot`, ...)
are the fields of `Env`, so every theorem holds whatever these functions
compute. -/

/-! ## Status values -/

/-- The codes of `absl::Status` that the snap maker produces, and any other. -/
inductive StatusCode
  | kOk
  | kInvalidArgument
  | kInternal
  | kOther (code : Nat)
  deriving DecidableEq, Repr

/-- An `absl::Status`: a code and a message. -/
structure Status where
  code : StatusCode
  message : String
  deriving DecidableEq, Repr

/-- The status `absl::OkStatus()`. -/
def OkStatus : Status := ⟨StatusCode.kOk, ""⟩

/-- The status `absl::InvalidArgumentError(message)`. -/
def InvalidArgumentError (message : String) : Status := ⟨StatusCode.kInvalidArgument, message⟩

/-- The status `absl::InternalError(message)`. -/
def InternalError (message : String) : Status := ⟨StatusCode.kInternal, message⟩

/-- The test `status.ok()`. -/
def Status.ok (status : Status) : Bool := status.code == StatusCode.kOk

/-- The method `absl::Status::Update(new_status)`: an ok status takes the new
status, a status that is not ok stays as it is. -/
def Status.Update (status new_status : Status) : Status :=
  if status.ok then new_status else status

/-- How a call of the snap maker ends: with a value, with an error status,
with the process aborted by a failed `CHECK`, or with undefined behaviour. -/
inductive Result (α : Type)
  | value (a : α)
  | error (status : Status)
  | check_failed
  | undefined_behavior
  deriving DecidableEq, Repr

/-- An `absl::StatusOr<T>` returned by a function that is not among the sources. -/
abbrev StatusOr (α : Type) := Except Status α

/-! ## Snapshots

`common/snapshot.h` and `common/snapshot_enums.h` are not among the sources. -/

/-- Modelled from the spec: `MemoryPerms`, a set over R, W, X. -/
structure MemoryPerms where
  r : Bool
  w : Bool
  x : Bool
  deriving DecidableEq, Repr

/-- Modelled from the spec: `MemoryPerms::RW()`, "permissions `RW` (never `X`)". -/
def MemoryPerms.RW : MemoryPerms := ⟨true, true, false⟩

/-- Modelled from the spec: `Snapshot::MemoryMapping`, the byte interval
`[start_address, limit_address)` with its permissions. -/
structure MemoryMapping where
  start_address : Nat
  limit_address : Nat
  perms : MemoryPerms
  deriving DecidableEq, Repr

/-- Modelled from the spec: `Snapshot::MemoryMapping::MakeRanged(start_address,
limit_address, perms)`, the mapping `[s, l)` with the permissions given. -/
def MemoryMapping.MakeRanged (start_address limit_address : Nat) (perms : MemoryPerms) :
    MemoryMapping := ⟨start_address, limit_address, perms⟩

/-- Modelled from the spec: `Snapshot::MemoryBytes`, the pair `(start, bytes)`
that asserts the content of `[start, start + len(bytes))`. -/
structure MemoryBytes where
  start_address : Nat
  byte_values : List Nat
  deriving DecidableEq, Repr

/-- Modelled from the spec: `MemoryBytes::limit_address()`, the end
`start + len(bytes)` of the region. -/
def MemoryBytes.limit_address (memory_bytes : MemoryBytes) : Nat :=
  memory_bytes.start_address + memory_bytes.byte_values.length

/-- The enum `snapshot_types::SigNum`: the two signals the maker tells apart,
and any other. -/
inductive SigNum
  | kSigTrap
  | kSigSegv
  | kOther (signal : Nat)
  deriving DecidableEq, Repr

/-- The enum `snapshot_types::SigCause`. -/
inductive SigCause
  | kGenericSigCause
  | kSegvCantExec
  | kSegvCantWrite
  | kSegvCantRead
  | kSegvOverflow
  | kSegvGeneralProtection
  deriving DecidableEq, Repr

/-- The enum `Endpoint::Type`. -/
inductive EndpointType
  | kInstruction
  | kSignal
  deriving DecidableEq, Repr

/-- Modelled from the spec: `Snapshot::Endpoint`, either an instruction
endpoint or a signal endpoint.  The accessors `type()`, `instruction_address()`
/ `sig_instruction_address()`, `sig_address()`, `sig_num()` and `sig_cause()`
return the stored fields. -/
structure Endpoint where
  type : EndpointType
  instruction_address : Nat
  sig_address : Nat
  sig_num : SigNum
  sig_cause : SigCause
  deriving DecidableEq, Repr

/-- Modelled from the spec: `Endpoint::sig_instruction_address()`, the address
of the instruction of a signal endpoint. -/
def Endpoint.sig_instruction_address (endpoint : Endpoint) : Nat :=
  endpoint.instruction_address

/-- Modelled from the spec: the constructor `Endpoint(instruction_address)` of
the endpoint `Instruction@address`; the signal fields are not used. -/
def Endpoint.ofAddress (instruction_address : Nat) : Endpoint :=
  ⟨EndpointType.kInstruction, instruction_address, 0, SigNum.kOther 0,
    SigCause.kGenericSigCause⟩

/-- A register state, as an uninterpreted sequence of bytes. -/
abbrev RegisterState := List Nat

/-- A platform id. -/
abbrev PlatformId := Nat

/-- Modelled from the spec: `Snapshot::EndState`, `{endpoint, memory_bytes[],
register_state, platforms[]}`; the undefined end state carries the endpoint
only. -/
structure EndState where
  endpoint : Endpoint
  registers : Option RegisterState
  memory_bytes : List MemoryBytes
  platforms : List PlatformId
  deriving DecidableEq, Repr

/-- Modelled from the spec: the constructor `EndState(endpoint)` of the
undefined end state, which carries the endpoint only. -/
def EndState.ofEndpoint (endpoint : Endpoint) : EndState := ⟨endpoint, none, [], []⟩

/-- Modelled from the spec: `EndState::set_platforms`, which "stamps" the end
state with the platforms given. -/
def EndState.set_platforms (end_state : EndState) (platforms : List PlatformId) : EndState :=
  { end_state with platforms := platforms }

/-- Modelled from the spec: `Snapshot::TraceData`. -/
structure TraceData where
  num_instructions : Nat
  human_readable_disassembly : String
  platforms : List PlatformId
  deriving DecidableEq, Repr

/-- Modelled from the spec: `Snapshot`, with the attributes of section 3 of the
spec.  The setters replace a list, the `add_*` methods append to it. -/
structure Snapshot where
  id : String
  architecture_id : Nat
  memory_mappings : List MemoryMapping
  memory_bytes : List MemoryBytes
  negative_memory_mappings : List MemoryMapping
  registers : RegisterState
  expected_end_states : List EndState
  trace_data : List TraceData
  deriving DecidableEq, Repr

/-- Modelled from the spec: `Snapshot::set_expected_end_states`, which replaces
the expected end states ("drop all expected end-states"). -/
def Snapshot.set_expected_end_states (s : Snapshot) (xs : List EndState) : Snapshot :=
  { s with expected_end_states := xs }

/-- Modelled from the spec: `Snapshot::set_negative_memory_mappings`, which
replaces the negative memory mappings. -/
def Snapshot.set_negative_memory_mappings (s : Snapshot) (xs : List MemoryMapping) :
    Snapshot :=
  { s with negative_memory_mappings := xs }

/-- Modelled from the spec: `Snapshot::add_expected_end_state`, which appends an
expected end state. -/
def Snapshot.add_expected_end_state (s : Snapshot) (x : EndState) : Snapshot :=
  { s with expected_end_states := s.expected_end_states ++ [x] }

/-- Modelled from the spec: `Snapshot::add_memory_mapping`, which appends a
mapping ("add a fresh mapping"). -/
def Snapshot.add_memory_mapping (s : Snapshot) (x : MemoryMapping) : Snapshot :=
  { s with memory_mappings := s.memory_mappings ++ [x] }

/-- Modelled from the spec: `Snapshot::add_memory_bytes`, which appends a
memory-bytes region. -/
def Snapshot.add_memory_bytes (s : Snapshot) (x : MemoryBytes) : Snapshot :=
  { s with memory_bytes := s.memory_bytes ++ [x] }

/-! ## The runner -/

/-- The enum `snapshot_types::PlaybackOutcome`. -/
inductive PlaybackOutcome
  | kAsExpected
  | kMemoryMismatch
  | kRegisterStateMismatch
  | kExecutionMisbehave
  | kExecutionRunaway
  | kEndpointMismatch
  | kPlatformMismatch
  deriving DecidableEq, Repr

/-- The enum `snapshot_types::MakerStopReason`. -/
inductive MakerStopReason
  | kEndpoint
  | kSigTrap
  | kCannotAddMemory
  | kGeneralProtectionSigSegv
  | kHardSigSegv
  | kSignal
  | kTimeBudget
  deriving DecidableEq, Repr

/-- The player result inside a `RunnerDriver::RunResult`. -/
structure PlayerResult where
  outcome : PlaybackOutcome
  actual_end_state : Option EndState
  deriving DecidableEq, Repr

/-- Modelled from the spec: `RunnerDriver::RunResult`, `{ success: bool,
player_result: { outcome, actual_end_state? } }`. -/
structure RunResult where
  success : Bool
  player_result : PlayerResult
  deriving DecidableEq, Repr

/-- A handle on a `RunnerDriver`. -/
abbrev RunnerDriver := Nat

/-- The options `SnapifyOptions::V2InputMakeOpts(arch)` and
`SnapifyOptions::V2InputRunOpts(arch)`. -/
inductive SnapifyOptions
  | V2InputMakeOpts (architecture_id : Nat)
  | V2InputRunOpts (architecture_id : Nat)
  deriving DecidableEq, Repr

/-! ## `MemoryBytesSet` -/

/-- Modelled from the spec: `MemoryBytesSet` of `common/memory_bytes_set.h`,
which is not among the sources, "an ordered interval set keyed by byte
address": the intervals `(start, limit)` in ascending order, pairwise disjoint
and not adjacent. -/
abbrev MemoryBytesSet := List (Nat × Nat)

/-- Modelled from the spec: the union step of `MemoryBytesSet::Add`, the
insertion of the non-empty interval `[start, limit)` into an ordered interval
set, coalescing with the intervals it overlaps or touches. -/
def MemoryBytesSet.insert (start limit : Nat) : MemoryBytesSet → MemoryBytesSet
  | [] => [(start, limit)]
  | (lo, hi) :: rest =>
    if hi < start then (lo, hi) :: MemoryBytesSet.insert start limit rest
    else if limit < lo then (start, limit) :: (lo, hi) :: rest
    else MemoryBytesSet.insert (min start lo) (max limit hi) rest

/-- Modelled from the spec: `MemoryBytesSet::Add(start, limit)`, "union in
`[start, limit)`, coalescing adjacent/overlapping intervals". -/
def MemoryBytesSet.Add (s : MemoryBytesSet) (start limit : Nat) : MemoryBytesSet :=
  if start < limit then MemoryBytesSet.insert start limit s else s

/-- Modelled from the spec: the subtraction step of `MemoryBytesSet::Remove`,
the removal of the non-empty interval `[start, limit)` from an ordered interval
set: of every interval the part below `start` and the part at and above
`limit` are kept. -/
def MemoryBytesSet.erase (start limit : Nat) : MemoryBytesSet → MemoryBytesSet
  | [] => []
  | (lo, hi) :: rest =>
    (if lo < min hi start then [(lo, min hi start)] else [])
      ++ ((if max lo limit < hi then [(max lo limit, hi)] else [])
      ++ MemoryBytesSet.erase start limit rest)

/-- Modelled from the spec: `MemoryBytesSet::Remove(start, limit)`, "subtract". -/
def MemoryBytesSet.Remove (s : MemoryBytesSet) (start limit : Nat) : MemoryBytesSet :=
  if start < limit then MemoryBytesSet.erase start limit s else s

/-- Modelled from the spec: `MemoryBytesSet::Iterate(f)` "yields the current
intervals in ascending order, each as `(start, limit)`"; `f` takes the state
it works on and returns it. -/
def MemoryBytesSet.Iterate {σ : Type} (s : MemoryBytesSet) (f : σ → Nat → Nat → σ) (init : σ) :
    σ :=
  s.foldl (fun acc interval => f acc interval.1 interval.2) init

/-- Modelled from the spec: `Overlaps(start, limit)` of the reserved memory
mappings: some reserved interval shares an address with `[start, limit)`. -/
def MemoryBytesSet.Overlaps (s : MemoryBytesSet) (start limit : Nat) : Bool :=
  s.any fun interval => decide (max interval.1 start < min interval.2 limit)

/-! ## Tracing -/

/-- Modelled from the spec: `TraceOptions` of `player/trace_options.h`, the
"configured instruction-count budget" of the tracer. -/
structure TraceOptions where
  instruction_count_limit : Nat
  deriving DecidableEq, Repr

/-- Modelled from the spec: `DisassemblingSnapTracer::TraceResult`, the
`early_termination_reason` and what is read back on success,
`{instructions_executed, disassembly[]}`. -/
structure TraceResult where
  early_termination_reason : String
  instructions_executed : Nat
  disassembly : List String
  deriving DecidableEq, Repr

/-! ## The collaborators of the snap maker -/

/-- The functions and constants the snap maker uses that are not among the
sources. -/
structure Env where
  /-- The page size of `IsPageAligned` (`util/page_util.h`). -/
  kPageSize : Nat
  /-- The set `ReservedMemoryMappings()`. -/
  ReservedMemoryMappings : MemoryBytesSet
  /-- The check `Snapshot::MemoryMapping::CanMakeRanged(start, limit)`. -/
  CanMakeRanged : Nat → Nat → Status
  /-- The check `Snapshot::can_add_memory_mapping`. -/
  can_add_memory_mapping : Snapshot → MemoryMapping → Status
  /-- The check `Snapshot::can_add_memory_bytes`. -/
  can_add_memory_bytes : Snapshot → MemoryBytes → Status
  /-- The check `Snapshot::can_add_expected_end_state`. -/
  can_add_expected_end_state : Snapshot → EndState → Status
  /-- The check `Snapshot::IsComplete()`. -/
  IsComplete : Snapshot → Status
  /-- The negative memory mappings of the snapshot after
  `Snapshot::AddNegativeMemoryMappingsFor(end_state)`, or its error. -/
  AddNegativeMemoryMappingsFor : Snapshot → EndState → StatusOr (List MemoryMapping)
  /-- The transform `Snapify(snapshot, opts)`. -/
  Snapify : Snapshot → SnapifyOptions → StatusOr Snapshot
  /-- The factory `RunnerDriverFromSnapshot(snapshot, runner_path)`. -/
  RunnerDriverFromSnapshot : Snapshot → String → StatusOr RunnerDriver
  /-- The call `RunnerDriver::MakeOne(snap_id, max_pages_to_add)`. -/
  MakeOne : RunnerDriver → String → Int → StatusOr RunResult
  /-- The call `RunnerDriver::VerifyOneRepeatedly(snap_id, num_attempts)`. -/
  VerifyOneRepeatedly : RunnerDriver → String → Int → StatusOr RunResult
  /-- The call `RunnerDriver::TraceOne(snap_id, step)` with the `Step` of a
  `DisassemblingSnapTracer` made from the snapshot and the trace options: what
  the call returns and the `trace_result()` of the tracer after it. -/
  TraceOne : RunnerDriver → String → Snapshot → TraceOptions →
    StatusOr RunResult × TraceResult
  /-- Whether the code is compiled for x86_64 (`defined(__x86_64__)`). -/
  x86_64 : Bool
  /-- The test `VLOG_IS_ON(level)`. -/
  VLOG_IS_ON : Nat → Bool
  /-- The constant `CurrentPlatformId()`. -/
  CurrentPlatformId : PlatformId
  /-- The name `EnumStr(stop_reason)`. -/
  EnumStr_MakerStopReason : MakerStopReason → String
  /-- The name `EnumStr(outcome)`. -/
  EnumStr_PlaybackOutcome : PlaybackOutcome → String
  /-- The name `EnumStr(sig_num)`. -/
  EnumStr_SigNum : SigNum → String
  /-- The name `EnumStr(sig_cause)`. -/
  EnumStr_SigCause : SigCause → String

/-- Modelled from the spec: `IsPageAligned(address)` of `util/page_util.h`: the
address is a multiple of the page size. -/
def IsPageAligned (env : Env) (address : Nat) : Bool := address % env.kPageSize == 0

/-- The formatter `absl::Hex(value)`: lowercase hexadecimal digits. -/
def Hex (value : Nat) : String := String.mk (Nat.toDigits 16 value)

/-- Modelled from the spec: the macro `RETURN_IF_NOT_OK_PLUS(status, text)` of
`util/checks.h`, which "propagates failure": the status returned when `status`
is not ok, the same code with `text` put before the message. -/
def PLUS (status : Status) (text : String) : Status :=
  ⟨status.code, text ++ status.message⟩

/-! ## `SnapMaker` -/

/-- The struct `SnapMaker::Options`. -/
structure SnapMaker.Options where
  runner_path : String := ""
  max_pages_to_add : Int := 5
  num_verify_attempts : Int := 5
  deriving DecidableEq, Repr

/-- The method `SnapMaker::Options::Validate()`. -/
def SnapMaker.Options.Validate (opts : SnapMaker.Options) : Status :=
  if opts.runner_path.isEmpty then InvalidArgumentError "runner_path must be non-empty"
  else if opts.max_pages_to_add < 0 then InvalidArgumentError "max_pages_to_add < 0"
  else if opts.num_verify_attempts ≤ 0 then InvalidArgumentError "num_verify_attempts <= 0"
  else OkStatus

/-- The lambda `add_mapping` of `AddWritableMemoryForEndState`: the status it
returns and the snapshot it leaves behind. -/
def SnapMaker.add_mapping (env : Env) (snapshot : Snapshot) (start_address limit_address : Nat) :
    Status × Snapshot :=
  if !IsPageAligned env start_address || !IsPageAligned env limit_address then
    (InternalError ("New memory bytes not page-aligned: [" ++ Hex start_address ++ ", "
      ++ Hex limit_address ++ ")"), snapshot)
  else if env.ReservedMemoryMappings.Overlaps start_address limit_address then
    (InternalError ("New memory mapping overlaps with reserved memory mappings: ["
      ++ Hex start_address ++ ", " ++ Hex limit_address ++ ")"), snapshot)
  else if !(env.CanMakeRanged start_address limit_address).ok then
    (env.CanMakeRanged start_address limit_address, snapshot)
  else
    let m := MemoryMapping.MakeRanged start_address limit_address MemoryPerms.RW
    if !(env.can_add_memory_mapping snapshot m).ok then
      (env.can_add_memory_mapping snapshot m, snapshot)
    else
      let snapshot := snapshot.add_memory_mapping m
      let zero_memory_bytes : MemoryBytes :=
        ⟨start_address, List.replicate (limit_address - start_address) 0⟩
      if !(env.can_add_memory_bytes snapshot zero_memory_bytes).ok then
        (env.can_add_memory_bytes snapshot zero_memory_bytes, snapshot)
      else
        (OkStatus, snapshot.add_memory_bytes zero_memory_bytes)

/-- The set `memory_bytes_set` of `AddWritableMemoryForEndState` when it is
iterated: the memory bytes of the end state minus the memory mappings of the
snapshot. -/
def SnapMaker.new_memory (snapshot : Snapshot) (end_state : EndState) : MemoryBytesSet :=
  let memory_bytes_set : MemoryBytesSet :=
    end_state.memory_bytes.foldl
      (fun set memory_bytes => set.Add memory_bytes.start_address memory_bytes.limit_address) []
  snapshot.memory_mappings.foldl
    (fun set mapping => set.Remove mapping.start_address mapping.limit_address)
    memory_bytes_set

/-- What the lambda passed to `Iterate` does with one interval:
`status.Update(add_mapping(snapshot, start_address, limit_address))`. -/
def SnapMaker.visit (env : Env) (acc : Status × Snapshot) (start_address limit_address : Nat) :
    Status × Snapshot :=
  (acc.1.Update (SnapMaker.add_mapping env acc.2 start_address limit_address).1,
    (SnapMaker.add_mapping env acc.2 start_address limit_address).2)

/-- The method `SnapMaker::AddWritableMemoryForEndState(snapshot, end_state)`:
the status it returns and what `*snapshot` holds afterwards. -/
def SnapMaker.AddWritableMemoryForEndState (env : Env) (snapshot : Snapshot)
    (end_state : EndState) : Status × Snapshot :=
  (SnapMaker.new_memory snapshot end_state).Iterate (SnapMaker.visit env) (OkStatus, snapshot)

/-- The first part of `SnapMaker::Make`, up to the call of the runner: the
snapshot `copy` that is run and the `make_result` of `MakeOne`. -/
def SnapMaker.Make_run (env : Env) (opts : SnapMaker.Options) (snapshot : Snapshot) :
    Result (Snapshot × RunResult) :=
  match snapshot.expected_end_states with
  | [] => Result.check_failed
  | es :: _ =>
    let copy := snapshot
    let orig_endpoint_address :=
      if es.endpoint.type = EndpointType.kInstruction then es.endpoint.instruction_address
      else es.endpoint.sig_instruction_address
    let undef_end_state := EndState.ofEndpoint (Endpoint.ofAddress orig_endpoint_address)
    let copy := copy.set_expected_end_states []
    let copy := copy.set_negative_memory_mappings []
    if !(env.can_add_expected_end_state copy undef_end_state).ok then
      Result.error (PLUS (env.can_add_expected_end_state copy undef_end_state)
        "Cannot add an undef endstate:")
    else
      let copy := copy.add_expected_end_state undef_end_state
      let snapify_opts := SnapifyOptions.V2InputMakeOpts copy.architecture_id
      match env.Snapify copy snapify_opts with
      | Except.error status => Result.error status
      | Except.ok copy =>
        match env.RunnerDriverFromSnapshot copy opts.runner_path with
        | Except.error status => Result.error status
        | Except.ok runner_driver =>
          match env.MakeOne runner_driver copy.id opts.max_pages_to_add with
          | Except.error status => Result.error status
          | Except.ok make_result => Result.value (copy, make_result)

/-- The `switch` of `SnapMaker::Make` over the playback outcome: the stop
reason, or the error returned from inside the `switch`. -/
def SnapMaker.Make_stop_reason (env : Env) (copy : Snapshot) (outcome : PlaybackOutcome)
    (actual_endpoint : Endpoint) : Except Status MakerStopReason :=
  match outcome with
  | PlaybackOutcome.kAsExpected =>
    Except.error (InternalError ("Impossible: snapshot " ++ copy.id
      ++ " did not run successfully but ended as expected"))
  | PlaybackOutcome.kMemoryMismatch => Except.ok MakerStopReason.kEndpoint
  | PlaybackOutcome.kRegisterStateMismatch => Except.ok MakerStopReason.kEndpoint
  | PlaybackOutcome.kExecutionMisbehave =>
    let stop_reason := MakerStopReason.kSignal
    if actual_endpoint.sig_num = SigNum.kSigTrap then Except.ok MakerStopReason.kSigTrap
    else if actual_endpoint.sig_num = SigNum.kSigSegv then
      match actual_endpoint.sig_cause with
      | SigCause.kSegvCantRead => Except.ok MakerStopReason.kCannotAddMemory
      | SigCause.kSegvCantWrite => Except.ok MakerStopReason.kCannotAddMemory
      | SigCause.kSegvGeneralProtection => Except.ok MakerStopReason.kGeneralProtectionSigSegv
      | SigCause.kSegvCantExec => Except.ok MakerStopReason.kHardSigSegv
      | SigCause.kSegvOverflow => Except.ok MakerStopReason.kHardSigSegv
      | SigCause.kGenericSigCause => Except.ok MakerStopReason.kHardSigSegv
    else Except.ok stop_reason
  | PlaybackOutcome.kExecutionRunaway => Except.ok MakerStopReason.kTimeBudget
  | PlaybackOutcome.kEndpointMismatch =>
    Except.error (InternalError ("Unsupported outcome " ++ env.EnumStr_PlaybackOutcome outcome))
  | PlaybackOutcome.kPlatformMismatch =>
    Except.error (InternalError ("Unsupported outcome " ++ env.EnumStr_PlaybackOutcome outcome))

/-- The second part of `SnapMaker::Make`, from the result of the runner on.
Reading `actual_end_state->endpoint()` of an `actual_end_state` that has no
value is undefined behaviour. -/
def SnapMaker.Make_finish (env : Env) (copy : Snapshot) (make_result : RunResult) :
    Result Snapshot :=
  if make_result.success then
    Result.error (InternalError ("Unlikely: snapshot " ++ copy.id
      ++ " had an undefined end state yet ran successfully"))
  else
    match make_result.player_result.actual_end_state with
    | none => Result.undefined_behavior
    | some actual_end_state =>
      let actual_endpoint := actual_end_state.endpoint
      match SnapMaker.Make_stop_reason env copy make_result.player_result.outcome
          actual_endpoint with
      | Except.error status => Result.error status
      | Except.ok stop_reason =>
        if stop_reason ≠ MakerStopReason.kEndpoint then
          let msg := env.EnumStr_MakerStopReason stop_reason ++ " isn't Snap-compatible."
          let msg :=
            if actual_endpoint.type = EndpointType.kSignal then
              msg ++ " Endpoint = \x7b" ++ env.EnumStr_SigNum actual_endpoint.sig_num ++ "/"
                ++ env.EnumStr_SigCause actual_endpoint.sig_cause ++ "\x7d"
            else msg
          Result.error (InternalError msg)
        else
          let added := SnapMaker.AddWritableMemoryForEndState env copy actual_end_state
          if !added.1.ok then Result.error added.1
          else
            let copy := added.2
            let repaired_end_state := EndState.ofEndpoint actual_endpoint
            let copy := copy.set_expected_end_states []
            if !(env.can_add_expected_end_state copy repaired_end_state).ok then
              Result.error (env.can_add_expected_end_state copy repaired_end_state)
            else
              Result.value (copy.add_expected_end_state repaired_end_state)

/-- The method `SnapMaker::Make(snapshot)`. -/
def SnapMaker.Make (env : Env) (opts : SnapMaker.Options) (snapshot : Snapshot) :
    Result Snapshot :=
  match SnapMaker.Make_run env opts snapshot with
  | Result.value (copy, make_result) => SnapMaker.Make_finish env copy make_result
  | Result.error status => Result.error status
  | Result.check_failed => Result.check_failed
  | Result.undefined_behavior => Result.undefined_behavior

/-- The first part of `SnapMaker::RecordEndState`, up to the call of the
runner: the snapshot `snapified` and the `record_result` of `MakeOne`. -/
def SnapMaker.RecordEndState_run (env : Env) (opts : SnapMaker.Options) (snapshot : Snapshot) :
    Result (Snapshot × RunResult) :=
  let snapify_opts := SnapifyOptions.V2InputMakeOpts snapshot.architecture_id
  match env.Snapify snapshot snapify_opts with
  | Except.error status => Result.error status
  | Except.ok snapified =>
    match env.RunnerDriverFromSnapshot snapified opts.runner_path with
    | Except.error status => Result.error status
    | Except.ok recorder =>
      match env.MakeOne recorder snapified.id 0 with
      | Except.error status => Result.error status
      | Except.ok record_result => Result.value (snapified, record_result)

/-- The second part of `SnapMaker::RecordEndState`, from the result of the
runner on. -/
def SnapMaker.RecordEndState_finish (env : Env) (snapified : Snapshot)
    (record_result : RunResult) : Result Snapshot :=
  if record_result.success then
    if !(env.IsComplete snapified).ok then Result.error (env.IsComplete snapified)
    else Result.value snapified
  else
    match record_result.player_result.actual_end_state with
    | none => Result.error (InternalError "The runner didn't report actual_end_state")
    | some actual_end_state =>
      let actual_end_state := actual_end_state.set_platforms [env.CurrentPlatformId]
      let snapified := snapified.set_expected_end_states []
      match env.AddNegativeMemoryMappingsFor snapified actual_end_state with
      | Except.error status => Result.error status
      | Except.ok negative_memory_mappings =>
        let snapified := snapified.set_negative_memory_mappings negative_memory_mappings
        if !(env.can_add_expected_end_state snapified actual_end_state).ok then
          Result.error (env.can_add_expected_end_state snapified actual_end_state)
        else
          let snapified := snapified.add_expected_end_state actual_end_state
          if !(env.IsComplete snapified).ok then Result.error (env.IsComplete snapified)
          else Result.value snapified

/-- The method `SnapMaker::RecordEndState(snapshot)`. -/
def SnapMaker.RecordEndState (env : Env) (opts : SnapMaker.Options) (snapshot : Snapshot) :
    Result Snapshot :=
  match SnapMaker.RecordEndState_run env opts snapshot with
  | Result.value (snapified, record_result) =>
    SnapMaker.RecordEndState_finish env snapified record_result
  | Result.error status => Result.error status
  | Result.check_failed => Result.check_failed
  | Result.undefined_behavior => Result.undefined_behavior

/-! ## Predicates on snapshots -/

/-- Two mappings overlap: some address lies in both. -/
def MemoryMapping.Overlaps (m n : MemoryMapping) : Prop :=
  max m.start_address n.start_address < min m.limit_address n.limit_address

/-- The invariant (P1) of the spec: the memory mappings of the snapshot are
pairwise disjoint and page-aligned. -/
def Snapshot.P1 (env : Env) (s : Snapshot) : Prop :=
  s.memory_mappings.Pairwise (fun m n => ¬ m.Overlaps n) ∧
  ∀ m ∈ s.memory_mappings,
    IsPageAligned env m.start_address = true ∧ IsPageAligned env m.limit_address = true

/-- The invariant (P2) of the spec: every region of the memory bytes of the
snapshot is contained in some mapping of the snapshot. -/
def Snapshot.P2 (s : Snapshot) : Prop :=
  ∀ b ∈ s.memory_bytes, ∃ m ∈ s.memory_mappings,
    m.start_address ≤ b.start_address ∧ b.limit_address ≤ m.limit_address

/-- The intervals are in ascending order, non-empty and apart from each other. -/
def MemoryBytesSet.Ascending (s : MemoryBytesSet) : Prop :=
  s.Pairwise (fun a b => a.2 < b.1) ∧ ∀ a ∈ s, a.1 < a.2

/-- The address lies in one of the intervals. -/
def MemoryBytesSet.Contains (s : MemoryBytesSet) (address : Nat) : Prop :=
  ∃ a ∈ s, a.1 ≤ address ∧ address < a.2

/-- The call of `add_mapping` for the interval `[start_address, limit_address)`
when the intervals `before` have been visited. -/
def SnapMaker.add_mapping_after (env : Env) (snapshot : Snapshot) (before : MemoryBytesSet)
    (start_address limit_address : Nat) : Status × Snapshot :=
  SnapMaker.add_mapping env (before.Iterate (SnapMaker.visit env) (OkStatus, snapshot)).2
    start_address limit_address

/-! ## Concrete collaborators, snapshots and runner results -/

/-- Names for the stop reasons. -/
def stop_reason_name : MakerStopReason → String
  | MakerStopReason.kEndpoint => "Endpoint"
  | MakerStopReason.kSigTrap => "SigTrap"
  | MakerStopReason.kCannotAddMemory => "CannotAddMemory"
  | MakerStopReason.kGeneralProtectionSigSegv => "GeneralProtectionSigSegv"
  | MakerStopReason.kHardSigSegv => "HardSigSegv"
  | MakerStopReason.kSignal => "Signal"
  | MakerStopReason.kTimeBudget => "TimeBudget"

/-- Names for the playback outcomes. -/
def outcome_name : PlaybackOutcome → String
  | PlaybackOutcome.kAsExpected => "AsExpected"
  | PlaybackOutcome.kMemoryMismatch => "MemoryMismatch"
  | PlaybackOutcome.kRegisterStateMismatch => "RegisterStateMismatch"
  | PlaybackOutcome.kExecutionMisbehave => "ExecutionMisbehave"
  | PlaybackOutcome.kExecutionRunaway => "ExecutionRunaway"
  | PlaybackOutcome.kEndpointMismatch => "EndpointMismatch"
  | PlaybackOutcome.kPlatformMismatch => "PlatformMismatch"

/-- Names for the signals. -/
def sig_num_name : SigNum → String
  | SigNum.kSigTrap => "SIGTRAP"
  | SigNum.kSigSegv => "SIGSEGV"
  | SigNum.kOther _ => "SIGOTHER"

/-- Names for the signal causes. -/
def sig_cause_name : SigCause → String
  | SigCause.kGenericSigCause => "GenericSigCause"
  | SigCause.kSegvCantExec => "SegvCantExec"
  | SigCause.kSegvCantWrite => "SegvCantWrite"
  | SigCause.kSegvCantRead => "SegvCantRead"
  | SigCause.kSegvOverflow => "SegvOverflow"
  | SigCause.kSegvGeneralProtection => "SegvGeneralProtection"

/-- Collaborators that accept every snapshot, mapping and end state, with pages
of 4096 bytes, a `Snapify` that returns its input and a runner that reports
`run_result`, and traces one `int3`; the code is compiled for x86_64 and the
verbose log is off. -/
def accepting (run_result : RunResult) : Env where
  kPageSize := 4096
  ReservedMemoryMappings := [(0x700000000000, 0x800000000000)]
  CanMakeRanged := fun _ _ => OkStatus
  can_add_memory_mapping := fun _ _ => OkStatus
  can_add_memory_bytes := fun _ _ => OkStatus
  can_add_expected_end_state := fun _ _ => OkStatus
  IsComplete := fun _ => OkStatus
  AddNegativeMemoryMappingsFor := fun s _ => Except.ok s.negative_memory_mappings
  Snapify := fun s _ => Except.ok s
  RunnerDriverFromSnapshot := fun _ _ => Except.ok 0
  MakeOne := fun _ _ _ => Except.ok run_result
  VerifyOneRepeatedly := fun _ _ _ => Except.ok run_result
  TraceOne := fun _ _ _ _ => (Except.ok run_result, ⟨"", 1, ["int3"]⟩)
  x86_64 := true
  VLOG_IS_ON := fun _ => false
  CurrentPlatformId := 1
  EnumStr_MakerStopReason := stop_reason_name
  EnumStr_PlaybackOutcome := outcome_name
  EnumStr_SigNum := sig_num_name
  EnumStr_SigCause := sig_cause_name

/-- Options with a runner path. -/
def runner_options : SnapMaker.Options := ⟨"/bin/runner", 5, 5⟩

/-- A snapshot of one page of code at `0x10000` holding the instruction `0xCC`,
with an undefined end state after it. -/
def int3_snapshot : Snapshot :=
  ⟨"int3", 1, [⟨0x10000, 0x11000, ⟨true, false, true⟩⟩], [⟨0x10000, [0xCC]⟩], [], [],
    [EndState.ofEndpoint (Endpoint.ofAddress 0x10001)], []⟩

/-- The snapshot `int3_snapshot` with two complete expected end states. -/
def two_end_states_snapshot : Snapshot :=
  { int3_snapshot with
    expected_end_states :=
      [⟨Endpoint.ofAddress 0x10001, some [1], [], [1]⟩,
       ⟨Endpoint.ofAddress 0x10001, some [2], [], [2]⟩] }

/-- An end state at the instruction endpoint `0x10001` that wrote the
page at `0x20000`. -/
def wrote_page_end_state : EndState :=
  ⟨Endpoint.ofAddress 0x10001, some [1], [⟨0x20000, List.replicate 4096 0⟩], []⟩

/-- An end state at a signal endpoint: a `SIGSEGV` for a read of address 0. -/
def segv_end_state : EndState :=
  ⟨⟨EndpointType.kSignal, 0x10000, 0, SigNum.kSigSegv, SigCause.kSegvCantRead⟩, some [1], [], []⟩

/-- The snapshot `int3_snapshot` with a zero-filled writable page at `0x20000`
and an undefined end state. -/
def int3_snapshot_with_page : Snapshot :=
  { int3_snapshot with
    memory_mappings := int3_snapshot.memory_mappings ++ [⟨0x20000, 0x21000, MemoryPerms.RW⟩]
    memory_bytes := int3_snapshot.memory_bytes ++ [⟨0x20000, List.replicate 4096 0⟩] }

/-- Whether two mappings overlap can be computed. -/
instance MemoryMapping.Overlaps.decide (m n : MemoryMapping) : Decidable (m.Overlaps n) := by
  unfold MemoryMapping.Overlaps
  infer_instance

/-- Whether a snapshot satisfies (P1) can be computed. -/
instance Snapshot.P1.decide (env : Env) (s : Snapshot) : Decidable (s.P1 env) := by
  unfold Snapshot.P1
  infer_instance

/-- Whether a snapshot satisfies (P2) can be computed. -/
instance Snapshot.P2.decide (s : Snapshot) : Decidable s.P2 := by
  unfold Snapshot.P2
  infer_instance

/-- An end state that wrote one byte at `0x20001`, in a page that is not
mapped, and the page at `0x30000`. -/
def wrote_byte_and_page_end_state : EndState :=
  ⟨Endpoint.ofAddress 0x10001, some [1],
    [⟨0x30000, List.replicate 4096 0⟩, ⟨0x20001, [7]⟩], []⟩

/-! ## `SnapMaker::VerifyPlaysDeterministically` and `SnapMaker::CheckTrace` -/

/-- Modelled from the spec: `Snapshot::set_trace_data`, which replaces the trace
data ("install as `snapshot.trace_data = [TraceData]`"). -/
def Snapshot.set_trace_data (s : Snapshot) (xs : List TraceData) : Snapshot :=
  { s with trace_data := xs }

/-- Modelled from the spec: the constructor `TraceData(num_instructions,
human_readable_disassembly)`, with no platform yet. -/
def TraceData.make (num_instructions : Nat) (human_readable_disassembly : String) : TraceData :=
  ⟨num_instructions, human_readable_disassembly, []⟩

/-- Modelled from the spec: `TraceData::add_platform`, which "tags" the trace
data with one more platform. -/
def TraceData.add_platform (trace_data : TraceData) (platform : PlatformId) : TraceData :=
  { trace_data with platforms := trace_data.platforms ++ [platform] }

/-- The function `absl::StrJoin(strings, separator)`. -/
def StrJoin (strings : List String) (separator : String) : String :=
  separator.intercalate strings

/-- The method `SnapMaker::VerifyPlaysDeterministically(snapshot)`; the result
`Result.value ()` is the status Ok.  What `PrintActualEndState` prints is not
modelled, but its argument `*actual_end_state` is read when the verbose log is
on, and reading it when `actual_end_state` has no value is undefined
behaviour. -/
def SnapMaker.VerifyPlaysDeterministically (env : Env) (opts : SnapMaker.Options)
    (snapshot : Snapshot) : Result Unit :=
  let snapify_opts := SnapifyOptions.V2InputRunOpts snapshot.architecture_id
  match env.Snapify snapshot snapify_opts with
  | Except.error status => Result.error status
  | Except.ok snapified =>
    match env.RunnerDriverFromSnapshot snapified opts.runner_path with
    | Except.error status => Result.error status
    | Except.ok driver =>
      match env.VerifyOneRepeatedly driver snapified.id opts.num_verify_attempts with
      | Except.error status => Result.error status
      | Except.ok verify_result =>
        if !verify_result.success then
          if env.VLOG_IS_ON 1 then
            match verify_result.player_result.actual_end_state with
            | none => Result.undefined_behavior
            | some _ =>
              Result.error (InternalError "Verify() failed, non-deterministic snapshot?")
          else Result.error (InternalError "Verify() failed, non-deterministic snapshot?")
        else Result.value ()

/-- The method `SnapMaker::CheckTrace(snapshot, trace_options)`. -/
def SnapMaker.CheckTrace (env : Env) (opts : SnapMaker.Options) (snapshot : Snapshot)
    (trace_options : TraceOptions) : Result Snapshot :=
  let copy := snapshot
  if env.x86_64 then
    match env.RunnerDriverFromSnapshot snapshot opts.runner_path with
    | Except.error status => Result.error status
    | Except.ok driver =>
      let traced := env.TraceOne driver snapshot.id snapshot trace_options
      let trace_result_or := traced.1
      let trace_result := traced.2
      match trace_result_or with
      | Except.error _ =>
        Result.error (InternalError ("Tracing failed: " ++ trace_result.early_termination_reason))
      | Except.ok run_result =>
        if !run_result.success then
          Result.error
            (InternalError ("Tracing failed: " ++ trace_result.early_termination_reason))
        else
          let trace_data :=
            TraceData.make trace_result.instructions_executed
              (StrJoin trace_result.disassembly "\n")
          let trace_data := trace_data.add_platform env.CurrentPlatformId
          Result.value (copy.set_trace_data [trace_data])
  else Result.value copy

/-- The collaborators `env` with the verbose log on. -/
def verbose (env : Env) : Env := { env with VLOG_IS_ON := fun _ => true }

/-- The collaborators `env` with the code compiled for AArch64. -/
def aarch64 (env : Env) : Env := { env with x86_64 := false }

/-- A runner result that reports success. -/
def successful_run : RunResult := ⟨true, ⟨PlaybackOutcome.kAsExpected, none⟩⟩

/-- A runner result that reports no success and no actual end state. -/
def failed_run_without_end_state : RunResult :=
  ⟨false, ⟨PlaybackOutcome.kRegisterStateMismatch, none⟩⟩

/-- An end state at the instruction endpoint `0x10001` whose memory bytes lie in
the code page of `int3_snapshot`. -/
def touched_code_end_state : EndState :=
  ⟨Endpoint.ofAddress 0x10001, some [1], [⟨0x10000, [0xCC, 0x90]⟩], []⟩
/-! ## Snapshot ids (`common/raw_insns_util.h`) -/

/-- Reduction of a natural number to a 32-bit word. -/
def u32 (x : Nat) : Nat := x % 4294967296

/-- Modelled from the spec: the rotation of a 32-bit word to the left by `n`
bits, `0 < n < 32`, of SHA-1. -/
def SHA1.rotl (n x : Nat) : Nat := u32 (x <<< n) ||| (x >>> (32 - n))

/-- Modelled from the spec: the padding of SHA-1: the byte `0x80`, zero bytes
up to 56 modulo 64, and the length of the message in bits as a big-endian
64-bit number. -/
def SHA1.pad (message : List Nat) : List Nat :=
  let bits := 8 * message.length
  message ++ [128] ++ List.replicate ((119 - message.length % 64) % 64) 0
    ++ [bits / 72057594037927936 % 256, bits / 281474976710656 % 256,
      bits / 1099511627776 % 256, bits / 4294967296 % 256, bits / 16777216 % 256,
      bits / 65536 % 256, bits / 256 % 256, bits % 256]

/-- Modelled from the spec: the big-endian 32-bit words of a sequence of bytes. -/
def SHA1.words : List Nat → List Nat
  | b₀ :: b₁ :: b₂ :: b₃ :: rest =>
    (16777216 * (b₀ % 256) + 65536 * (b₁ % 256) + 256 * (b₂ % 256) + b₃ % 256)
      :: SHA1.words rest
  | _ => []

/-- Modelled from the spec: the message schedule of SHA-1, most recent word
first: `n` more words `w[t] = rotl 1 (w[t-3] ^ w[t-8] ^ w[t-14] ^ w[t-16])`. -/
def SHA1.schedule : Nat → List Nat → List Nat
  | 0, w => w
  | n + 1, w =>
    SHA1.schedule n
      (SHA1.rotl 1 (w.getD 2 0 ^^^ w.getD 7 0 ^^^ w.getD 13 0 ^^^ w.getD 15 0) :: w)

/-- The five working variables, or the five words of the hash value, of SHA-1. -/
structure SHA1.State where
  a : Nat
  b : Nat
  c : Nat
  d : Nat
  e : Nat
  deriving DecidableEq, Repr

/-- Modelled from the spec: the round `t` of SHA-1 with the word `w` of the
schedule. -/
def SHA1.round (v : SHA1.State) (t w : Nat) : SHA1.State :=
  let f :=
    if t < 20 then (v.b &&& v.c) ||| ((v.b ^^^ 4294967295) &&& v.d)
    else if t < 40 then v.b ^^^ v.c ^^^ v.d
    else if t < 60 then (v.b &&& v.c) ||| (v.b &&& v.d) ||| (v.c &&& v.d)
    else v.b ^^^ v.c ^^^ v.d
  let k :=
    if t < 20 then 1518500249
    else if t < 40 then 1859775393
    else if t < 60 then 2400959708
    else 3395469782
  ⟨u32 (SHA1.rotl 5 v.a + f + v.e + k + w), v.a, SHA1.rotl 30 v.b, v.c, v.d⟩

/-- The rounds of SHA-1 over the words of the schedule, from round `t` on. -/
def SHA1.rounds (v : SHA1.State) (t : Nat) : List Nat → SHA1.State
  | [] => v
  | w :: rest => SHA1.rounds (SHA1.round v t w) (t + 1) rest

/-- Modelled from the spec: the processing of one block of 16 words by SHA-1. -/
def SHA1.block (h : SHA1.State) (w : List Nat) : SHA1.State :=
  let v := SHA1.rounds h 0 (SHA1.schedule 64 w.reverse).reverse
  ⟨u32 (h.a + v.a), u32 (h.b + v.b), u32 (h.c + v.c), u32 (h.d + v.d), u32 (h.e + v.e)⟩

/-- The processing of `n` blocks of 16 words. -/
def SHA1.blocks : Nat → SHA1.State → List Nat → SHA1.State
  | 0, h, _ => h
  | n + 1, h, w => SHA1.blocks n (SHA1.block h (w.take 16)) (w.drop 16)

/-- Modelled from the spec: SHA-1 (FIPS 180-4) of a sequence of bytes, as five
32-bit words. -/
def SHA1 (message : List Nat) : SHA1.State :=
  let w := SHA1.words (SHA1.pad message)
  SHA1.blocks (w.length / 16) ⟨1732584193, 4023233417, 2562383102, 271733878, 3285377520⟩ w

/-- The lowercase hexadecimal digit of a number below 16. -/
def hex_digit (x : Nat) : Char := "0123456789abcdef".toList.getD x '0'

/-- The eight lowercase hexadecimal digits of a 32-bit word. -/
def hex32 (x : Nat) : List Char :=
  [hex_digit (x / 268435456 % 16), hex_digit (x / 16777216 % 16), hex_digit (x / 1048576 % 16),
    hex_digit (x / 65536 % 16), hex_digit (x / 4096 % 16), hex_digit (x / 256 % 16),
    hex_digit (x / 16 % 16), hex_digit (x % 16)]

/-- Modelled from the spec: `InstructionsToSnapshotId(code)` of
`common/raw_insns_util.cc`, which is not among the sources: "a 40-lowercase-hex
string. It is the SHA-1 of the input byte string." -/
def InstructionsToSnapshotId (code : List Nat) : String :=
  let h := SHA1 code
  String.mk (hex32 h.a ++ hex32 h.b ++ hex32 h.c ++ hex32 h.d ++ hex32 h.e)

/-- The bytes of a string of ASCII characters. -/
def ascii (s : String) : List Nat := s.toList.map Char.toNat

/-! ## Machine words and memory: lemmas -/

theorem u64_lt (x : Nat) : u64 x < 18446744073709551616 := by
  unfold u64; omega

theorem u64_of_lt {x : Nat} (h : x < 18446744073709551616) : u64 x = x := by
  unfold u64; omega

theorem read64_lt (m : Mem) (a : Nat) : read64 m a < 18446744073709551616 := by
  unfold read64; omega

theorem read64_congr {m₁ m₂ : Mem} {a b : Nat}
    (h : ∀ k, k < 8 → m₁ (u64 (a + k)) = m₂ (u64 (b + k))) :
    read64 m₁ a = read64 m₂ b := by
  have h0 := h 0 (by omega)
  simp only [Nat.add_zero] at h0
  unfold read64
  rw [h0, h 1 (by omega), h 2 (by omega), h 3 (by omega), h 4 (by omega), h 5 (by omega),
    h 6 (by omega), h 7 (by omega)]

theorem write64_of_ne {m : Mem} {a v x : Nat} (h : ∀ k, k < 8 → x ≠ u64 (a + k)) :
    write64 m a v x = m x := by
  have h0 := h 0 (by omega)
  simp only [Nat.add_zero] at h0
  unfold write64
  rw [if_neg h0, if_neg (h 1 (by omega)), if_neg (h 2 (by omega)), if_neg (h 3 (by omega)),
    if_neg (h 4 (by omega)), if_neg (h 5 (by omega)), if_neg (h 6 (by omega)),
    if_neg (h 7 (by omega))]

theorem read64_write64_same (m : Mem) (a : Nat) {v : Nat} (hv : v < 18446744073709551616) :
    read64 (write64 m a v) a = v := by
  have e1 : u64 (a + 1) ≠ u64 a := by unfold u64; omega
  have e2 : u64 (a + 2) ≠ u64 a := by unfold u64; omega
  have e3 : u64 (a + 3) ≠ u64 a := by unfold u64; omega
  have e4 : u64 (a + 4) ≠ u64 a := by unfold u64; omega
  have e5 : u64 (a + 5) ≠ u64 a := by unfold u64; omega
  have e6 : u64 (a + 6) ≠ u64 a := by unfold u64; omega
  have e7 : u64 (a + 7) ≠ u64 a := by unfold u64; omega
  have f2 : u64 (a + 2) ≠ u64 (a + 1) := by unfold u64; omega
  have f3 : u64 (a + 3) ≠ u64 (a + 1) := by unfold u64; omega
  have f4 : u64 (a + 4) ≠ u64 (a + 1) := by unfold u64; omega
  have f5 : u64 (a + 5) ≠ u64 (a + 1) := by unfold u64; omega
  have f6 : u64 (a + 6) ≠ u64 (a + 1) := by unfold u64; omega
  have f7 : u64 (a + 7) ≠ u64 (a + 1) := by unfold u64; omega
  have g3 : u64 (a + 3) ≠ u64 (a + 2) := by unfold u64; omega
  have g4 : u64 (a + 4) ≠ u64 (a + 2) := by unfold u64; omega
  have g5 : u64 (a + 5) ≠ u64 (a + 2) := by unfold u64; omega
  have g6 : u64 (a + 6) ≠ u64 (a + 2) := by unfold u64; omega
  have g7 : u64 (a + 7) ≠ u64 (a + 2) := by unfold u64; omega
  have h4 : u64 (a + 4) ≠ u64 (a + 3) := by unfold u64; omega
  have h5 : u64 (a + 5) ≠ u64 (a + 3) := by unfold u64; omega
  have h6 : u64 (a + 6) ≠ u64 (a + 3) := by unfold u64; omega
  have h7 : u64 (a + 7) ≠ u64 (a + 3) := by unfold u64; omega
  have i5 : u64 (a + 5) ≠ u64 (a + 4) := by unfold u64; omega
  have i6 : u64 (a + 6) ≠ u64 (a + 4) := by unfold u64; omega
  have i7 : u64 (a + 7) ≠ u64 (a + 4) := by unfold u64; omega
  have j6 : u64 (a + 6) ≠ u64 (a + 5) := by unfold u64; omega
  have j7 : u64 (a + 7) ≠ u64 (a + 5) := by unfold u64; omega
  have k7 : u64 (a + 7) ≠ u64 (a + 6) := by unfold u64; omega
  unfold read64 write64
  simp only [if_true, if_neg e1, if_neg e2, if_neg e3, if_neg e4, if_neg e5, if_neg e6,
    if_neg e7, if_neg f2, if_neg f3, if_neg f4, if_neg f5, if_neg f6, if_neg f7, if_neg g3,
    if_neg g4, if_neg g5, if_neg g6, if_neg g7, if_neg h4, if_neg h5, if_neg h6, if_neg h7,
    if_neg i5, if_neg i6, if_neg i7, if_neg j6, if_neg j7, if_neg k7]
  omega

/-! ## The primitives of the relocator: lemmas -/



theorem Validate_kOk_iff (start limit : Nat) (T : CType) (a : Nat) :
    ValidateRelocatedAddress start limit T a = Error.kOk ↔
      start ≤ a ∧ u64 (a + T.size) ≤ limit ∧ a % T.align = 0 := by
  unfold ValidateRelocatedAddress
  split_ifs with h1 h2
  · simp; omega
  · simp; omega
  · simp; omega

theorem Validate_kOutOfBound_iff (start limit : Nat) (T : CType) (a : Nat) :
    ValidateRelocatedAddress start limit T a = Error.kOutOfBound ↔
      (a < start ∨ limit < u64 (a + T.size)) := by
  unfold ValidateRelocatedAddress
  split_ifs with h1 h2
  · simp; omega
  · simp; omega
  · simp; omega

theorem Validate_kAlignment_iff (start limit : Nat) (T : CType) (a : Nat) :
    ValidateRelocatedAddress start limit T a = Error.kAlignment ↔
      start ≤ a ∧ u64 (a + T.size) ≤ limit ∧ a % T.align ≠ 0 := by
  unfold ValidateRelocatedAddress
  split_ifs with h1 h2
  · simp; omega
  · simp; omega
  · simp; omega

theorem AdjustPointer_eq (start limit : Nat) (T : CType) (ptr : Nat) (s : State) :
    AdjustPointer start limit T ptr s =
      if ValidateRelocatedAddress start limit T (u64 (read64 s.mem ptr + start)) = Error.kOk
      then (Error.kOk, accepted T ptr (u64 (read64 s.mem ptr + start)) s)
      else (ValidateRelocatedAddress start limit T (u64 (read64 s.mem ptr + start)),
        rejected T ptr (u64 (read64 s.mem ptr + start)) s) := by
  by_cases h : ValidateRelocatedAddress start limit T (u64 (read64 s.mem ptr + start))
      = Error.kOk
  · simp only [AdjustPointer, State.note, accepted, rejected, State.write, h, if_true]
  · simp only [AdjustPointer, State.note, accepted, rejected, h, if_false]

theorem RIF_ok {exp rest : Step} {s s' : State} (h : exp s = (Error.kOk, s')) :
    RETURN_IF_RELOCATION_FAILED exp rest s = rest s' := by
  simp [RETURN_IF_RELOCATION_FAILED, h]

theorem RIF_err {exp rest : Step} {s : State} (h : (exp s).1 ≠ Error.kOk) :
    RETURN_IF_RELOCATION_FAILED exp rest s = exp s := by
  unfold RETURN_IF_RELOCATION_FAILED
  split
  · next s' h' => rw [h'] at h; exact absurd rfl h
  · next e s' _ h' => rw [h']

/-! ## Claims about `ValidateRelocatedAddress` and `AdjustPointer` -/

/-- C2, at the failing input: for `start = 4096`, `limit = 8192` and a pointer
type (`sizeof = alignof = 8`), `ValidateRelocatedAddress` answers `kOk` for the
address `2^64 - 8`, although the object `[2^64 - 8, 2^64)` lies above `limit`:
the 64-bit sum `address + sizeof(T)` wraps to 0. -/
theorem ValidateRelocatedAddress_accepts_wrapped_end :
    ValidateRelocatedAddress 4096 8192 CType.pointer 18446744073709551608 = Error.kOk
      ∧ 8192 < 18446744073709551608 + CType.pointer.size := by
  decide

/-- C5: with `a = start + offset` the address an offset stands for, and `limit`
not the last address of the address space, `AdjustPointer<T>` accepts the
offset (and stores `a`) when `a + sizeof(T) = limit` and `a` is aligned, and
answers `kOutOfBound`, whatever the alignment of `a`, when
`a + sizeof(T) = limit + 1`. -/
theorem AdjustPointer_at_limit (start limit : Nat) (T : CType) (ptr : Nat) (s : State)
    (hlimit : limit + 1 < 18446744073709551616) :
    (start + read64 s.mem ptr + T.size = limit →
      (start + read64 s.mem ptr) % T.align = 0 →
        (AdjustPointer start limit T ptr s).1 = Error.kOk
          ∧ read64 (AdjustPointer start limit T ptr s).2.mem ptr = start + read64 s.mem ptr)
    ∧ (start + read64 s.mem ptr + T.size = limit + 1 →
        (AdjustPointer start limit T ptr s).1 = Error.kOutOfBound) := by
  refine ⟨fun hend hal => ?_, fun hend => ?_⟩
  · have ha : u64 (read64 s.mem ptr + start) = start + read64 s.mem ptr := by
      unfold u64; omega
    have hv : ValidateRelocatedAddress start limit T (u64 (read64 s.mem ptr + start))
        = Error.kOk := by
      rw [Validate_kOk_iff, ha]
      refine ⟨by omega, ?_, hal⟩
      unfold u64; omega
    rw [AdjustPointer_eq, if_pos hv]
    refine ⟨rfl, ?_⟩
    simp only [accepted, rejected, State.note, State.write]
    rw [read64_write64_same _ _ (u64_lt _), ha]
  · have hv : ValidateRelocatedAddress start limit T (u64 (read64 s.mem ptr + start))
        = Error.kOutOfBound := by
      rw [Validate_kOutOfBound_iff]
      unfold u64; omega
    rw [AdjustPointer_eq, if_neg (by rw [hv]; decide)]
    exact hv

/-- C5, a witness: in a buffer `[4096, 8192)` the offset 4088 of an 8-byte
referent (ending exactly at `limit`) is accepted, the offset 4089 (ending one
byte past `limit`) gives `kOutOfBound`. -/
theorem AdjustPointer_at_limit_witness :
    ((AdjustPointer 4096 8192 CType.pointer 4136 (image 4096 [(40, 4088)])).1 = Error.kOk
      ∧ read64 (AdjustPointer 4096 8192 CType.pointer 4136
          (image 4096 [(40, 4088)])).2.mem 4136 = 4096 + 4088)
    ∧ (AdjustPointer 4096 8192 CType.pointer 4136 (image 4096 [(40, 4089)])).1
        = Error.kOutOfBound :=
  ⟨(AdjustPointer_at_limit 4096 8192 CType.pointer 4136 (image 4096 [(40, 4088)])
      (by decide)).1 (by decide) (by decide),
    (AdjustPointer_at_limit 4096 8192 CType.pointer 4136 (image 4096 [(40, 4089)])
      (by decide)).2 (by decide)⟩

/-! ## Claims about `AdjustArray` and the header checks -/

theorem AdjustArray_empty (start limit : Nat) (T : CType) (array : Nat) (s : State)
    (h : read64 s.mem (Array_size array) = 0) :
    AdjustArray start limit T array s =
      (Error.kOk, (((s.note (Event.load (Array_size array))).write (Array_elements array) 0).note
        (Event.null (Array_elements array)))) := by
  simp [AdjustArray, State.note, h]

theorem AdjustArray_rejected (start limit : Nat) (T : CType) (array : Nat) (s : State)
    (h : 0 < read64 s.mem (Array_size array))
    (hv : ValidateRelocatedAddress start limit T
      (u64 (read64 s.mem (Array_elements array) + start)) ≠ Error.kOk) :
    AdjustArray start limit T array s =
      (ValidateRelocatedAddress start limit T
          (u64 (read64 s.mem (Array_elements array) + start)),
        rejected T (Array_elements array) (u64 (read64 s.mem (Array_elements array) + start))
          (s.note (Event.load (Array_size array)))) := by
  have h' : read64 (s.note (Event.load (Array_size array))).mem (Array_size array) > 0 := h
  simp only [AdjustArray, if_pos h']
  rw [RIF_err]
  · rw [AdjustPointer_eq]
    simp only [State.note] at hv ⊢
    rw [if_neg hv]
  · rw [AdjustPointer_eq]
    simp only [State.note] at hv ⊢
    rw [if_neg hv]
    exact hv

theorem AdjustArray_accepted (start limit : Nat) (T : CType) (array : Nat) (s : State)
    (h : 0 < read64 s.mem (Array_size array))
    (hv : ValidateRelocatedAddress start limit T
      (u64 (read64 s.mem (Array_elements array) + start)) = Error.kOk) :
    AdjustArray start limit T array s =
      (let s₁ := accepted T (Array_elements array)
          (u64 (read64 s.mem (Array_elements array) + start))
          (s.note (Event.load (Array_size array)))
       let last := u64 (read64 s₁.mem (Array_elements array)
          + u64 (read64 s₁.mem (Array_size array) + 18446744073709551615) * T.size)
       (ValidateRelocatedAddress start limit T last,
        (s₁.note (Event.load (Array_size array))).note (Event.check last T.size))) := by
  have h' : read64 (s.note (Event.load (Array_size array))).mem (Array_size array) > 0 := h
  simp only [AdjustArray, if_pos h']
  have e : AdjustPointer start limit T (Array_elements array)
      (s.note (Event.load (Array_size array)))
      = (Error.kOk, accepted T (Array_elements array)
          (u64 (read64 s.mem (Array_elements array) + start))
          (s.note (Event.load (Array_size array)))) := by
    rw [AdjustPointer_eq]
    simp only [State.note] at hv ⊢
    rw [if_pos hv]
  rw [RIF_ok e]
  rfl

theorem RelocateCorpus_of_validHeader (L : Layout) (start limit : Nat) (s : State)
    (h : ValidHeader L start limit s.mem) :
    RelocateCorpus L start limit s =
      RETURN_IF_RELOCATION_FAILED
        (AdjustArray start limit CType.pointer (u64 (start + L.corpus_snaps)))
        (RelocateCorpus_loop L start limit 18446744073709551616)
        (((((s.note (Event.check start L.SnapCorpus.size)).note
          (Event.load (u64 (start + L.corpus_magic)))).note
          (Event.load (u64 (start + L.corpus_corpus_type_size)))).note
          (Event.load (u64 (start + L.corpus_snap_type_size)))).note
          (Event.load (u64 (start + L.corpus_register_state_type_size)))) := by
  obtain ⟨h0, h1, h2, h3, h4⟩ := h
  simp [RelocateCorpus, h0, State.note, h1, h2, h3, h4]

/-- C9: for an `Array<T>` with `size > 0` whose `elements` offset puts the first
element inside `[start, limit)` at an address that is not a multiple of
`alignof(T)`, `AdjustArray` answers `kAlignment`; and when that array is
`corpus.snaps` of a corpus with a valid header, so does `RelocateCorpus()`. -/
theorem AdjustArray_misaligned (start limit : Nat) (T : CType) (array : Nat) (s : State)
    (hsize : 0 < read64 s.mem (Array_size array))
    (hlo : start ≤ u64 (read64 s.mem (Array_elements array) + start))
    (hhi : u64 (read64 s.mem (Array_elements array) + start) + T.size ≤ limit)
    (hmis : u64 (read64 s.mem (Array_elements array) + start) % T.align ≠ 0) :
    (AdjustArray start limit T array s).1 = Error.kAlignment
      ∧ ∀ L : Layout, T = CType.pointer → array = u64 (start + L.corpus_snaps) →
          ValidHeader L start limit s.mem →
          (RelocateCorpus L start limit s).1 = Error.kAlignment := by
  have hv : ValidateRelocatedAddress start limit T
      (u64 (read64 s.mem (Array_elements array) + start)) = Error.kAlignment := by
    rw [Validate_kAlignment_iff]
    refine ⟨hlo, ?_, hmis⟩
    unfold u64 at hhi ⊢; omega
  have key : ∀ s' : State, s'.mem = s.mem →
      AdjustArray start limit T array s' =
        (Error.kAlignment, rejected T (Array_elements array)
          (u64 (read64 s.mem (Array_elements array) + start))
          (s'.note (Event.load (Array_size array)))) := by
    intro s' hs'
    rw [AdjustArray_rejected start limit T array s' (by rw [hs']; exact hsize)
      (by rw [hs', hv]; decide), hs', hv]
  refine ⟨by rw [key s rfl], ?_⟩
  intro L hT harr hh
  subst hT harr
  rw [RelocateCorpus_of_validHeader L start limit s hh]
  generalize hS : State.note _ (Event.load (u64 (start + L.corpus_register_state_type_size)))
    = S
  have hm : S.mem = s.mem := by rw [← hS]; rfl
  rw [RIF_err, key S hm]
  rw [key S hm]; exact fun h => Error.noConfusion h

/-- C9, a witness: the array `corpus.snaps` of a one-snap corpus mapped at
4096 whose `elements` offset is 52, not a multiple of 8. -/
theorem AdjustArray_misaligned_witness :
    (AdjustArray 4096 8192 CType.pointer 4128 (image 4096 (header 1 52))).1
        = Error.kAlignment
      ∧ (RelocateCorpus L64 4096 8192 (image 4096 (header 1 52))).1 = Error.kAlignment :=
  have h := AdjustArray_misaligned 4096 8192 CType.pointer 4128 (image 4096 (header 1 52))
    (by decide) (by decide) (by decide) (by decide)
  ⟨h.1, h.2 L64 rfl (by decide) (by decide)⟩

theorem read64_write64_of_ne {m : Mem} {a b v : Nat}
    (h : ∀ k, k < 8 → ∀ j, j < 8 → u64 (b + k) ≠ u64 (a + j)) :
    read64 (write64 m a v) b = read64 m b :=
  read64_congr fun k hk => write64_of_ne fun j hj => h k hk j hj

theorem read64_size_write64_elements (m : Mem) (array v : Nat) :
    read64 (write64 m (Array_elements array) v) (Array_size array)
      = read64 m (Array_size array) := by
  apply read64_write64_of_ne
  intro k hk j hj
  unfold Array_size Array_elements u64
  omega

theorem RelocateCorpus_loop_exit (L : Layout) (start limit k : Nat) (s : State)
    (hk : k ≠ 0) (h : read64 s.mem (Array_size (u64 (start + L.corpus_snaps))) = 0) :
    RelocateCorpus_loop L start limit k s =
      (Error.kOk, s.note (Event.load (Array_size (u64 (start + L.corpus_snaps))))) := by
  cases k with
  | zero => exact absurd rfl hk
  | succ k => simp [RelocateCorpus_loop, State.note, h]

/-- C6: when the buffer is large enough and aligned for the `SnapCorpus`
header and `magic`, `corpus_type_size`, `snap_type_size` or
`register_state_type_size` does not have the expected value,
`RelocateCorpus()` answers `kBadData` and the buffer is byte for byte what
it was. -/
theorem RelocateCorpus_bad_header (L : Layout) (start limit : Nat) (s : State)
    (hfit : ValidateRelocatedAddress start limit L.SnapCorpus start = Error.kOk)
    (hbad : read64 s.mem (u64 (start + L.corpus_magic)) ≠ L.kSnapCorpusMagic
      ∨ read64 s.mem (u64 (start + L.corpus_corpus_type_size)) ≠ L.SnapCorpus.size
      ∨ read64 s.mem (u64 (start + L.corpus_snap_type_size)) ≠ L.Snap.size
      ∨ read64 s.mem (u64 (start + L.corpus_register_state_type_size))
          ≠ L.RegisterState.size) :
    (RelocateCorpus L start limit s).1 = Error.kBadData
      ∧ ∀ x, (RelocateCorpus L start limit s).2.mem x = s.mem x := by
  simp only [RelocateCorpus, hfit, State.note]
  by_cases h1 : read64 s.mem (u64 (start + L.corpus_magic)) = L.kSnapCorpusMagic
  · by_cases h2 : read64 s.mem (u64 (start + L.corpus_corpus_type_size)) = L.SnapCorpus.size
    · by_cases h3 : read64 s.mem (u64 (start + L.corpus_snap_type_size)) = L.Snap.size
      · have h4 : read64 s.mem (u64 (start + L.corpus_register_state_type_size))
            ≠ L.RegisterState.size := by
          rcases hbad with h | h | h | h
          · exact absurd h1 h
          · exact absurd h2 h
          · exact absurd h3 h
          · exact h
        simp [h1, h2, h3, h4]
      · simp [h1, h2, h3]
    · simp [h1, h2]
  · simp [h1]

/-- C6, a witness: a header whose `corpus_type_size` is 47 instead of 48. -/
theorem RelocateCorpus_bad_header_witness :
    (RelocateCorpus L64 4096 8192
        (image 4096 [(0, 6011426416574460528), (8, 47), (16, 72), (24, 64)])).1
      = Error.kBadData
    ∧ ∀ x, (RelocateCorpus L64 4096 8192
        (image 4096 [(0, 6011426416574460528), (8, 47), (16, 72), (24, 64)])).2.mem x
      = (image 4096 [(0, 6011426416574460528), (8, 47), (16, 72), (24, 64)]).mem x :=
  RelocateCorpus_bad_header L64 4096 8192
    (image 4096 [(0, 6011426416574460528), (8, 47), (16, 72), (24, 64)])
    (by decide) (Or.inr (Or.inl (by decide)))

/-- C8: for a buffer with a valid header whose `corpus.snaps.size` is 0,
`RelocateCorpus()` answers `kOk` whatever `corpus.snaps.elements` holds; the
buffer afterwards is the buffer before with the 8 bytes of
`corpus.snaps.elements` set to 0, so that `corpus.snaps.elements` is null and
every other byte is unchanged. -/
theorem RelocateCorpus_no_snaps (L : Layout) (start limit : Nat) (s : State)
    (hheader : ValidHeader L start limit s.mem)
    (hsize : read64 s.mem (Array_size (u64 (start + L.corpus_snaps))) = 0) :
    (RelocateCorpus L start limit s).1 = Error.kOk
      ∧ (RelocateCorpus L start limit s).2.mem
          = write64 s.mem (Array_elements (u64 (start + L.corpus_snaps))) 0
      ∧ read64 (RelocateCorpus L start limit s).2.mem
          (Array_elements (u64 (start + L.corpus_snaps))) = 0
      ∧ ∀ x, (∀ k, k < 8 → x ≠ u64 (Array_elements (u64 (start + L.corpus_snaps)) + k)) →
          (RelocateCorpus L start limit s).2.mem x = s.mem x := by
  have hrun : (RelocateCorpus L start limit s).1 = Error.kOk
      ∧ (RelocateCorpus L start limit s).2.mem
          = write64 s.mem (Array_elements (u64 (start + L.corpus_snaps))) 0 := by
    rw [RelocateCorpus_of_validHeader L start limit s hheader]
    generalize hS : State.note _ (Event.load (u64 (start + L.corpus_register_state_type_size)))
      = S
    have hm : S.mem = s.mem := by rw [← hS]; rfl
    rw [RIF_ok (AdjustArray_empty start limit CType.pointer _ S (by rw [hm]; exact hsize))]
    rw [RelocateCorpus_loop_exit _ _ _ _ _ (by decide)]
    · simp only [State.note, State.write, hm]
      exact ⟨trivial, trivial⟩
    · simp only [State.note, State.write]
      rw [read64_size_write64_elements, hm]
      exact hsize
  refine ⟨hrun.1, hrun.2, ?_, ?_⟩
  · rw [hrun.2, read64_write64_same _ _ (by decide)]
  · intro x hx
    rw [hrun.2]
    exact write64_of_ne hx

/-- C8, a witness: a header-only corpus with `snaps.size = 0` and the stale
value 12345 in `snaps.elements`. -/
theorem RelocateCorpus_no_snaps_witness :
    (RelocateCorpus L64 4096 8192 (image 4096 (header 0 12345))).1 = Error.kOk
      ∧ read64 (RelocateCorpus L64 4096 8192 (image 4096 (header 0 12345))).2.mem
          (Array_elements (u64 (4096 + L64.corpus_snaps))) = 0 :=
  have h := RelocateCorpus_no_snaps L64 4096 8192 (image 4096 (header 0 12345))
    (by decide) (by decide)
  ⟨h.1, h.2.2.1⟩

/-! ## The static entry point -/

/-- C7: the static `RelocateCorpus(relocatable, error)` overwrites `*error`
whatever it held: with `kEmptyCorpus` for length 0, otherwise with the non-`kOk`
result of the relocation pass, otherwise with `kMprotect` when `mprotect`
fails, otherwise with `kOk`.  For a mapping whose address is not null, the
returned handle is non-null exactly when `*error` is `kOk`, and then it is
the input range `[start, start + byte_size)`. -/
theorem RelocateCorpus_static_result (L : Layout) (mprotect : Nat → Nat → Int)
    (relocatable : MmappedMemoryPtr) (error : Error) (s : State)
    (hmapped : relocatable.byte_size ≠ 0 → relocatable.get ≠ 0) :
    (RelocateCorpus_static L mprotect relocatable error s).error
        = (if relocatable.byte_size = 0 then Error.kEmptyCorpus
          else if (RelocateCorpus L relocatable.get
              (u64 (relocatable.get + relocatable.byte_size)) s).1 ≠ Error.kOk
            then (RelocateCorpus L relocatable.get
              (u64 (relocatable.get + relocatable.byte_size)) s).1
          else if mprotect relocatable.get relocatable.byte_size ≠ 0 then Error.kMprotect
          else Error.kOk)
      ∧ ((RelocateCorpus_static L mprotect relocatable error s).corpus.get ≠ 0
          ↔ (RelocateCorpus_static L mprotect relocatable error s).error = Error.kOk)
      ∧ ((RelocateCorpus_static L mprotect relocatable error s).error = Error.kOk →
          (RelocateCorpus_static L mprotect relocatable error s).corpus = relocatable) := by
  unfold RelocateCorpus_static
  by_cases h0 : relocatable.byte_size = 0
  · simp [h0, make_null_corpus]
  · have hget := hmapped h0
    by_cases h1 : (RelocateCorpus L relocatable.get
        (u64 (relocatable.get + relocatable.byte_size)) s).1 = Error.kOk
    · by_cases h2 : mprotect relocatable.get relocatable.byte_size = 0
      · simp [h0, h1, h2, hget]
      · simp [h0, h1, h2, make_null_corpus]
    · simp [h0, h1, make_null_corpus]

/-- C7, a witness: a header-only corpus of one page mapped at 4096, with an
`mprotect` that succeeds. -/
theorem RelocateCorpus_static_result_witness :
    (RelocateCorpus_static L64 (fun _ _ => 0) ⟨4096, 4096⟩ Error.kBadData
        (image 4096 (header 0 0))).error = Error.kOk
      ∧ (RelocateCorpus_static L64 (fun _ _ => 0) ⟨4096, 4096⟩ Error.kBadData
        (image 4096 (header 0 0))).corpus = ⟨4096, 4096⟩ :=
  have h := RelocateCorpus_static_result L64 (fun _ _ => 0) ⟨4096, 4096⟩ Error.kBadData
    (image 4096 (header 0 0)) (by decide)
  have e : (RelocateCorpus_static L64 (fun _ _ => 0) ⟨4096, 4096⟩ Error.kBadData
        (image 4096 (header 0 0))).error = Error.kOk := h.1.trans (by decide)
  ⟨e, h.2.2 e⟩

/-! ## Evaluations at inputs on which the bounds checks fall short -/

/-- C3, at the failing input: in the buffer `[4096, 8192)` an array of pointers
(`sizeof(T) = 8`) with a valid `elements` offset 48 and `size = 2^61 + 1`.  The
address of the tail element is `4144 + 2^61 * 8`, which overflows 64 bits and
wraps to 4144, so `AdjustArray` answers `kOk`; the element of index 1024, below
`size`, lies above `limit`. -/
theorem AdjustArray_accepts_wrapped_tail :
    (AdjustArray 4096 8192 CType.pointer 4128
        (image 4096 [(32, 2305843009213693953), (40, 48)])).1 = Error.kOk
      ∧ read64 (AdjustArray 4096 8192 CType.pointer 4128
          (image 4096 [(32, 2305843009213693953), (40, 48)])).2.mem (Array_size 4128)
        = 2305843009213693953
      ∧ read64 (AdjustArray 4096 8192 CType.pointer 4128
          (image 4096 [(32, 2305843009213693953), (40, 48)])).2.mem (Array_elements 4128)
        = 4144
      ∧ 8192 < 4144 + 1024 * CType.pointer.size + CType.pointer.size := by
  decide

/-- C4, at the failing input: in the buffer `[4096, 8192)` a `MemoryBytes` array
with one non-repeating entry whose `byte_values` has `size = 4096` and an
`elements` offset 4095, the last byte of the buffer.
`RelocateMemoryBytesArray` answers `kOk` and `byte_values.elements` becomes
8191, so that all bytes of `byte_values` but the first lie at or above `limit`:
the tail of `byte_values` is not validated. -/
theorem RelocateMemoryBytesArray_accepts_long_byte_values :
    (RelocateMemoryBytesArray L64 4096 8192 4160
        (image 4096 [(64, 1), (72, 128), (128 + 16, 0), (128 + 24, 4096),
          (128 + 32, 4095)])).1 = Error.kOk
      ∧ read64 (RelocateMemoryBytesArray L64 4096 8192 4160
          (image 4096 [(64, 1), (72, 128), (128 + 16, 0), (128 + 24, 4096),
            (128 + 32, 4095)])).2.mem (Array_size (4224 + L64.memory_bytes_byte_values))
        = 4096
      ∧ read64 (RelocateMemoryBytesArray L64 4096 8192 4160
          (image 4096 [(64, 1), (72, 128), (128 + 16, 0), (128 + 24, 4096),
            (128 + 32, 4095)])).2.mem (Array_elements (4224 + L64.memory_bytes_byte_values))
        = 8191
      ∧ 8192 < 8191 + 4096 := by
  decide

/-! ## Every step appends to the history, and stores validated pointers only -/

theorem Extends.refl (start limit : Nat) (s : State) : Extends start limit s s :=
  ⟨[], rfl, fun _ h => absurd h (List.not_mem_nil _)⟩

theorem Extends.trans {start limit : Nat} {s s' s'' : State}
    (h : Extends start limit s s') (h' : Extends start limit s' s'') :
    Extends start limit s s'' := by
  obtain ⟨evs, h1, h2⟩ := h
  obtain ⟨evs', h1', h2'⟩ := h'
  refine ⟨evs' ++ evs, by rw [h1', h1, List.append_assoc], ?_⟩
  intro x hx
  rcases List.mem_append.1 hx with h | h
  · exact h2' x h
  · exact h2 x h

theorem Extends.note {start limit : Nat} (s : State) (ev : Event)
    (hev : StoreOk start limit ev) : Extends start limit s (s.note ev) :=
  ⟨[ev], rfl, fun e he => by rw [List.mem_singleton.1 he]; exact hev⟩

theorem Extends.load {start limit : Nat} (s : State) (a : Nat) :
    Extends start limit s (s.note (Event.load a)) :=
  Extends.note s _ trivial

theorem Extends.check {start limit : Nat} (s : State) (a size : Nat) :
    Extends start limit s (s.note (Event.check a size)) :=
  Extends.note s _ trivial

theorem Extends.null {start limit : Nat} (s : State) (p : Nat) :
    Extends start limit s (s.note (Event.null p)) :=
  Extends.note s _ trivial

theorem Extends.write {start limit : Nat} (s : State) (a v : Nat) :
    Extends start limit s (s.write a v) :=
  ⟨[], rfl, fun _ h => absurd h (List.not_mem_nil _)⟩

theorem Extends.mem {start limit : Nat} {s s' : State} (h : Extends start limit s s')
    {e : Event} (he : e ∈ s.trace) : e ∈ s'.trace := by
  obtain ⟨evs, h1, _⟩ := h
  rw [h1]
  exact List.mem_append_right _ he

theorem Appends_RIF {start limit : Nat} {f g : Step} (hf : Appends start limit f)
    (hg : Appends start limit g) : Appends start limit (RETURN_IF_RELOCATION_FAILED f g) := by
  intro s
  by_cases hk : (f s).1 = Error.kOk
  · have e : f s = (Error.kOk, (f s).2) := by rw [← hk]
    rw [RIF_ok e]
    exact (hf s).trans (hg _)
  · rw [RIF_err hk]
    exact hf s

theorem Extends_rejected (start limit : Nat) (T : CType) (ptr a : Nat) (s : State) :
    Extends start limit s (rejected T ptr a s) :=
  (Extends.load s _).trans (Extends.check _ _ _)

theorem Extends_accepted (start limit : Nat) (T : CType) (ptr a : Nat) (s : State)
    (h : ValidateRelocatedAddress start limit T a = Error.kOk) :
    Extends start limit s (accepted T ptr a s) := by
  rw [Validate_kOk_iff] at h
  exact ((Extends_rejected start limit T ptr a s).trans (Extends.write _ _ _)).trans
    (Extends.note _ _ ⟨h.1, h.2.2, h.2.1⟩)

theorem Appends_AdjustPointer (start limit : Nat) (T : CType) (ptr : Nat) :
    Appends start limit (AdjustPointer start limit T ptr) := by
  intro s
  rw [AdjustPointer_eq]
  split_ifs with h
  · exact Extends_accepted start limit T ptr _ s h
  · exact Extends_rejected start limit T ptr _ s

theorem Appends_AdjustArray (start limit : Nat) (T : CType) (array : Nat) :
    Appends start limit (AdjustArray start limit T array) := by
  intro s
  by_cases h : 0 < read64 s.mem (Array_size array)
  · by_cases hv : ValidateRelocatedAddress start limit T
        (u64 (read64 s.mem (Array_elements array) + start)) = Error.kOk
    · rw [AdjustArray_accepted start limit T array s h hv]
      exact (((Extends.load s _).trans
        (Extends_accepted start limit T _ _ _ hv)).trans
        (Extends.load _ _)).trans (Extends.check _ _ _)
    · rw [AdjustArray_rejected start limit T array s h hv]
      exact (Extends.load s _).trans (Extends_rejected start limit T _ _ _)
  · rw [AdjustArray_empty start limit T array s (by omega)]
    exact ((Extends.load s _).trans (Extends.write _ _ _)).trans
      (Extends.null _ _)

theorem Appends_RelocateMemoryBytesArray_loop (L : Layout) (start limit array : Nat) (k : Nat) :
    Appends start limit (RelocateMemoryBytesArray_loop L start limit array k) := by
  induction k with
  | zero => exact fun s => Extends.refl start limit s
  | succ k ih =>
    intro s
    simp only [RelocateMemoryBytesArray_loop]
    split_ifs with h1 h2
    · exact ((Extends.load s _).trans (Extends.load _ _)).trans
        (Appends_RIF (Appends_AdjustPointer start limit CType.byte _) ih _)
    · exact ((Extends.load s _).trans (Extends.load _ _)).trans (ih _)
    · exact Extends.load s _

theorem Appends_RelocateMemoryBytesArray (L : Layout) (start limit array : Nat) :
    Appends start limit (RelocateMemoryBytesArray L start limit array) :=
  Appends_RIF (Appends_AdjustArray start limit _ array)
    (Appends_RelocateMemoryBytesArray_loop L start limit array _)

theorem Appends_RelocateCorpus_body (L : Layout) (start limit i : Nat) {rest : Step}
    (hrest : Appends start limit rest) :
    Appends start limit (RelocateCorpus_body L start limit i rest) := by
  intro s
  unfold RelocateCorpus_body
  refine Appends_RIF (Appends_AdjustPointer start limit L.Snap _) ?_ s
  intro s'
  exact Appends_RIF (Appends_AdjustPointer start limit CType.byte _)
    (Appends_RIF (Appends_AdjustArray start limit L.MemoryMapping _)
    (Appends_RIF (Appends_AdjustPointer start limit L.RegisterState _)
    (Appends_RIF (Appends_AdjustPointer start limit L.RegisterState _)
    (Appends_RIF (Appends_RelocateMemoryBytesArray L start limit _)
    (Appends_RIF (Appends_RelocateMemoryBytesArray L start limit _) hrest))))) s'

theorem Appends_RelocateCorpus_loop (L : Layout) (start limit : Nat) (k : Nat) :
    Appends start limit (RelocateCorpus_loop L start limit k) := by
  induction k with
  | zero => exact fun s => Extends.refl start limit s
  | succ k ih =>
    intro s
    simp only [RelocateCorpus_loop]
    split_ifs with h1
    · exact (Extends.load s _).trans (Appends_RelocateCorpus_body L start limit _ ih _)
    · exact Extends.load s _

theorem Appends_RelocateCorpus (L : Layout) (start limit : Nat) :
    Appends start limit (RelocateCorpus L start limit) := by
  intro s
  simp only [RelocateCorpus]
  have h0 : Extends start limit s (s.note (Event.check start L.SnapCorpus.size)) :=
    Extends.check s _ _
  split
  · split_ifs
    · exact h0.trans (Extends.load _ _)
    · exact (h0.trans (Extends.load _ _)).trans (Extends.load _ _)
    · exact ((h0.trans (Extends.load _ _)).trans (Extends.load _ _)).trans
        (Extends.load _ _)
    · exact (((h0.trans (Extends.load _ _)).trans (Extends.load _ _)).trans
        (Extends.load _ _)).trans (Extends.load _ _)
    · exact ((((h0.trans (Extends.load _ _)).trans (Extends.load _ _)).trans
        (Extends.load _ _)).trans (Extends.load _ _)).trans
        (Appends_RIF (Appends_AdjustArray start limit _ _)
          (Appends_RelocateCorpus_loop L start limit _) _)
  · exact h0

/-! ## Claim C1: the pointers stored by `RelocateCorpus()` -/

/-- C1 as stated fails: for the one-snap corpus `one_snap` mapped at
`[4096, 8192)`, `RelocateCorpus()` answers `kOk`, it rewrote
`snap.memory_mappings.elements` (at address 4176), and that pointer holds the
null address 0, which is below `start`. -/
theorem RelocateCorpus_nulls_elements_of_empty_array :
    (RelocateCorpus L64 4096 8192 (image 4096 one_snap)).1 = Error.kOk
      ∧ Array_elements (u64 (4160 + L64.snap_memory_mappings)) = 4176
      ∧ Event.null 4176 ∈ (RelocateCorpus L64 4096 8192 (image 4096 one_snap)).2.trace
      ∧ read64 (RelocateCorpus L64 4096 8192 (image 4096 one_snap)).2.mem 4176 = 0
      ∧ ¬ (4096 ≤ read64 (RelocateCorpus L64 4096 8192 (image 4096 one_snap)).2.mem 4176) := by
  decide

/-- C1 (amended): every pointer value `RelocateCorpus()` stores through
`AdjustPointer<T>` (the `elements` pointer of the arrays of size > 0, each
`corpus.snaps[i]`, and per snap `id`, `registers`, `end_state_registers` and
`byte_values.elements` of the non-repeating entries) is an address `a` with
`start ≤ a`, `a % alignof(T) = 0` and `a + sizeof(T) ≤ limit` for the 64-bit
sum, hence for the sum of integers whenever that does not exceed the address
space.  The only other store is the null pointer that `AdjustArray` writes
into `elements` of an array of size 0. -/
theorem RelocateCorpus_stores_validated (L : Layout) (start limit : Nat) (m : Mem)
    (slot value size align : Nat)
    (h : Event.store slot value size align ∈ (RelocateCorpus L start limit ⟨m, []⟩).2.trace) :
    start ≤ value ∧ value % align = 0 ∧ u64 (value + size) ≤ limit
      ∧ (value + size < 18446744073709551616 → value + size ≤ limit) := by
  obtain ⟨evs, h1, h2⟩ := Appends_RelocateCorpus L start limit ⟨m, []⟩
  rw [h1, List.append_nil] at h
  have hs : start ≤ value ∧ value % align = 0 ∧ u64 (value + size) ≤ limit := h2 _ h
  refine ⟨hs.1, hs.2.1, hs.2.2, fun hlt => ?_⟩
  have := hs.2.2
  rw [u64_of_lt hlt] at this
  exact this

/-- C1 (amended), a witness: relocating `one_snap` at 4096 stores the address
4352 of the register state (a type with `sizeof = 64`, `alignof = 16`) into
`snap.registers` at 4216. -/
theorem RelocateCorpus_stores_validated_witness :
    4096 ≤ 4352 ∧ 4352 % 16 = 0 ∧ u64 (4352 + 64) ≤ 8192
      ∧ (4352 + 64 < 18446744073709551616 → 4352 + 64 ≤ 8192) :=
  RelocateCorpus_stores_validated L64 4096 8192 (image 4096 one_snap).mem 4216 4352 64 16
    (by decide)

/-! ## Two runs on copies of one file: memory and arithmetic -/

theorem read64_eq_of_bytes {m₁ m₂ : Mem} {a b : Nat}
    (ha : a + 8 ≤ 18446744073709551616) (hb : b + 8 ≤ 18446744073709551616)
    (h : ∀ k, k < 8 → m₁ (a + k) = m₂ (b + k)) : read64 m₁ a = read64 m₂ b := by
  apply read64_congr
  intro k hk
  rw [u64_of_lt (by omega), u64_of_lt (by omega)]
  exact h k hk

theorem write64_outside {m : Mem} {a v x : Nat} (ha : a + 8 ≤ 18446744073709551616)
    (h : x < a ∨ a + 8 ≤ x) : write64 m a v x = m x := by
  apply write64_of_ne
  intro k hk
  rw [u64_of_lt (by omega)]
  omega

theorem read64_write64_disjoint {m : Mem} {a p v : Nat}
    (ha : a + 8 ≤ 18446744073709551616) (hp : p + 8 ≤ 18446744073709551616)
    (h : a + 8 ≤ p ∨ p + 8 ≤ a) : read64 (write64 m a v) p = read64 m p := by
  apply read64_eq_of_bytes hp hp
  intro k hk
  exact write64_outside ha (by omega)

theorem mem_Written {t : List Event} {p : Nat} :
    p ∈ Written t ↔ (∃ v size align, Event.store p v size align ∈ t) ∨ Event.null p ∈ t := by
  unfold Written
  rw [List.mem_filterMap]
  constructor
  · rintro ⟨e, he, hs⟩
    cases e with
    | check a sz => simp [Event.stores] at hs
    | load a => simp [Event.stores] at hs
    | store q v sz al =>
      simp only [Event.stores, Option.some.injEq] at hs
      subst hs
      exact Or.inl ⟨v, sz, al, he⟩
    | null q =>
      simp only [Event.stores, Option.some.injEq] at hs
      subst hs
      exact Or.inr he
  · rintro (⟨v, sz, al, h⟩ | h)
    · exact ⟨_, h, rfl⟩
    · exact ⟨_, h, rfl⟩

theorem Corr_add {b₁ b₂ a₁ a₂ : Nat} (h : Corr b₁ b₂ a₁ a₂) (c : Nat) :
    Corr b₁ b₂ (u64 (a₁ + c)) (u64 (a₂ + c)) := by
  obtain ⟨z, h1, h2⟩ := h
  refine ⟨z + c, ?_, ?_⟩
  · rw [h1]; unfold u64; omega
  · rw [h2]; unfold u64; omega

theorem Corr_u64 {b₁ b₂ a₁ a₂ : Nat} (h : Corr b₁ b₂ a₁ a₂) :
    Corr b₁ b₂ (u64 a₁) (u64 a₂) := by
  obtain ⟨z, h1, h2⟩ := h
  refine ⟨z, ?_, ?_⟩
  · rw [h1]; unfold u64; omega
  · rw [h2]; unfold u64; omega

theorem Corr_size {b₁ b₂ a₁ a₂ : Nat} (h : Corr b₁ b₂ a₁ a₂) :
    Corr b₁ b₂ (Array_size a₁) (Array_size a₂) := Corr_u64 h

theorem Corr_elements {b₁ b₂ a₁ a₂ : Nat} (h : Corr b₁ b₂ a₁ a₂) :
    Corr b₁ b₂ (Array_elements a₁) (Array_elements a₂) := Corr_add h 8

theorem Corr_base (b₁ b₂ c : Nat) : Corr b₁ b₂ (u64 (b₁ + c)) (u64 (b₂ + c)) :=
  ⟨c, rfl, rfl⟩

theorem Corr_offsets {b₁ b₂ vo : Nat} (h₁ : b₁ + vo < 18446744073709551616)
    (h₂ : b₂ + vo < 18446744073709551616) : Corr b₁ b₂ (b₁ + vo) (b₂ + vo) :=
  ⟨vo, (u64_of_lt h₁).symm, (u64_of_lt h₂).symm⟩

theorem Corr_inBuf {b₁ b₂ len a₁ a₂ : Nat} (h : Corr b₁ b₂ a₁ a₂)
    (hb₂ : b₂ + len < 18446744073709551616) (hin : InBuf b₁ (b₁ + len) a₁) :
    ∃ ao, a₁ = b₁ + ao ∧ a₂ = b₂ + ao ∧ ao + 8 ≤ len := by
  obtain ⟨z, h1, h2⟩ := h
  obtain ⟨hlo, hhi⟩ := hin
  refine ⟨a₁ - b₁, by omega, ?_, by omega⟩
  rw [h2]
  rw [h1] at hlo hhi ⊢
  unfold u64 at *
  omega

/-- The verdicts of `ValidateRelocatedAddress` on the two copies agree for the
addresses computed from one offset `o`, when no validated object extends past
the end of the address space. -/
theorem Validate_translate {b₁ b₂ len o : Nat} (T : CType)
    (hb₁ : b₁ + len < 18446744073709551616) (hb₂ : b₂ + len < 18446744073709551616)
    (ho : o < 18446744073709551616)
    (hc₁ : u64 (o + b₁) + T.size < 18446744073709551616)
    (hc₂ : u64 (o + b₂) + T.size < 18446744073709551616)
    (hal : b₁ % T.align = 0 ∧ b₂ % T.align = 0) :
    ValidateRelocatedAddress b₁ (b₁ + len) T (u64 (o + b₁))
        = ValidateRelocatedAddress b₂ (b₂ + len) T (u64 (o + b₂))
      ∧ (ValidateRelocatedAddress b₁ (b₁ + len) T (u64 (o + b₁)) = Error.kOk →
          u64 (o + b₁) = b₁ + o ∧ u64 (o + b₂) = b₂ + o) := by
  have hoob : (u64 (o + b₁) < b₁ ∨ u64 (u64 (o + b₁) + T.size) > b₁ + len)
      ↔ (u64 (o + b₂) < b₂ ∨ u64 (u64 (o + b₂) + T.size) > b₂ + len) := by
    rw [u64_of_lt hc₁, u64_of_lt hc₂]
    unfold u64 at *
    omega
  have hin : ¬ (u64 (o + b₁) < b₁ ∨ u64 (u64 (o + b₁) + T.size) > b₁ + len) →
      u64 (o + b₁) = b₁ + o ∧ u64 (o + b₂) = b₂ + o := by
    rw [u64_of_lt hc₁]
    unfold u64 at *
    omega
  have hmod : ∀ b, b % T.align = 0 → (b + o) % T.align = o % T.align := by
    intro b hb
    rw [Nat.add_mod, hb, Nat.zero_add, Nat.mod_mod]
  unfold ValidateRelocatedAddress
  by_cases h : u64 (o + b₁) < b₁ ∨ u64 (u64 (o + b₁) + T.size) > b₁ + len
  · rw [if_pos h, if_pos (hoob.1 h)]
    exact ⟨rfl, fun h' => Error.noConfusion h'⟩
  · rw [if_neg h, if_neg (fun h' => h (hoob.2 h'))]
    obtain ⟨e1, e2⟩ := hin h
    rw [e1, e2, hmod b₁ hal.1, hmod b₂ hal.2]
    exact ⟨rfl, fun _ => ⟨rfl, rfl⟩⟩

/-! ## Two runs on copies of one file: the relation between the buffers -/

theorem Written_note_none {t : List Event} {e : Event} (h : e.stores = none) :
    Written (e :: t) = Written t := by
  unfold Written
  rw [List.filterMap_cons, h]

theorem Written_note_some {t : List Event} {e : Event} {p : Nat} (h : e.stores = some p) :
    Written (e :: t) = p :: Written t := by
  unfold Written
  rw [List.filterMap_cons, h]

theorem Rel_note {b₁ b₂ len : Nat} {s₁ s₂ : State} (e : Event) (he : e.stores = none)
    (h : Rel b₁ b₂ len s₁ s₂) : Rel b₁ b₂ len (s₁.note e) s₂ := by
  obtain ⟨r1, r2, r3⟩ := h
  refine ⟨?_, ?_, ?_⟩
  · intro k hk hw
    apply r1 k hk
    simpa only [State.note, Written_note_none he] using hw
  · intro p v sz al hm
    simp only [State.note, List.mem_cons] at hm
    rcases hm with rfl | hm
    · simp [Event.stores] at he
    · exact r2 p v sz al hm
  · intro p hm
    simp only [State.note, List.mem_cons] at hm
    rcases hm with rfl | hm
    · simp [Event.stores] at he
    · exact r3 p hm

theorem Rel_right {b₁ b₂ len : Nat} {s₁ : State} (s₂ : State) {s₂' : State}
    (hm : s₂'.mem = s₂.mem)
    (h : Rel b₁ b₂ len s₁ s₂) : Rel b₁ b₂ len s₁ s₂' := by
  unfold Rel at *
  rw [hm]
  exact h

theorem Rel_read {b₁ b₂ len ao : Nat} {s₁ s₂ : State} (h : Rel b₁ b₂ len s₁ s₂)
    (hb₁ : b₁ + len < 18446744073709551616) (hb₂ : b₂ + len < 18446744073709551616)
    (hao : ao + 8 ≤ len) (hfresh : Fresh s₁.trace (b₁ + ao)) :
    read64 s₁.mem (b₁ + ao) = read64 s₂.mem (b₂ + ao) := by
  apply read64_eq_of_bytes (by omega) (by omega)
  intro k hk
  rw [Nat.add_assoc, Nat.add_assoc]
  apply h.1 (ao + k) (by omega)
  intro p hp
  have := hfresh p hp
  omega

theorem Rel_slot_inBuf {b₁ b₂ len : Nat} {s₁ s₂ : State} (h : Rel b₁ b₂ len s₁ s₂)
    {p : Nat} (hp : p ∈ Written s₁.trace) : ∃ po, p = b₁ + po ∧ po + 8 ≤ len := by
  rcases mem_Written.1 hp with ⟨v, sz, al, hm⟩ | hm
  · obtain ⟨po, vo, h1, h2, _⟩ := h.2.1 p v sz al hm
    exact ⟨po, h1, h2⟩
  · obtain ⟨po, h1, h2, _⟩ := h.2.2 p hm
    exact ⟨po, h1, h2⟩

/-- Writing corresponding values into corresponding fresh slots keeps the
buffers related, whatever event `e` records the write. -/
theorem Rel_write {b₁ b₂ len po : Nat} (v₁ v₂ : Nat) {s₁ s₂ : State} (e : Event)
    (he : e.stores = some (b₁ + po))
    (h : Rel b₁ b₂ len s₁ s₂)
    (hb₁ : b₁ + len < 18446744073709551616) (hb₂ : b₂ + len < 18446744073709551616)
    (hpo : po + 8 ≤ len) (hfresh : Fresh s₁.trace (b₁ + po)) :
    let s₁' := (s₁.write (b₁ + po) v₁).note e
    let s₂' := s₂.write (b₂ + po) v₂
    (∀ k, k < len → (∀ p ∈ Written s₁'.trace, b₁ + k < p ∨ p + 8 ≤ b₁ + k) →
        s₁'.mem (b₁ + k) = s₂'.mem (b₂ + k))
      ∧ (∀ p v size align, Event.store p v size align ∈ s₁.trace →
        ∃ po vo, p = b₁ + po ∧ po + 8 ≤ len ∧ v = b₁ + vo
          ∧ read64 s₁'.mem p = v ∧ read64 s₂'.mem (b₂ + po) = b₂ + vo)
      ∧ (∀ p, Event.null p ∈ s₁.trace →
        ∃ po, p = b₁ + po ∧ po + 8 ≤ len
          ∧ read64 s₁'.mem p = 0 ∧ read64 s₂'.mem (b₂ + po) = 0) := by
  obtain ⟨r1, r2, r3⟩ := h
  refine ⟨?_, ?_, ?_⟩
  · intro k hk hw
    simp only [State.note, State.write, Written_note_some he, List.mem_cons] at hw ⊢
    have h0 := hw (b₁ + po) (Or.inl rfl)
    rw [write64_outside (by omega) (by omega), write64_outside (by omega) (by omega)]
    exact r1 k hk fun p hp => hw p (Or.inr hp)
  · intro p v sz al hm
    obtain ⟨qo, vo, h1, h2, h3, h4, h5⟩ := r2 p v sz al hm
    have hd := hfresh p (mem_Written.2 (Or.inl ⟨v, sz, al, hm⟩))
    refine ⟨qo, vo, h1, h2, h3, ?_, ?_⟩
    · simp only [State.note, State.write]
      rw [read64_write64_disjoint (by omega) (by omega) hd]
      exact h4
    · simp only [State.write]
      rw [read64_write64_disjoint (by omega) (by omega) (by omega)]
      exact h5
  · intro p hm
    obtain ⟨qo, h1, h2, h4, h5⟩ := r3 p hm
    have hd := hfresh p (mem_Written.2 (Or.inr hm))
    refine ⟨qo, h1, h2, ?_, ?_⟩
    · simp only [State.note, State.write]
      rw [read64_write64_disjoint (by omega) (by omega) hd]
      exact h4
    · simp only [State.write]
      rw [read64_write64_disjoint (by omega) (by omega) (by omega)]
      exact h5

theorem Rel_store {b₁ b₂ len po : Nat} (vo size align : Nat) {s₁ s₂ : State}
    (h : Rel b₁ b₂ len s₁ s₂)
    (hb₁ : b₁ + len < 18446744073709551616) (hb₂ : b₂ + len < 18446744073709551616)
    (hpo : po + 8 ≤ len) (hfresh : Fresh s₁.trace (b₁ + po))
    (hv₁ : b₁ + vo < 18446744073709551616) (hv₂ : b₂ + vo < 18446744073709551616) :
    Rel b₁ b₂ len
      ((s₁.write (b₁ + po) (b₁ + vo)).note (Event.store (b₁ + po) (b₁ + vo) size align))
      (s₂.write (b₂ + po) (b₂ + vo)) := by
  obtain ⟨w1, w2, w3⟩ := Rel_write (b₁ + vo) (b₂ + vo)
    (Event.store (b₁ + po) (b₁ + vo) size align) rfl h hb₁ hb₂ hpo hfresh
  refine ⟨w1, ?_, ?_⟩
  · intro p v sz al hm
    simp only [State.note, State.write, List.mem_cons] at hm
    rcases hm with hm | hm
    · injection hm with e1 e2 e3 e4
      subst e1 e2
      refine ⟨po, vo, rfl, hpo, rfl, ?_, ?_⟩
      · exact read64_write64_same _ _ hv₁
      · exact read64_write64_same _ _ hv₂
    · exact w2 p v sz al hm
  · intro p hm
    simp only [State.note, State.write, List.mem_cons] at hm
    rcases hm with hm | hm
    · exact Event.noConfusion hm
    · exact w3 p hm

theorem Rel_null {b₁ b₂ len po : Nat} {s₁ s₂ : State}
    (h : Rel b₁ b₂ len s₁ s₂)
    (hb₁ : b₁ + len < 18446744073709551616) (hb₂ : b₂ + len < 18446744073709551616)
    (hpo : po + 8 ≤ len) (hfresh : Fresh s₁.trace (b₁ + po)) :
    Rel b₁ b₂ len ((s₁.write (b₁ + po) 0).note (Event.null (b₁ + po)))
      (s₂.write (b₂ + po) 0) := by
  obtain ⟨w1, w2, w3⟩ := Rel_write 0 0
    (Event.null (b₁ + po)) rfl h hb₁ hb₂ hpo hfresh
  refine ⟨w1, ?_, ?_⟩
  · intro p v sz al hm
    simp only [State.note, State.write, List.mem_cons] at hm
    rcases hm with hm | hm
    · exact Event.noConfusion hm
    · exact w2 p v sz al hm
  · intro p hm
    simp only [State.note, State.write, List.mem_cons] at hm
    rcases hm with hm | hm
    · injection hm with e1
      subst e1
      refine ⟨po, rfl, hpo, ?_, ?_⟩
      · exact read64_write64_same _ _ (by decide)
      · exact read64_write64_same _ _ (by decide)
    · exact w3 p hm

/-! ## Two runs on copies of one file: the steps agree -/

theorem Clean_append {start limit : Nat} (evs t : List Event)
    (h : Clean start limit (evs ++ t)) : Clean start limit t := by
  induction evs with
  | nil => exact h
  | cons e evs ih => exact ih h.2

theorem Clean_of_extends {start limit start' limit' : Nat} {s s' : State}
    (he : Extends start' limit' s s') (h : Clean start limit s'.trace) :
    Clean start limit s.trace := by
  obtain ⟨evs, h1, _⟩ := he
  rw [h1] at h
  exact Clean_append evs _ h

theorem Fresh_note_none {t : List Event} (e : Event) (he : e.stores = none) {a : Nat}
    (h : Fresh (e :: t) a) : Fresh t a := by
  unfold Fresh at *
  rwa [Written_note_none he] at h

theorem SimAt_RIF {b₁ b₂ len : Nat} {f₁ f₂ g₁ g₂ : Step} {s₁ s₂ : State}
    (hg₁ : Appends b₁ (b₁ + len) g₁) (hg₂ : Appends b₂ (b₂ + len) g₂)
    (hf : SimAt b₁ b₂ len f₁ f₂ s₁ s₂)
    (hg : (f₁ s₁).1 = Error.kOk → (f₂ s₂).1 = Error.kOk →
      Rel b₁ b₂ len (f₁ s₁).2 (f₂ s₂).2 → SimAt b₁ b₂ len g₁ g₂ (f₁ s₁).2 (f₂ s₂).2) :
    SimAt b₁ b₂ len (RETURN_IF_RELOCATION_FAILED f₁ g₁) (RETURN_IF_RELOCATION_FAILED f₂ g₂)
      s₁ s₂ := by
  intro hc₁ hc₂
  have hc₂' : Clean b₂ (b₂ + len) (f₂ s₂).2.trace := by
    by_cases hk : (f₂ s₂).1 = Error.kOk
    · have e : f₂ s₂ = (Error.kOk, (f₂ s₂).2) := by rw [← hk]
      rw [RIF_ok e] at hc₂
      exact Clean_of_extends (hg₂ _) hc₂
    · rw [RIF_err hk] at hc₂
      exact hc₂
  by_cases hk : (f₁ s₁).1 = Error.kOk
  · have e : f₁ s₁ = (Error.kOk, (f₁ s₁).2) := by rw [← hk]
    rw [RIF_ok e] at hc₁ ⊢
    obtain ⟨he, hrel⟩ := hf (Clean_of_extends (hg₁ _) hc₁) hc₂'
    have hk₂ : (f₂ s₂).1 = Error.kOk := by rw [← he]; exact hk
    have e₂ : f₂ s₂ = (Error.kOk, (f₂ s₂).2) := by rw [← hk₂]
    rw [RIF_ok e₂] at hc₂ ⊢
    exact hg hk hk₂ hrel hc₁ hc₂
  · rw [RIF_err hk] at hc₁ ⊢
    obtain ⟨he, hrel⟩ := hf hc₁ hc₂'
    have hk₂ : (f₂ s₂).1 ≠ Error.kOk := by rw [← he]; exact hk
    rw [RIF_err hk₂]
    exact ⟨he, hrel⟩

theorem Clean_rejected_of_AdjustPointer {start limit : Nat} {T : CType} {ptr : Nat} {s : State}
    {start' limit' : Nat}
    (h : Clean start' limit' (AdjustPointer start limit T ptr s).2.trace) :
    Clean start' limit' (rejected T ptr (u64 (read64 s.mem ptr + start)) s).trace := by
  rw [AdjustPointer_eq] at h
  split_ifs at h
  · exact h.2
  · exact h

theorem Rel_rejected {b₁ b₂ len : Nat} {s₁ s₂ : State} (T : CType) (p₁ a₁ p₂ a₂ : Nat)
    (h : Rel b₁ b₂ len s₁ s₂) :
    Rel b₁ b₂ len (rejected T p₁ a₁ s₁) (rejected T p₂ a₂ s₂) :=
  Rel_right s₂ rfl (Rel_note _ rfl (Rel_note _ rfl h))

theorem SimAt_AdjustPointer {b₁ b₂ len : Nat} (T : CType) {a₁ a₂ : Nat} {s₁ s₂ : State}
    (hb₁ : b₁ + len < 18446744073709551616) (hb₂ : b₂ + len < 18446744073709551616)
    (hal : b₁ % T.align = 0 ∧ b₂ % T.align = 0)
    (hc : Corr b₁ b₂ a₁ a₂) (hrel : Rel b₁ b₂ len s₁ s₂) :
    SimAt b₁ b₂ len (AdjustPointer b₁ (b₁ + len) T a₁) (AdjustPointer b₂ (b₂ + len) T a₂)
      s₁ s₂ := by
  intro hc₁ hc₂
  have hr₁ := Clean_rejected_of_AdjustPointer hc₁
  have hr₂ := Clean_rejected_of_AdjustPointer hc₂
  obtain ⟨hk₁, ⟨hin, hfr⟩, -⟩ := hr₁
  obtain ⟨hk₂, -, -⟩ := hr₂
  obtain ⟨ao, rfl, rfl, hao⟩ := Corr_inBuf hc hb₂ hin
  have ho := Rel_read hrel hb₁ hb₂ hao hfr
  rw [← ho] at hk₂
  obtain ⟨hv, hvk⟩ := Validate_translate T hb₁ hb₂ (read64_lt _ _) hk₁ hk₂ hal
  rw [AdjustPointer_eq, AdjustPointer_eq, ← ho]
  by_cases hk : ValidateRelocatedAddress b₁ (b₁ + len) T
      (u64 (read64 s₁.mem (b₁ + ao) + b₁)) = Error.kOk
  · rw [if_pos hk, if_pos (hv ▸ hk)]
    refine ⟨rfl, ?_⟩
    obtain ⟨e₁, e₂⟩ := hvk hk
    rw [e₁, e₂]
    have hR := Rel_rejected T (b₁ + ao) (b₁ + read64 s₁.mem (b₁ + ao)) (b₂ + ao)
      (b₂ + read64 s₁.mem (b₁ + ao)) hrel
    have hS := Rel_store (read64 s₁.mem (b₁ + ao)) T.size T.align hR hb₁ hb₂ hao
      hfr (by rw [← e₁]; exact u64_lt _) (by rw [← e₂]; exact u64_lt _)
    exact Rel_right _ rfl hS
  · rw [if_neg hk, if_neg (hv ▸ hk)]
    exact ⟨hv, Rel_rejected T _ _ _ _ hrel⟩

attribute [irreducible] read64

theorem AdjustArray_eq (start limit : Nat) (T : CType) (array : Nat) (s : State) :
    AdjustArray start limit T array s =
      if read64 s.mem (Array_size array) > 0 then
        RETURN_IF_RELOCATION_FAILED (AdjustPointer start limit T (Array_elements array))
          (AdjustArray_last start limit T array) (s.note (Event.load (Array_size array)))
      else
        (Error.kOk, (((s.note (Event.load (Array_size array))).write (Array_elements array) 0).note
          (Event.null (Array_elements array)))) := rfl

theorem Appends_AdjustArray_last (start limit : Nat) (T : CType) (array : Nat) :
    Appends start limit (AdjustArray_last start limit T array) :=
  fun s => (Extends.load s _).trans (Extends.check _ _ _)

theorem AdjustPointer_stored {start limit : Nat} {T : CType} {ptr : Nat} {s : State}
    (h : (AdjustPointer start limit T ptr s).1 = Error.kOk) :
    ∃ v, Event.store ptr v T.size T.align ∈ (AdjustPointer start limit T ptr s).2.trace := by
  rw [AdjustPointer_eq] at h ⊢
  split_ifs at h ⊢ with hv
  · exact ⟨_, List.mem_cons_self _ _⟩
  · exact absurd h hv

theorem Clean_load_of_AdjustArray {start limit start' limit' : Nat} {T : CType} {array : Nat}
    {s : State} (h : Clean start' limit' (AdjustArray start limit T array s).2.trace) :
    Clean start' limit' (s.note (Event.load (Array_size array))).trace := by
  rw [AdjustArray_eq] at h
  split_ifs at h
  · exact Clean_of_extends
      (Appends_RIF (Appends_AdjustPointer start limit T _)
        (Appends_AdjustArray_last start limit T array) _) h
  · exact h.2

theorem SimAt_AdjustArray_last {b₁ b₂ len : Nat} (T : CType) {a₁ a₂ : Nat} {s₁ s₂ : State}
    (hb₁ : b₁ + len < 18446744073709551616) (hb₂ : b₂ + len < 18446744073709551616)
    (hal : b₁ % T.align = 0 ∧ b₂ % T.align = 0)
    (hc : Corr b₁ b₂ a₁ a₂) (hrel : Rel b₁ b₂ len s₁ s₂)
    (hst : ∃ v size align, Event.store (Array_elements a₁) v size align ∈ s₁.trace) :
    SimAt b₁ b₂ len (AdjustArray_last b₁ (b₁ + len) T a₁) (AdjustArray_last b₂ (b₂ + len) T a₂)
      s₁ s₂ := by
  intro hc₁ hc₂
  obtain ⟨hk₁, ⟨hin, hfr⟩, -⟩ := hc₁
  obtain ⟨hk₂, -, -⟩ := hc₂
  obtain ⟨so, hs₁, hs₂, hso⟩ := Corr_inBuf (Corr_size hc) hb₂ hin
  obtain ⟨v, sz, al, hm⟩ := hst
  obtain ⟨po, vo, hp, hpo, hv, hr₁, hr₂⟩ := hrel.2.1 _ v sz al hm
  have hin' : InBuf b₁ (b₁ + len) (Array_elements a₁) := by
    rw [hp]; exact ⟨by omega, by omega⟩
  obtain ⟨po', hp₁, hp₂, -⟩ := Corr_inBuf (Corr_elements hc) hb₂ hin'
  have hpp : po' = po := by omega
  subst hpp
  have hn : read64 s₁.mem (Array_size a₁) = read64 s₂.mem (Array_size a₂) := by
    rw [hs₁, hs₂]
    exact Rel_read hrel hb₁ hb₂ hso (by rw [← hs₁]; exact hfr)
  simp only [AdjustArray_last, State.note] at hk₁ hk₂ ⊢
  rw [hp₂, hr₂] at hk₂ ⊢
  rw [hr₁, hv] at hk₁ ⊢
  rw [← hn] at hk₂ ⊢
  generalize u64 (read64 s₁.mem (Array_size a₁) + 18446744073709551615) * T.size = M
    at hk₁ hk₂ ⊢
  have e₁ : u64 (b₁ + vo + M) = u64 (u64 (vo + M) + b₁) := by unfold u64; omega
  have e₂ : u64 (b₂ + vo + M) = u64 (u64 (vo + M) + b₂) := by unfold u64; omega
  rw [e₁] at hk₁ ⊢
  rw [e₂] at hk₂ ⊢
  obtain ⟨hv', -⟩ := Validate_translate T hb₁ hb₂ (u64_lt (vo + M)) hk₁ hk₂ hal
  exact ⟨hv', Rel_right s₂ rfl (Rel_note (Event.check _ _) rfl (Rel_note (Event.load _) rfl hrel))⟩

theorem SimAt_AdjustArray {b₁ b₂ len : Nat} (T : CType) {a₁ a₂ : Nat} {s₁ s₂ : State}
    (hb₁ : b₁ + len < 18446744073709551616) (hb₂ : b₂ + len < 18446744073709551616)
    (hal : b₁ % T.align = 0 ∧ b₂ % T.align = 0)
    (hc : Corr b₁ b₂ a₁ a₂) (hrel : Rel b₁ b₂ len s₁ s₂) :
    SimAt b₁ b₂ len (AdjustArray b₁ (b₁ + len) T a₁) (AdjustArray b₂ (b₂ + len) T a₂)
      s₁ s₂ := by
  intro hc₁ hc₂
  obtain ⟨⟨hin, hfr⟩, -⟩ := Clean_load_of_AdjustArray hc₁
  obtain ⟨so, hs₁, hs₂, hso⟩ := Corr_inBuf (Corr_size hc) hb₂ hin
  have hn : read64 s₁.mem (Array_size a₁) = read64 s₂.mem (Array_size a₂) := by
    rw [hs₁, hs₂]
    exact Rel_read hrel hb₁ hb₂ hso (by rw [← hs₁]; exact hfr)
  have hrel' : Rel b₁ b₂ len (s₁.note (Event.load (Array_size a₁)))
      (s₂.note (Event.load (Array_size a₂))) :=
    Rel_right s₂ rfl (Rel_note _ rfl hrel)
  rw [AdjustArray_eq] at hc₁ ⊢
  rw [AdjustArray_eq] at hc₂ ⊢
  rw [← hn] at hc₂ ⊢
  by_cases h : read64 s₁.mem (Array_size a₁) > 0
  · simp only [if_pos h] at hc₁ hc₂ ⊢
    refine SimAt_RIF (Appends_AdjustArray_last _ _ T a₁) (Appends_AdjustArray_last _ _ T a₂)
      (SimAt_AdjustPointer T hb₁ hb₂ hal (Corr_elements hc) hrel') ?_ hc₁ hc₂
    intro hk _ hrel''
    obtain ⟨v, hv⟩ := AdjustPointer_stored hk
    exact SimAt_AdjustArray_last T hb₁ hb₂ hal hc hrel'' ⟨v, _, _, hv⟩
  · simp only [if_neg h] at hc₁ hc₂ ⊢
    obtain ⟨⟨hin', hfr'⟩, -⟩ := hc₁
    obtain ⟨eo, he₁, he₂, heo⟩ := Corr_inBuf (Corr_elements hc) hb₂ hin'
    refine ⟨trivial, ?_⟩
    rw [he₁, he₂]
    exact Rel_right _ rfl (Rel_null hrel' hb₁ hb₂ heo (by rw [← he₁]; exact hfr'))

theorem Clean_load_of_MemoryBytes_loop {L : Layout} {start limit start' limit' array k : Nat}
    {s : State}
    (h : Clean start' limit' (RelocateMemoryBytesArray_loop L start limit array (k + 1) s).2.trace) :
    Clean start' limit' (s.note (Event.load (Array_size array))).trace := by
  simp only [RelocateMemoryBytesArray_loop] at h
  split_ifs at h
  · exact (Clean_of_extends (Appends_RIF (Appends_AdjustPointer start limit CType.byte _)
      (Appends_RelocateMemoryBytesArray_loop L start limit array k) _) h).2
  · exact (Clean_of_extends (Appends_RelocateMemoryBytesArray_loop L start limit array k _) h).2
  · exact h

theorem Clean_flag_of_MemoryBytes_loop {L : Layout} {start limit start' limit' array k : Nat}
    {s : State}
    (hi : 18446744073709551616 - (k + 1) < read64 s.mem (Array_size array))
    (h : Clean start' limit' (RelocateMemoryBytesArray_loop L start limit array (k + 1) s).2.trace) :
    Clean start' limit' ((s.note (Event.load (Array_size array))).note
      (Event.load (u64 (u64 (read64 s.mem (Array_elements array)
        + (18446744073709551616 - (k + 1)) * L.MemoryBytes.size)
        + L.memory_bytes_repeating)))).trace := by
  simp only [RelocateMemoryBytesArray_loop] at h
  have hi' : 18446744073709551616 - (k + 1)
      < read64 (s.note (Event.load (Array_size array))).mem (Array_size array) := hi
  rw [if_pos hi'] at h
  split_ifs at h
  · exact Clean_of_extends (Appends_RIF (Appends_AdjustPointer start limit CType.byte _)
      (Appends_RelocateMemoryBytesArray_loop L start limit array k) _) h
  · exact Clean_of_extends (Appends_RelocateMemoryBytesArray_loop L start limit array k _) h

theorem ArrReady_store {array : Nat} {s : State} (h : ArrReady array s)
    (hn : 0 < read64 s.mem (Array_size array)) :
    ∃ v size align, Event.store (Array_elements array) v size align ∈ s.trace := by
  rcases h with h | h
  · exact h
  · omega

theorem SimAt_RelocateMemoryBytesArray_loop {b₁ b₂ len : Nat} (L : Layout) {a₁ a₂ : Nat}
    (hb₁ : b₁ + len < 18446744073709551616) (hb₂ : b₂ + len < 18446744073709551616)
    (hc : Corr b₁ b₂ a₁ a₂) (k : Nat) :
    ∀ s₁ s₂, Rel b₁ b₂ len s₁ s₂ → ArrReady a₁ s₁ →
      SimAt b₁ b₂ len (RelocateMemoryBytesArray_loop L b₁ (b₁ + len) a₁ k)
        (RelocateMemoryBytesArray_loop L b₂ (b₂ + len) a₂ k) s₁ s₂ := by
  induction k with
  | zero => exact fun s₁ s₂ hrel _ _ _ => ⟨rfl, hrel⟩
  | succ k ih =>
    intro s₁ s₂ hrel hready hc₁ hc₂
    obtain ⟨⟨hin, hfr⟩, -⟩ := Clean_load_of_MemoryBytes_loop hc₁
    obtain ⟨so, hs₁, hs₂, hso⟩ := Corr_inBuf (Corr_size hc) hb₂ hin
    have hn : read64 s₁.mem (Array_size a₁) = read64 s₂.mem (Array_size a₂) := by
      rw [hs₁, hs₂]
      exact Rel_read hrel hb₁ hb₂ hso (by rw [← hs₁]; exact hfr)
    have hrel' : Rel b₁ b₂ len (s₁.note (Event.load (Array_size a₁)))
        (s₂.note (Event.load (Array_size a₂))) :=
      Rel_right s₂ rfl (Rel_note _ rfl hrel)
    by_cases hi : 18446744073709551616 - (k + 1) < read64 s₁.mem (Array_size a₁)
    · have hflag := Clean_flag_of_MemoryBytes_loop hi hc₁
      obtain ⟨v, sz, al, hm⟩ := ArrReady_store hready (by omega)
      obtain ⟨po, vo, hp, hpo, hv, hr₁, hr₂⟩ := hrel.2.1 _ v sz al hm
      obtain ⟨po', hp₁, hp₂, -⟩ := Corr_inBuf (Corr_elements hc) hb₂
        (show InBuf b₁ (b₁ + len) (Array_elements a₁) by rw [hp]; exact ⟨by omega, by omega⟩)
      have hpp : po' = po := by omega
      subst hpp
      have he₂ : read64 s₂.mem (Array_elements a₂) = b₂ + vo := by rw [hp₂]; exact hr₂
      have he₁ : read64 s₁.mem (Array_elements a₁) = b₁ + vo := by rw [hr₁, hv]
      have hcm : Corr b₁ b₂
          (u64 (read64 s₁.mem (Array_elements a₁)
            + (18446744073709551616 - (k + 1)) * L.MemoryBytes.size))
          (u64 (read64 s₂.mem (Array_elements a₂)
            + (18446744073709551616 - (k + 1)) * L.MemoryBytes.size)) := by
        rw [he₁, he₂]
        exact ⟨vo + (18446744073709551616 - (k + 1)) * L.MemoryBytes.size,
          by rw [Nat.add_assoc], by rw [Nat.add_assoc]⟩
      obtain ⟨⟨hinf, hfrf⟩, -⟩ := hflag
      obtain ⟨fo, hf₁, hf₂, hfo⟩ := Corr_inBuf (Corr_add hcm L.memory_bytes_repeating) hb₂ hinf
      have hfl : read64 s₁.mem (u64 (u64 (read64 s₁.mem (Array_elements a₁)
            + (18446744073709551616 - (k + 1)) * L.MemoryBytes.size)
            + L.memory_bytes_repeating))
          = read64 s₂.mem (u64 (u64 (read64 s₂.mem (Array_elements a₂)
            + (18446744073709551616 - (k + 1)) * L.MemoryBytes.size)
            + L.memory_bytes_repeating)) := by
        rw [hf₁, hf₂]
        exact Rel_read hrel hb₁ hb₂ hfo (by rw [← hf₁]; exact Fresh_note_none (Event.load _) rfl hfrf)
      have hrel'' := Rel_right (s₂.note (Event.load (Array_size a₂))) 
        (show ((s₂.note (Event.load (Array_size a₂))).note (Event.load (u64 (u64
          (read64 s₂.mem (Array_elements a₂)
            + (18446744073709551616 - (k + 1)) * L.MemoryBytes.size)
            + L.memory_bytes_repeating)))).mem = _ from rfl)
        (Rel_note (Event.load (u64 (u64 (read64 s₁.mem (Array_elements a₁)
            + (18446744073709551616 - (k + 1)) * L.MemoryBytes.size)
            + L.memory_bytes_repeating))) rfl hrel')
      have hready' : ∃ v size align, Event.store (Array_elements a₁) v size align
          ∈ ((s₁.note (Event.load (Array_size a₁))).note (Event.load (u64 (u64
            (read64 s₁.mem (Array_elements a₁)
              + (18446744073709551616 - (k + 1)) * L.MemoryBytes.size)
              + L.memory_bytes_repeating)))).trace :=
        ⟨v, sz, al, List.mem_cons_of_mem _ (List.mem_cons_of_mem _ hm)⟩
      simp only [RelocateMemoryBytesArray_loop, repeating, State.note] at hc₁ hc₂ ⊢
      rw [← hn] at hc₂ ⊢
      rw [← hfl] at hc₂ ⊢
      simp only [if_pos hi] at hc₁ hc₂ ⊢
      simp only [State.note] at hrel'' hready'
      by_cases hz : read64 s₁.mem (u64 (u64 (read64 s₁.mem (Array_elements a₁)
            + (18446744073709551616 - (k + 1)) * L.MemoryBytes.size)
            + L.memory_bytes_repeating)) = 0
      · simp only [hz, bne_self_eq_false, Bool.not_false, if_true] at hc₁ hc₂ ⊢
        refine SimAt_RIF (Appends_RelocateMemoryBytesArray_loop L _ _ a₁ k)
          (Appends_RelocateMemoryBytesArray_loop L _ _ a₂ k)
          (SimAt_AdjustPointer CType.byte hb₁ hb₂ ⟨Nat.mod_one _, Nat.mod_one _⟩
            (Corr_elements (Corr_add hcm L.memory_bytes_byte_values)) hrel'') ?_ hc₁ hc₂
        intro _ _ hrel₃
        obtain ⟨v', sz', al', hm'⟩ := hready'
        exact ih _ _ hrel₃
          (Or.inl ⟨v', sz', al', (Appends_AdjustPointer _ _ CType.byte _ _).mem hm'⟩)
      · have hz' : (read64 s₁.mem (u64 (u64 (read64 s₁.mem (Array_elements a₁)
            + (18446744073709551616 - (k + 1)) * L.MemoryBytes.size)
            + L.memory_bytes_repeating)) != 0) = true := by
          rw [bne_iff_ne]; exact hz
        simp only [hz', Bool.not_true, Bool.false_eq_true, if_false] at hc₁ hc₂ ⊢
        exact ih _ _ hrel'' (Or.inl hready') hc₁ hc₂
    · simp only [RelocateMemoryBytesArray_loop, State.note] at hc₁ hc₂ ⊢
      rw [← hn] at hc₂ ⊢
      simp only [if_neg hi] at hc₁ hc₂ ⊢
      exact ⟨trivial, hrel'⟩

theorem AdjustArray_ready {start limit : Nat} {T : CType} {array : Nat} {s : State}
    (h : (AdjustArray start limit T array s).1 = Error.kOk) :
    ArrReady array (AdjustArray start limit T array s).2 := by
  by_cases hn : 0 < read64 s.mem (Array_size array)
  · by_cases hv : ValidateRelocatedAddress start limit T
        (u64 (read64 s.mem (Array_elements array) + start)) = Error.kOk
    · rw [AdjustArray_accepted start limit T array s hn hv]
      exact Or.inl ⟨_, _, _, List.mem_cons_of_mem _ (List.mem_cons_of_mem _
        (List.mem_cons_self _ _))⟩
    · rw [AdjustArray_rejected start limit T array s hn hv] at h
      exact absurd h hv
  · rw [AdjustArray_empty start limit T array s (by omega)]
    refine Or.inr ?_
    simp only [State.note, State.write]
    rw [read64_size_write64_elements]
    omega

theorem SimAt_RelocateMemoryBytesArray {b₁ b₂ len : Nat} (L : Layout) {a₁ a₂ : Nat}
    {s₁ s₂ : State}
    (hb₁ : b₁ + len < 18446744073709551616) (hb₂ : b₂ + len < 18446744073709551616)
    (hal : b₁ % L.MemoryBytes.align = 0 ∧ b₂ % L.MemoryBytes.align = 0)
    (hc : Corr b₁ b₂ a₁ a₂) (hrel : Rel b₁ b₂ len s₁ s₂) :
    SimAt b₁ b₂ len (RelocateMemoryBytesArray L b₁ (b₁ + len) a₁)
      (RelocateMemoryBytesArray L b₂ (b₂ + len) a₂) s₁ s₂ :=
  SimAt_RIF (Appends_RelocateMemoryBytesArray_loop L _ _ a₁ _)
    (Appends_RelocateMemoryBytesArray_loop L _ _ a₂ _)
    (SimAt_AdjustArray L.MemoryBytes hb₁ hb₂ hal hc hrel)
    (fun hk _ hrel' =>
      SimAt_RelocateMemoryBytesArray_loop L hb₁ hb₂ hc _ _ _ hrel' (AdjustArray_ready hk))

theorem SimAt_RIF_mono {b₁ b₂ len : Nat} {f₁ f₂ g₁ g₂ : Step} {s₁ s₂ : State}
    (P : State → Prop) (hP : ∀ s s', Extends b₁ (b₁ + len) s s' → P s → P s')
    (hf₁ : Appends b₁ (b₁ + len) f₁)
    (hg₁ : Appends b₁ (b₁ + len) g₁) (hg₂ : Appends b₂ (b₂ + len) g₂)
    (hf : SimAt b₁ b₂ len f₁ f₂ s₁ s₂) (hp : P s₁)
    (hg : Rel b₁ b₂ len (f₁ s₁).2 (f₂ s₂).2 → P (f₁ s₁).2 →
      SimAt b₁ b₂ len g₁ g₂ (f₁ s₁).2 (f₂ s₂).2) :
    SimAt b₁ b₂ len (RETURN_IF_RELOCATION_FAILED f₁ g₁) (RETURN_IF_RELOCATION_FAILED f₂ g₂)
      s₁ s₂ :=
  SimAt_RIF hg₁ hg₂ hf fun _ _ hrel => hg hrel (hP _ _ (hf₁ s₁) hp)

theorem RelocateCorpus_body_eq (L : Layout) (start limit i : Nat) (rest : Step) (s : State) :
    RelocateCorpus_body L start limit i rest s =
      RETURN_IF_RELOCATION_FAILED
        (AdjustPointer start limit L.Snap
          (u64 (read64 s.mem (Array_elements (u64 (start + L.corpus_snaps))) + i * 8)))
        (fun s' => RelocateCorpus_snap L start limit
          (read64 s'.mem
            (u64 (read64 s'.mem (Array_elements (u64 (start + L.corpus_snaps))) + i * 8)))
          rest s')
        s := rfl

theorem Appends_RelocateCorpus_snap (L : Layout) (start limit snap : Nat) {rest : Step}
    (hrest : Appends start limit rest) :
    Appends start limit (RelocateCorpus_snap L start limit snap rest) :=
  Appends_RIF (Appends_AdjustPointer start limit CType.byte _)
    (Appends_RIF (Appends_AdjustArray start limit L.MemoryMapping _)
    (Appends_RIF (Appends_AdjustPointer start limit L.RegisterState _)
    (Appends_RIF (Appends_AdjustPointer start limit L.RegisterState _)
    (Appends_RIF (Appends_RelocateMemoryBytesArray L start limit _)
    (Appends_RIF (Appends_RelocateMemoryBytesArray L start limit _) hrest)))))

theorem SimAt_RelocateCorpus_snap {b₁ b₂ len : Nat} (L : Layout) {n₁ n₂ : Nat}
    {rest₁ rest₂ : Step} (P : State → Prop)
    (hb₁ : b₁ + len < 18446744073709551616) (hb₂ : b₂ + len < 18446744073709551616)
    (hal : ∀ A ∈ L.aligns, b₁ % A = 0 ∧ b₂ % A = 0)
    (hc : Corr b₁ b₂ n₁ n₂)
    (hP : ∀ s s', Extends b₁ (b₁ + len) s s' → P s → P s')
    (hA₁ : Appends b₁ (b₁ + len) rest₁) (hA₂ : Appends b₂ (b₂ + len) rest₂)
    (hrest : ∀ s₁ s₂, Rel b₁ b₂ len s₁ s₂ → P s₁ → SimAt b₁ b₂ len rest₁ rest₂ s₁ s₂)
    {s₁ s₂ : State} (hrel : Rel b₁ b₂ len s₁ s₂) (hp : P s₁) :
    SimAt b₁ b₂ len (RelocateCorpus_snap L b₁ (b₁ + len) n₁ rest₁)
      (RelocateCorpus_snap L b₂ (b₂ + len) n₂ rest₂) s₁ s₂ := by
  have halB : b₁ % CType.byte.align = 0 ∧ b₂ % CType.byte.align = 0 :=
    hal _ (by simp [Layout.aligns])
  have halM : b₁ % L.MemoryMapping.align = 0 ∧ b₂ % L.MemoryMapping.align = 0 :=
    hal _ (by simp [Layout.aligns])
  have halR : b₁ % L.RegisterState.align = 0 ∧ b₂ % L.RegisterState.align = 0 :=
    hal _ (by simp [Layout.aligns])
  have halY : b₁ % L.MemoryBytes.align = 0 ∧ b₂ % L.MemoryBytes.align = 0 :=
    hal _ (by simp [Layout.aligns])
  have A6 := hA₁
  have A5 := Appends_RIF (Appends_RelocateMemoryBytesArray L b₁ (b₁ + len)
    (u64 (n₁ + L.snap_end_state_memory_bytes))) A6
  have A4 := Appends_RIF (Appends_RelocateMemoryBytesArray L b₁ (b₁ + len)
    (u64 (n₁ + L.snap_memory_bytes))) A5
  have A3 := Appends_RIF (Appends_AdjustPointer b₁ (b₁ + len) L.RegisterState
    (u64 (n₁ + L.snap_end_state_registers))) A4
  have A2 := Appends_RIF (Appends_AdjustPointer b₁ (b₁ + len) L.RegisterState
    (u64 (n₁ + L.snap_registers))) A3
  have A1 := Appends_RIF (Appends_AdjustArray b₁ (b₁ + len) L.MemoryMapping
    (u64 (n₁ + L.snap_memory_mappings))) A2
  have B6 := hA₂
  have B5 := Appends_RIF (Appends_RelocateMemoryBytesArray L b₂ (b₂ + len)
    (u64 (n₂ + L.snap_end_state_memory_bytes))) B6
  have B4 := Appends_RIF (Appends_RelocateMemoryBytesArray L b₂ (b₂ + len)
    (u64 (n₂ + L.snap_memory_bytes))) B5
  have B3 := Appends_RIF (Appends_AdjustPointer b₂ (b₂ + len) L.RegisterState
    (u64 (n₂ + L.snap_end_state_registers))) B4
  have B2 := Appends_RIF (Appends_AdjustPointer b₂ (b₂ + len) L.RegisterState
    (u64 (n₂ + L.snap_registers))) B3
  have B1 := Appends_RIF (Appends_AdjustArray b₂ (b₂ + len) L.MemoryMapping
    (u64 (n₂ + L.snap_memory_mappings))) B2
  refine SimAt_RIF_mono P hP (Appends_AdjustPointer _ _ _ _) A1 B1
    (SimAt_AdjustPointer CType.byte hb₁ hb₂ halB (Corr_add hc _) hrel) hp ?_
  intro r1 p1
  refine SimAt_RIF_mono P hP (Appends_AdjustArray _ _ _ _) A2 B2
    (SimAt_AdjustArray L.MemoryMapping hb₁ hb₂ halM (Corr_add hc _) r1) p1 ?_
  intro r2 p2
  refine SimAt_RIF_mono P hP (Appends_AdjustPointer _ _ _ _) A3 B3
    (SimAt_AdjustPointer L.RegisterState hb₁ hb₂ halR (Corr_add hc _) r2) p2 ?_
  intro r3 p3
  refine SimAt_RIF_mono P hP (Appends_AdjustPointer _ _ _ _) A4 B4
    (SimAt_AdjustPointer L.RegisterState hb₁ hb₂ halR (Corr_add hc _) r3) p3 ?_
  intro r4 p4
  refine SimAt_RIF_mono P hP (Appends_RelocateMemoryBytesArray _ _ _ _) A5 B5
    (SimAt_RelocateMemoryBytesArray L hb₁ hb₂ halY (Corr_add hc _) r4) p4 ?_
  intro r5 p5
  refine SimAt_RIF_mono P hP (Appends_RelocateMemoryBytesArray _ _ _ _) A6 B6
    (SimAt_RelocateMemoryBytesArray L hb₁ hb₂ halY (Corr_add hc _) r5) p5 ?_
  intro r6 p6
  exact hrest _ _ r6 p6

theorem store_mono {b₁ len p : Nat} (s s' : State) (h : Extends b₁ (b₁ + len) s s')
    (hp : ∃ v size align, Event.store p v size align ∈ s.trace) :
    ∃ v size align, Event.store p v size align ∈ s'.trace := by
  obtain ⟨v, sz, al, hm⟩ := hp
  exact ⟨v, sz, al, h.mem hm⟩

theorem SimAt_RelocateCorpus_body {b₁ b₂ len : Nat} (L : Layout) (i : Nat)
    {rest₁ rest₂ : Step}
    (hb₁ : b₁ + len < 18446744073709551616) (hb₂ : b₂ + len < 18446744073709551616)
    (hal : ∀ A ∈ L.aligns, b₁ % A = 0 ∧ b₂ % A = 0)
    (hA₁ : Appends b₁ (b₁ + len) rest₁) (hA₂ : Appends b₂ (b₂ + len) rest₂)
    (hrest : ∀ s₁ s₂, Rel b₁ b₂ len s₁ s₂ →
      (∃ v size align, Event.store (Array_elements (u64 (b₁ + L.corpus_snaps))) v size align
        ∈ s₁.trace) → SimAt b₁ b₂ len rest₁ rest₂ s₁ s₂)
    (s₁ s₂ : State) (hrel : Rel b₁ b₂ len s₁ s₂)
    (hp : ∃ v size align, Event.store (Array_elements (u64 (b₁ + L.corpus_snaps))) v size align
        ∈ s₁.trace) :
    SimAt b₁ b₂ len (RelocateCorpus_body L b₁ (b₁ + len) i rest₁)
      (RelocateCorpus_body L b₂ (b₂ + len) i rest₂) s₁ s₂ := by
  have halS : b₁ % L.Snap.align = 0 ∧ b₂ % L.Snap.align = 0 :=
    hal _ (by simp [Layout.aligns])
  obtain ⟨v, sz, al, hm⟩ := hp
  have hce : Corr b₁ b₂ (Array_elements (u64 (b₁ + L.corpus_snaps)))
      (Array_elements (u64 (b₂ + L.corpus_snaps))) := Corr_elements (Corr_base _ _ _)
  -- the two `elements` slots and what they hold, in any pair of related states
  have key : ∀ t₁ t₂ : State, Rel b₁ b₂ len t₁ t₂ →
      Event.store (Array_elements (u64 (b₁ + L.corpus_snaps))) v sz al ∈ t₁.trace →
      Corr b₁ b₂
        (u64 (read64 t₁.mem (Array_elements (u64 (b₁ + L.corpus_snaps))) + i * 8))
        (u64 (read64 t₂.mem (Array_elements (u64 (b₂ + L.corpus_snaps))) + i * 8)) := by
    intro t₁ t₂ hr hmt
    obtain ⟨po, vo, hp', hpo, hv, hr₁, hr₂⟩ := hr.2.1 _ v sz al hmt
    obtain ⟨po', hp₁, hp₂, -⟩ := Corr_inBuf hce hb₂
      (show InBuf b₁ (b₁ + len) (Array_elements (u64 (b₁ + L.corpus_snaps))) by
        rw [hp']; exact ⟨by omega, by omega⟩)
    have hpp : po' = po := by omega
    subst hpp
    rw [hr₁, hv, hp₂, hr₂]
    exact ⟨vo + i * 8, by rw [Nat.add_assoc], by rw [Nat.add_assoc]⟩
  have main : ∀ q₁ q₂,
      q₁ = u64 (read64 s₁.mem (Array_elements (u64 (b₁ + L.corpus_snaps))) + i * 8) →
      q₂ = u64 (read64 s₂.mem (Array_elements (u64 (b₂ + L.corpus_snaps))) + i * 8) →
      SimAt b₁ b₂ len
        (RETURN_IF_RELOCATION_FAILED (AdjustPointer b₁ (b₁ + len) L.Snap q₁)
          (fun s' => RelocateCorpus_snap L b₁ (b₁ + len)
            (read64 s'.mem
              (u64 (read64 s'.mem (Array_elements (u64 (b₁ + L.corpus_snaps))) + i * 8)))
            rest₁ s'))
        (RETURN_IF_RELOCATION_FAILED (AdjustPointer b₂ (b₂ + len) L.Snap q₂)
          (fun s' => RelocateCorpus_snap L b₂ (b₂ + len)
            (read64 s'.mem
              (u64 (read64 s'.mem (Array_elements (u64 (b₂ + L.corpus_snaps))) + i * 8)))
            rest₂ s'))
        s₁ s₂ := by
    intro q₁ q₂ hq₁ hq₂
    have hcq : Corr b₁ b₂ q₁ q₂ := by rw [hq₁, hq₂]; exact key s₁ s₂ hrel hm
    refine SimAt_RIF (fun s' => Appends_RelocateCorpus_snap L _ _ _ hA₁ s')
      (fun s' => Appends_RelocateCorpus_snap L _ _ _ hA₂ s')
      (SimAt_AdjustPointer L.Snap hb₁ hb₂ halS hcq hrel) ?_
    intro hk _ hrel'
    have hm' := (Appends_AdjustPointer b₁ (b₁ + len) L.Snap q₁ s₁).mem hm
    -- the slot of `corpus.snaps[i]` is the same before and after the call
    obtain ⟨po, vo, hp, hpo, hv, hr₁, hr₂⟩ := hrel.2.1 _ v sz al hm
    obtain ⟨po', vo', hp', _, hv', hr₁', hr₂'⟩ := hrel'.2.1 _ v sz al hm'
    have hpp : po' = po := by omega
    have hvv : vo' = vo := by omega
    subst hpp hvv
    obtain ⟨po'', _, hp₂, -⟩ := Corr_inBuf hce hb₂
      (show InBuf b₁ (b₁ + len) (Array_elements (u64 (b₁ + L.corpus_snaps))) by
        rw [hp]; exact ⟨by omega, by omega⟩)
    have hpp : po'' = po' := by omega
    subst hpp
    have e₁ : u64 (read64 (AdjustPointer b₁ (b₁ + len) L.Snap q₁ s₁).2.mem
        (Array_elements (u64 (b₁ + L.corpus_snaps))) + i * 8) = q₁ := by
      rw [hr₁', hq₁, hr₁]
    have e₂ : u64 (read64 (AdjustPointer b₂ (b₂ + len) L.Snap q₂ s₂).2.mem
        (Array_elements (u64 (b₂ + L.corpus_snaps))) + i * 8) = q₂ := by
      rw [hp₂, hr₂', hq₂, hp₂, hr₂]
    obtain ⟨sv, hsv⟩ := AdjustPointer_stored hk
    obtain ⟨spo, svo, hs₁, hspo, hsv₁, hrs₁, hrs₂⟩ := hrel'.2.1 _ _ _ _ hsv
    obtain ⟨spo', _, hq₂', -⟩ := Corr_inBuf hcq hb₂
      (show InBuf b₁ (b₁ + len) q₁ by rw [hs₁]; exact ⟨by omega, by omega⟩)
    have hss : spo' = spo := by omega
    subst hss
    rw [← hq₂'] at hrs₂
    have hsnap : Corr b₁ b₂ (read64 (AdjustPointer b₁ (b₁ + len) L.Snap q₁ s₁).2.mem q₁)
        (read64 (AdjustPointer b₂ (b₂ + len) L.Snap q₂ s₂).2.mem q₂) := by
      rw [hrs₁, hsv₁, hrs₂]
      refine Corr_offsets ?_ ?_
      · rw [← hsv₁, ← hrs₁]; exact read64_lt _ _
      · rw [← hrs₂]; exact read64_lt _ _
    have := SimAt_RelocateCorpus_snap L
      (fun s => ∃ v size align,
        Event.store (Array_elements (u64 (b₁ + L.corpus_snaps))) v size align ∈ s.trace)
      hb₁ hb₂ hal hsnap store_mono hA₁ hA₂ hrest hrel' ⟨v, sz, al, hm'⟩
    intro hcc₁ hcc₂
    simp only [e₁, e₂] at hcc₁ hcc₂ ⊢
    exact this hcc₁ hcc₂
  intro hc₁ hc₂
  rw [RelocateCorpus_body_eq] at hc₁ ⊢
  rw [RelocateCorpus_body_eq] at hc₂ ⊢
  exact main _ _ rfl rfl hc₁ hc₂

theorem Clean_load_of_RelocateCorpus_loop {L : Layout} {start limit start' limit' k : Nat}
    {s : State}
    (h : Clean start' limit' (RelocateCorpus_loop L start limit (k + 1) s).2.trace) :
    Clean start' limit'
      (s.note (Event.load (Array_size (u64 (start + L.corpus_snaps))))).trace := by
  simp only [RelocateCorpus_loop] at h
  split_ifs at h
  · exact Clean_of_extends (Appends_RelocateCorpus_body L start limit _
      (Appends_RelocateCorpus_loop L start limit k) _) h
  · exact h

theorem SimAt_RelocateCorpus_loop {b₁ b₂ len : Nat} (L : Layout)
    (hb₁ : b₁ + len < 18446744073709551616) (hb₂ : b₂ + len < 18446744073709551616)
    (hal : ∀ A ∈ L.aligns, b₁ % A = 0 ∧ b₂ % A = 0) (k : Nat) :
    ∀ s₁ s₂, Rel b₁ b₂ len s₁ s₂ → ArrReady (u64 (b₁ + L.corpus_snaps)) s₁ →
      SimAt b₁ b₂ len (RelocateCorpus_loop L b₁ (b₁ + len) k)
        (RelocateCorpus_loop L b₂ (b₂ + len) k) s₁ s₂ := by
  induction k with
  | zero => exact fun s₁ s₂ hrel _ _ _ => ⟨rfl, hrel⟩
  | succ k ih =>
    intro s₁ s₂ hrel hready hc₁ hc₂
    obtain ⟨⟨hin, hfr⟩, -⟩ := Clean_load_of_RelocateCorpus_loop hc₁
    obtain ⟨so, hs₁, hs₂, hso⟩ := Corr_inBuf (Corr_size (Corr_base b₁ b₂ L.corpus_snaps)) hb₂ hin
    have hn : read64 s₁.mem (Array_size (u64 (b₁ + L.corpus_snaps)))
        = read64 s₂.mem (Array_size (u64 (b₂ + L.corpus_snaps))) := by
      rw [hs₁, hs₂]
      exact Rel_read hrel hb₁ hb₂ hso (by rw [← hs₁]; exact hfr)
    have hrel' : Rel b₁ b₂ len
        (s₁.note (Event.load (Array_size (u64 (b₁ + L.corpus_snaps)))))
        (s₂.note (Event.load (Array_size (u64 (b₂ + L.corpus_snaps))))) :=
      Rel_right s₂ rfl (Rel_note _ rfl hrel)
    simp only [RelocateCorpus_loop, State.note] at hc₁ hc₂ ⊢
    rw [← hn] at hc₂ ⊢
    by_cases hi : 18446744073709551616 - (k + 1)
        < read64 s₁.mem (Array_size (u64 (b₁ + L.corpus_snaps)))
    · simp only [if_pos hi] at hc₁ hc₂ ⊢
      obtain ⟨v, sz, al, hm⟩ := ArrReady_store hready (by omega)
      exact SimAt_RelocateCorpus_body L _ hb₁ hb₂ hal
        (Appends_RelocateCorpus_loop L _ _ k) (Appends_RelocateCorpus_loop L _ _ k)
        (fun t₁ t₂ hr hp => ih t₁ t₂ hr (Or.inl hp)) _ _ hrel'
        ⟨v, sz, al, List.mem_cons_of_mem _ hm⟩ hc₁ hc₂
    · simp only [if_neg hi] at hc₁ hc₂ ⊢
      exact ⟨trivial, hrel'⟩

theorem Appends_checkField {start limit : Nat} (address expected : Nat) {next : Step}
    (h : Appends start limit next) : Appends start limit (checkField address expected next) := by
  intro s
  simp only [checkField]
  split_ifs
  · exact Extends.load s _
  · exact (Extends.load s _).trans (h _)

theorem SimAt_checkField {b₁ b₂ len a₁ a₂ : Nat} (expected : Nat) {next₁ next₂ : Step}
    (hb₁ : b₁ + len < 18446744073709551616) (hb₂ : b₂ + len < 18446744073709551616)
    (hc : Corr b₁ b₂ a₁ a₂)
    (hA₁ : Appends b₁ (b₁ + len) next₁) (hA₂ : Appends b₂ (b₂ + len) next₂)
    (hnext : ∀ s₁ s₂, Rel b₁ b₂ len s₁ s₂ → SimAt b₁ b₂ len next₁ next₂ s₁ s₂)
    (s₁ s₂ : State) (hrel : Rel b₁ b₂ len s₁ s₂) :
    SimAt b₁ b₂ len (checkField a₁ expected next₁) (checkField a₂ expected next₂) s₁ s₂ := by
  intro hc₁ hc₂
  have hl : Clean b₁ (b₁ + len) (s₁.note (Event.load a₁)).trace := by
    simp only [checkField] at hc₁
    split_ifs at hc₁
    · exact hc₁
    · exact Clean_of_extends (hA₁ _) hc₁
  obtain ⟨⟨hin, hfr⟩, -⟩ := hl
  obtain ⟨ao, rfl, rfl, hao⟩ := Corr_inBuf hc hb₂ hin
  have hv := Rel_read hrel hb₁ hb₂ hao hfr
  have hrel' : Rel b₁ b₂ len (s₁.note (Event.load (b₁ + ao))) (s₂.note (Event.load (b₂ + ao))) :=
    Rel_right s₂ rfl (Rel_note _ rfl hrel)
  simp only [checkField, State.note] at hc₁ hc₂ ⊢
  rw [← hv] at hc₂ ⊢
  by_cases h : read64 s₁.mem (b₁ + ao) = expected
  · simp only [h, ne_eq, not_true_eq_false, if_false] at hc₁ hc₂ ⊢
    exact hnext _ _ hrel' hc₁ hc₂
  · simp only [ne_eq, h, not_false_eq_true, if_true] at hc₁ hc₂ ⊢
    exact ⟨trivial, hrel'⟩

theorem RelocateCorpus_eq (L : Layout) (start limit : Nat) (s : State) :
    RelocateCorpus L start limit s =
      if ValidateRelocatedAddress start limit L.SnapCorpus start = Error.kOk then
        checkField (u64 (start + L.corpus_magic)) L.kSnapCorpusMagic
          (checkField (u64 (start + L.corpus_corpus_type_size)) L.SnapCorpus.size
          (checkField (u64 (start + L.corpus_snap_type_size)) L.Snap.size
          (checkField (u64 (start + L.corpus_register_state_type_size)) L.RegisterState.size
          (RETURN_IF_RELOCATION_FAILED
            (AdjustArray start limit CType.pointer (u64 (start + L.corpus_snaps)))
            (RelocateCorpus_loop L start limit 18446744073709551616)))))
          (s.note (Event.check start L.SnapCorpus.size))
      else (ValidateRelocatedAddress start limit L.SnapCorpus start,
        s.note (Event.check start L.SnapCorpus.size)) := by
  by_cases h : ValidateRelocatedAddress start limit L.SnapCorpus start = Error.kOk
  · simp only [RelocateCorpus, h, if_true, checkField]
  · simp only [RelocateCorpus, h, if_false]

theorem SimAt_RelocateCorpus {b₁ b₂ len : Nat} (L : Layout)
    (hb₁ : b₁ + len < 18446744073709551616) (hb₂ : b₂ + len < 18446744073709551616)
    (hal : ∀ A ∈ L.aligns, b₁ % A = 0 ∧ b₂ % A = 0)
    (s₁ s₂ : State) (hrel : Rel b₁ b₂ len s₁ s₂) :
    SimAt b₁ b₂ len (RelocateCorpus L b₁ (b₁ + len)) (RelocateCorpus L b₂ (b₂ + len)) s₁ s₂ := by
  have halC : b₁ % L.SnapCorpus.align = 0 ∧ b₂ % L.SnapCorpus.align = 0 :=
    hal _ (by simp [Layout.aligns])
  have halP : b₁ % CType.pointer.align = 0 ∧ b₂ % CType.pointer.align = 0 :=
    hal _ (by simp [Layout.aligns])
  have A5 : ∀ b, Appends b (b + len) (RETURN_IF_RELOCATION_FAILED
      (AdjustArray b (b + len) CType.pointer (u64 (b + L.corpus_snaps)))
      (RelocateCorpus_loop L b (b + len) 18446744073709551616)) :=
    fun b => Appends_RIF (Appends_AdjustArray _ _ _ _) (Appends_RelocateCorpus_loop L _ _ _)
  have A4 := fun b => Appends_checkField (u64 (b + L.corpus_register_state_type_size))
    L.RegisterState.size (A5 b)
  have A3 := fun b => Appends_checkField (u64 (b + L.corpus_snap_type_size)) L.Snap.size (A4 b)
  have A2 := fun b => Appends_checkField (u64 (b + L.corpus_corpus_type_size))
    L.SnapCorpus.size (A3 b)
  have A1 := fun b => Appends_checkField (u64 (b + L.corpus_magic)) L.kSnapCorpusMagic (A2 b)
  intro hc₁ hc₂
  rw [RelocateCorpus_eq] at hc₁ ⊢
  rw [RelocateCorpus_eq] at hc₂ ⊢
  have hk₁ : Clean b₁ (b₁ + len) (s₁.note (Event.check b₁ L.SnapCorpus.size)).trace := by
    split_ifs at hc₁
    · exact Clean_of_extends (A1 b₁ _) hc₁
    · exact hc₁
  have hk₂ : Clean b₂ (b₂ + len) (s₂.note (Event.check b₂ L.SnapCorpus.size)).trace := by
    split_ifs at hc₂
    · exact Clean_of_extends (A1 b₂ _) hc₂
    · exact hc₂
  have e₁ : b₁ = u64 (0 + b₁) := by unfold u64; omega
  have e₂ : b₂ = u64 (0 + b₂) := by unfold u64; omega
  have hv : ValidateRelocatedAddress b₁ (b₁ + len) L.SnapCorpus b₁
      = ValidateRelocatedAddress b₂ (b₂ + len) L.SnapCorpus b₂ := by
    have h₁ := hk₁.1
    have h₂ := hk₂.1
    have := (Validate_translate (o := 0) L.SnapCorpus hb₁ hb₂ (by decide)
      (by rw [← e₁]; exact h₁) (by rw [← e₂]; exact h₂) halC).1
    rw [← e₁, ← e₂] at this
    exact this
  have hrel' : Rel b₁ b₂ len (s₁.note (Event.check b₁ L.SnapCorpus.size))
      (s₂.note (Event.check b₂ L.SnapCorpus.size)) :=
    Rel_right s₂ rfl (Rel_note _ rfl hrel)
  rw [← hv] at hc₂ ⊢
  by_cases h : ValidateRelocatedAddress b₁ (b₁ + len) L.SnapCorpus b₁ = Error.kOk
  · simp only [h, if_true] at hc₁ hc₂ ⊢
    refine SimAt_checkField _ hb₁ hb₂ (Corr_base _ _ _) (A2 b₁) (A2 b₂) ?_ _ _ hrel' hc₁ hc₂
    refine SimAt_checkField _ hb₁ hb₂ (Corr_base _ _ _) (A3 b₁) (A3 b₂) ?_
    refine SimAt_checkField _ hb₁ hb₂ (Corr_base _ _ _) (A4 b₁) (A4 b₂) ?_
    refine SimAt_checkField _ hb₁ hb₂ (Corr_base _ _ _) (A5 b₁) (A5 b₂) ?_
    intro t₁ t₂ hr
    exact SimAt_RIF (Appends_RelocateCorpus_loop L _ _ _) (Appends_RelocateCorpus_loop L _ _ _)
      (SimAt_AdjustArray CType.pointer hb₁ hb₂ halP (Corr_base _ _ _) hr)
      (fun hk _ hr' => SimAt_RelocateCorpus_loop L hb₁ hb₂ hal _ _ _ hr' (AdjustArray_ready hk))
  · simp only [h, if_false] at hc₁ hc₂ ⊢
    exact ⟨trivial, hrel'⟩

set_option allowUnsafeReducibility true in
attribute [semireducible] read64

/-! ## Claim C10: two copies of one file at two bases -/

theorem write64_translate {m₁ m₂ : Mem} {a₁ a₂ x₁ x₂ v : Nat}
    (ha₁ : a₁ + 8 ≤ 18446744073709551616) (ha₂ : a₂ + 8 ≤ 18446744073709551616)
    (hx : x₁ + a₂ = x₂ + a₁) (hm : m₁ x₁ = m₂ x₂) :
    write64 m₁ a₁ v x₁ = write64 m₂ a₂ v x₂ := by
  by_cases h : x₁ < a₁ ∨ a₁ + 8 ≤ x₁
  · rw [write64_outside ha₁ h, write64_outside ha₂ (by omega)]
    exact hm
  · obtain ⟨d, hd, rfl⟩ : ∃ d, d < 8 ∧ x₁ = a₁ + d := ⟨x₁ - a₁, by omega, by omega⟩
    have hx₂ : x₂ = a₂ + d := by omega
    subst hx₂
    have u₁ : ∀ j, j < 8 → u64 (a₁ + j) = a₁ + j := fun j hj => u64_of_lt (by omega)
    have u₂ : ∀ j, j < 8 → u64 (a₂ + j) = a₂ + j := fun j hj => u64_of_lt (by omega)
    have v₁ : u64 a₁ = a₁ + 0 := u64_of_lt (by omega)
    have v₂ : u64 a₂ = a₂ + 0 := u64_of_lt (by omega)
    unfold write64
    rw [v₁, v₂, u₁ 1 (by omega), u₁ 2 (by omega), u₁ 3 (by omega), u₁ 4 (by omega),
      u₁ 5 (by omega), u₁ 6 (by omega), u₁ 7 (by omega), u₂ 1 (by omega), u₂ 2 (by omega),
      u₂ 3 (by omega), u₂ 4 (by omega), u₂ 5 (by omega), u₂ 6 (by omega), u₂ 7 (by omega)]
    simp only [Nat.add_left_cancel_iff]
    split_ifs <;> first | rfl | exact hm

theorem image_translate (b₁ b₂ len : Nat) (words : List (Nat × Nat))
    (hb₁ : b₁ + len < 18446744073709551616) (hb₂ : b₂ + len < 18446744073709551616)
    (hw : ∀ w ∈ words, w.1 + 8 ≤ len) (k : Nat) :
    (image b₁ words).mem (b₁ + k) = (image b₂ words).mem (b₂ + k) := by
  unfold image
  simp only
  have gen : ∀ (ws : List (Nat × Nat)) (m₁ m₂ : Mem), (∀ w ∈ ws, w.1 + 8 ≤ len) →
      m₁ (b₁ + k) = m₂ (b₂ + k) →
      (ws.foldl (fun m w => write64 m (b₁ + w.1) w.2) m₁) (b₁ + k)
        = (ws.foldl (fun m w => write64 m (b₂ + w.1) w.2) m₂) (b₂ + k) := by
    intro ws
    induction ws with
    | nil => exact fun _ _ _ h => h
    | cons w ws ih =>
      intro m₁ m₂ hws hm
      simp only [List.foldl_cons]
      apply ih _ _ (fun w' hw' => hws w' (List.mem_cons_of_mem _ hw'))
      have := hws w (List.mem_cons_self _ _)
      exact write64_translate (by omega) (by omega) (by omega) hm
  exact gen words _ _ hw rfl

/-- C10 as stated fails: the corpus `shared_snap`, whose two entries
`snaps[0]` and `snaps[1]` hold the offset of the same snap, is copied to the
page-aligned bases 4096 and 1048576 (12288 bytes each).  On the first copy
`RelocateCorpus()` answers `kOk` (the second pass over the snap adds the base
once more to the already relocated pointers, and `2 * 4096 + offset` is still
inside the buffer); on the second copy it answers `kOutOfBound`. -/
theorem RelocateCorpus_base_dependent :
    4096 % 4096 = 0 ∧ 1048576 % 4096 = 0
      ∧ (∀ k, (image 4096 shared_snap).mem (4096 + k)
            = (image 1048576 shared_snap).mem (1048576 + k))
      ∧ (RelocateCorpus L64 4096 (4096 + 12288) (image 4096 shared_snap)).1 = Error.kOk
      ∧ (RelocateCorpus L64 1048576 (1048576 + 12288) (image 1048576 shared_snap)).1
          = Error.kOutOfBound :=
  ⟨by decide, by decide,
    fun k => image_translate 4096 1048576 12288 shared_snap (by decide) (by decide)
      (by decide) k,
    by decide!, by decide!⟩

/-- C10 (amended): two copies of one file of `len` bytes at the bases `base₁`
and `base₂`, both multiples of `page`, where every alignment the relocator
checks divides `page`.  If both runs of `RelocateCorpus()` are `Clean` (no
validated object extends past the end of the 64-bit address space, every field
read or written lies inside the buffer, and no field is read or written after
it has been rewritten, other than to follow the pointer stored in it), then
the error codes are equal and the buffers are equal up to translation: every
byte outside the rewritten pointer slots is the same, a nulled pointer is null
in both, and a pointer rewritten to `v` in the first buffer is `v - base₁ +
base₂` in the corresponding slot of the second. -/
theorem RelocateCorpus_translation (L : Layout) (page base₁ base₂ len : Nat) (m₁ m₂ : Mem)
    (hlimit₁ : base₁ + len < 18446744073709551616)
    (hlimit₂ : base₂ + len < 18446744073709551616)
    (hpage₁ : base₁ % page = 0) (hpage₂ : base₂ % page = 0)
    (halign : ∀ A ∈ L.aligns, A ∣ page)
    (hcopy : ∀ k, k < len → m₁ (base₁ + k) = m₂ (base₂ + k))
    (hclean₁ : Clean base₁ (base₁ + len)
      (RelocateCorpus L base₁ (base₁ + len) ⟨m₁, []⟩).2.trace)
    (hclean₂ : Clean base₂ (base₂ + len)
      (RelocateCorpus L base₂ (base₂ + len) ⟨m₂, []⟩).2.trace) :
    (RelocateCorpus L base₁ (base₁ + len) ⟨m₁, []⟩).1
        = (RelocateCorpus L base₂ (base₂ + len) ⟨m₂, []⟩).1
      ∧ (∀ k, k < len →
          (∀ p ∈ Written (RelocateCorpus L base₁ (base₁ + len) ⟨m₁, []⟩).2.trace,
            base₁ + k < p ∨ p + 8 ≤ base₁ + k) →
          (RelocateCorpus L base₁ (base₁ + len) ⟨m₁, []⟩).2.mem (base₁ + k)
            = (RelocateCorpus L base₂ (base₂ + len) ⟨m₂, []⟩).2.mem (base₂ + k))
      ∧ (∀ p, Event.null p ∈ (RelocateCorpus L base₁ (base₁ + len) ⟨m₁, []⟩).2.trace →
          base₁ ≤ p
            ∧ read64 (RelocateCorpus L base₁ (base₁ + len) ⟨m₁, []⟩).2.mem p = 0
            ∧ read64 (RelocateCorpus L base₂ (base₂ + len) ⟨m₂, []⟩).2.mem
                (p - base₁ + base₂) = 0)
      ∧ (∀ p v size align,
          Event.store p v size align
            ∈ (RelocateCorpus L base₁ (base₁ + len) ⟨m₁, []⟩).2.trace →
          base₁ ≤ p ∧ base₁ ≤ v
            ∧ read64 (RelocateCorpus L base₁ (base₁ + len) ⟨m₁, []⟩).2.mem p = v
            ∧ read64 (RelocateCorpus L base₂ (base₂ + len) ⟨m₂, []⟩).2.mem
                (p - base₁ + base₂) = v - base₁ + base₂) := by
  have hal : ∀ A ∈ L.aligns, base₁ % A = 0 ∧ base₂ % A = 0 := fun A hA =>
    ⟨Nat.mod_eq_zero_of_dvd ((halign A hA).trans (Nat.dvd_of_mod_eq_zero hpage₁)),
      Nat.mod_eq_zero_of_dvd ((halign A hA).trans (Nat.dvd_of_mod_eq_zero hpage₂))⟩
  have hrel : Rel base₁ base₂ len ⟨m₁, []⟩ ⟨m₂, []⟩ :=
    ⟨fun k hk _ => hcopy k hk, fun _ _ _ _ h => absurd h (List.not_mem_nil _),
      fun _ h => absurd h (List.not_mem_nil _)⟩
  obtain ⟨he, r1, r2, r3⟩ :=
    SimAt_RelocateCorpus L hlimit₁ hlimit₂ hal _ _ hrel hclean₁ hclean₂
  refine ⟨he, r1, ?_, ?_⟩
  · intro p hp
    obtain ⟨po, h1, _, h3, h4⟩ := r3 p hp
    refine ⟨by omega, h3, ?_⟩
    have e : p - base₁ + base₂ = base₂ + po := by omega
    rw [e]; exact h4
  · intro p v sz al hp
    obtain ⟨po, vo, h1, _, h3, h4, h5⟩ := r2 p v sz al hp
    refine ⟨by omega, by omega, h4, ?_⟩
    have e : p - base₁ + base₂ = base₂ + po := by omega
    have e' : v - base₁ + base₂ = base₂ + vo := by omega
    rw [e, e']; exact h5

/-- C10 (amended), a witness: the corpus `one_snap` copied to the bases 4096
and 8192 (one page each).  Both runs are `Clean`; the error codes agree, and
`snap.registers`, rewritten to 4352 in the first copy, holds `4352 - 4096 +
8192` in the second. -/
theorem RelocateCorpus_translation_witness :
    (RelocateCorpus L64 4096 (4096 + 4096) ⟨(image 4096 one_snap).mem, []⟩).1
        = (RelocateCorpus L64 8192 (8192 + 4096) ⟨(image 8192 one_snap).mem, []⟩).1
      ∧ read64 (RelocateCorpus L64 8192 (8192 + 4096) ⟨(image 8192 one_snap).mem, []⟩).2.mem
          (4216 - 4096 + 8192) = 4352 - 4096 + 8192 :=
  have h := RelocateCorpus_translation L64 4096 4096 8192 4096
    (image 4096 one_snap).mem (image 8192 one_snap).mem
    (by decide) (by decide) (by decide) (by decide) (by decide)
    (fun k _ => image_translate 4096 8192 4096 one_snap (by decide) (by decide) (by decide) k)
    (by decide!) (by decide!)
  ⟨h.1, (h.2.2.2 4216 4352 64 16 (by decide!)).2.2.2⟩

/-! ## Status values: lemmas -/

theorem OkStatus_ok : OkStatus.ok = true := rfl

theorem InternalError_ok (message : String) : (InternalError message).ok = false := rfl

theorem InvalidArgumentError_ok (message : String) :
    (InvalidArgumentError message).ok = false := rfl

theorem Status.ok_iff (status : Status) : status.ok = true ↔ status.code = StatusCode.kOk := by
  simp [Status.ok]

theorem Status.Update_of_ok {status : Status} (h : status.ok = true) (new_status : Status) :
    status.Update new_status = new_status := by
  simp [Status.Update, h]

theorem Status.Update_of_not_ok {status : Status} (h : status.ok = false)
    (new_status : Status) : status.Update new_status = status := by
  simp [Status.Update, h]

theorem Status.Update_ok_iff (status new_status : Status) :
    (status.Update new_status).ok = true ↔ status.ok = true ∧ new_status.ok = true := by
  unfold Status.Update
  split_ifs with h
  · simp [h]
  · simp [h]

/-! ## `SnapMaker::Options::Validate` -/

/-- C11: the method `Validate()` returns Ok if and only if `runner_path` is not
empty, `max_pages_to_add >= 0` and `num_verify_attempts >= 1`, and returns
InvalidArgument in every other case; the default options (empty path, 5, 5)
are rejected, and are valid with any non-empty runner path. -/
theorem Options_Validate_ok_iff (opts : SnapMaker.Options) :
    (opts.Validate = OkStatus ↔
      opts.runner_path ≠ "" ∧ 0 ≤ opts.max_pages_to_add ∧ 1 ≤ opts.num_verify_attempts) ∧
    (opts.Validate ≠ OkStatus → opts.Validate.code = StatusCode.kInvalidArgument) ∧
    ({} : SnapMaker.Options) = ⟨"", 5, 5⟩ ∧
    (⟨"", 5, 5⟩ : SnapMaker.Options).Validate.code = StatusCode.kInvalidArgument ∧
    ∀ runner_path : String, runner_path ≠ "" →
      (⟨runner_path, 5, 5⟩ : SnapMaker.Options).Validate = OkStatus := by
  have key : ∀ o : SnapMaker.Options,
      (o.Validate = OkStatus ↔
        o.runner_path ≠ "" ∧ 0 ≤ o.max_pages_to_add ∧ 1 ≤ o.num_verify_attempts) ∧
      (o.Validate ≠ OkStatus → o.Validate.code = StatusCode.kInvalidArgument) := by
    intro o
    unfold SnapMaker.Options.Validate
    by_cases h1 : o.runner_path = ""
    · have e : o.runner_path.isEmpty = true := (String.isEmpty_iff _).2 h1
      rw [if_pos e]
      refine ⟨⟨fun h => ?_, fun h => absurd h1 h.1⟩, fun _ => rfl⟩
      exact absurd (congrArg Status.code h) (by simp [InvalidArgumentError, OkStatus])
    · have e : ¬ o.runner_path.isEmpty = true := fun h => h1 ((String.isEmpty_iff _).1 h)
      rw [if_neg e]
      by_cases h2 : o.max_pages_to_add < 0
      · rw [if_pos h2]
        refine ⟨⟨fun h => ?_, fun h => ?_⟩, fun _ => rfl⟩
        · exact absurd (congrArg Status.code h) (by simp [InvalidArgumentError, OkStatus])
        · omega
      · rw [if_neg h2]
        by_cases h3 : o.num_verify_attempts ≤ 0
        · rw [if_pos h3]
          refine ⟨⟨fun h => ?_, fun h => ?_⟩, fun _ => rfl⟩
          · exact absurd (congrArg Status.code h) (by simp [InvalidArgumentError, OkStatus])
          · omega
        · rw [if_neg h3]
          exact ⟨⟨fun _ => ⟨h1, by omega, by omega⟩, fun _ => rfl⟩, fun h => absurd rfl h⟩
  refine ⟨(key opts).1, (key opts).2, rfl, rfl, fun runner_path h => ?_⟩
  exact (key ⟨runner_path, 5, 5⟩).1.2 ⟨h, by norm_num, by norm_num⟩

theorem Options_Validate_ok_iff_witness :
    (⟨"/bin/runner", 5, 5⟩ : SnapMaker.Options).Validate = OkStatus :=
  (Options_Validate_ok_iff ⟨"/bin/runner", 5, 5⟩).1.2 ⟨by decide, by decide, by decide⟩

/-! ## `SnapMaker::Make`: the result of the runner -/

theorem Make_of_run {env : Env} {opts : SnapMaker.Options} {snapshot copy : Snapshot}
    {make_result : RunResult}
    (hrun : SnapMaker.Make_run env opts snapshot = Result.value (copy, make_result)) :
    SnapMaker.Make env opts snapshot = SnapMaker.Make_finish env copy make_result := by
  simp [SnapMaker.Make, hrun]

theorem Make_value_run {env : Env} {opts : SnapMaker.Options} {snapshot result : Snapshot}
    (h : SnapMaker.Make env opts snapshot = Result.value result) :
    ∃ copy make_result,
      SnapMaker.Make_run env opts snapshot = Result.value (copy, make_result) ∧
      SnapMaker.Make_finish env copy make_result = Result.value result := by
  unfold SnapMaker.Make at h
  split at h
  · next copy make_result hrun => exact ⟨copy, make_result, hrun, h⟩
  · exact Result.noConfusion h
  · exact Result.noConfusion h
  · exact Result.noConfusion h

theorem Make_stop_reason_kEndpoint {env : Env} {copy : Snapshot} {outcome : PlaybackOutcome}
    {actual_endpoint : Endpoint}
    (h : SnapMaker.Make_stop_reason env copy outcome actual_endpoint
      = Except.ok MakerStopReason.kEndpoint) :
    outcome = PlaybackOutcome.kMemoryMismatch ∨
      outcome = PlaybackOutcome.kRegisterStateMismatch := by
  unfold SnapMaker.Make_stop_reason at h
  cases outcome
  case kMemoryMismatch => exact Or.inl rfl
  case kRegisterStateMismatch => exact Or.inr rfl
  case kExecutionMisbehave =>
    simp only at h
    split_ifs at h
    · cases Except.ok.inj h
    · cases hc : actual_endpoint.sig_cause <;> rw [hc] at h <;> cases Except.ok.inj h
    · cases Except.ok.inj h
  all_goals first
    | exact Except.noConfusion h
    | cases Except.ok.inj h

/-- What a snapshot returned by the second part of `Make` looks like. -/
theorem Make_finish_value {env : Env} {copy result : Snapshot} {make_result : RunResult}
    (h : SnapMaker.Make_finish env copy make_result = Result.value result) :
    make_result.success = false ∧
    (make_result.player_result.outcome = PlaybackOutcome.kMemoryMismatch ∨
      make_result.player_result.outcome = PlaybackOutcome.kRegisterStateMismatch) ∧
    ∃ actual_end_state, make_result.player_result.actual_end_state = some actual_end_state ∧
      (SnapMaker.AddWritableMemoryForEndState env copy actual_end_state).1.ok = true ∧
      result = ((SnapMaker.AddWritableMemoryForEndState env copy actual_end_state).2
        |>.set_expected_end_states []).add_expected_end_state
          (EndState.ofEndpoint actual_end_state.endpoint) := by
  unfold SnapMaker.Make_finish at h
  split_ifs at h with hs
  have hs' : make_result.success = false := by simpa using hs
  refine ⟨hs', ?_⟩
  split at h
  · exact Result.noConfusion h
  · next actual_end_state hsome =>
    simp only at h
    split at h
    · exact Result.noConfusion h
    · next stop_reason hstop =>
      split_ifs at h with hne hadd hcan
      have hstop' : stop_reason = MakerStopReason.kEndpoint := by
        by_contra hc; exact hne hc
      subst hstop'
      refine ⟨Make_stop_reason_kEndpoint hstop, actual_end_state, hsome, ?_, ?_⟩
      · simpa using hadd
      · exact (Result.value.inj h).symm

theorem Make_finish_success (env : Env) (copy : Snapshot) (make_result : RunResult)
    (hsuccess : make_result.success = true) :
    SnapMaker.Make_finish env copy make_result =
      Result.error (InternalError ("Unlikely: snapshot " ++ copy.id
        ++ " had an undefined end state yet ran successfully")) := by
  simp [SnapMaker.Make_finish, hsuccess]

theorem Make_finish_absent (env : Env) (copy : Snapshot) (make_result : RunResult)
    (hsuccess : make_result.success = false)
    (habsent : make_result.player_result.actual_end_state = none) :
    SnapMaker.Make_finish env copy make_result = Result.undefined_behavior := by
  simp [SnapMaker.Make_finish, hsuccess, habsent]

theorem Make_finish_switch_error (env : Env) (copy : Snapshot) (make_result : RunResult)
    (actual_end_state : EndState) (status : Status)
    (hsuccess : make_result.success = false)
    (hsome : make_result.player_result.actual_end_state = some actual_end_state)
    (hstop : SnapMaker.Make_stop_reason env copy make_result.player_result.outcome
      actual_end_state.endpoint = Except.error status) :
    SnapMaker.Make_finish env copy make_result = Result.error status := by
  unfold SnapMaker.Make_finish
  rw [if_neg (by simp [hsuccess])]
  simp only [hsome, hstop]

/-- The error of `Make` for a stop reason other than `kEndpoint`. -/
theorem Make_finish_stop_reason (env : Env) (copy : Snapshot) (make_result : RunResult)
    (actual_end_state : EndState) (stop_reason : MakerStopReason)
    (hsuccess : make_result.success = false)
    (hsome : make_result.player_result.actual_end_state = some actual_end_state)
    (hstop : SnapMaker.Make_stop_reason env copy make_result.player_result.outcome
      actual_end_state.endpoint = Except.ok stop_reason)
    (hne : stop_reason ≠ MakerStopReason.kEndpoint) :
    SnapMaker.Make_finish env copy make_result =
      Result.error (InternalError
        (if actual_end_state.endpoint.type = EndpointType.kSignal then
          env.EnumStr_MakerStopReason stop_reason ++ " isn't Snap-compatible."
            ++ " Endpoint = \x7b" ++ env.EnumStr_SigNum actual_end_state.endpoint.sig_num ++ "/"
            ++ env.EnumStr_SigCause actual_end_state.endpoint.sig_cause ++ "\x7d"
        else env.EnumStr_MakerStopReason stop_reason ++ " isn't Snap-compatible.")) := by
  unfold SnapMaker.Make_finish
  rw [if_neg (by simp [hsuccess])]
  simp only [hsome, hstop]
  rw [if_pos hne]

/-- The stop reason of the table of the spec for the outcome
`ExecutionMisbehave`: "SigTrap" for the signal `SigTrap`; for `SigSegv`,
"CannotAddMemory" for the causes `CantRead` and `CantWrite`,
"GeneralProtectionSigSegv" for `GeneralProtection` and "HardSigSegv" for
`CantExec`, `Overflow` and `Generic`; "Signal" for any other signal. -/
theorem Make_stop_reason_misbehave (env : Env) (copy : Snapshot) (actual_endpoint : Endpoint) :
    SnapMaker.Make_stop_reason env copy PlaybackOutcome.kExecutionMisbehave actual_endpoint =
      Except.ok (match actual_endpoint.sig_num, actual_endpoint.sig_cause with
        | SigNum.kSigTrap, _ => MakerStopReason.kSigTrap
        | SigNum.kSigSegv, SigCause.kSegvCantRead => MakerStopReason.kCannotAddMemory
        | SigNum.kSigSegv, SigCause.kSegvCantWrite => MakerStopReason.kCannotAddMemory
        | SigNum.kSigSegv, SigCause.kSegvGeneralProtection =>
          MakerStopReason.kGeneralProtectionSigSegv
        | SigNum.kSigSegv, SigCause.kSegvCantExec => MakerStopReason.kHardSigSegv
        | SigNum.kSigSegv, SigCause.kSegvOverflow => MakerStopReason.kHardSigSegv
        | SigNum.kSigSegv, SigCause.kGenericSigCause => MakerStopReason.kHardSigSegv
        | SigNum.kOther _, _ => MakerStopReason.kSignal) := by
  unfold SnapMaker.Make_stop_reason
  cases hn : actual_endpoint.sig_num <;> cases hc : actual_endpoint.sig_cause <;> simp

/-- With an actual end state at hand, the second part of `Make` returns an
Internal error for every outcome but the two mismatches of memory and of
register state. -/
theorem Make_finish_other_outcome (env : Env) (copy : Snapshot) (make_result : RunResult)
    (actual_end_state : EndState) (hsuccess : make_result.success = false)
    (hsome : make_result.player_result.actual_end_state = some actual_end_state)
    (hm : make_result.player_result.outcome ≠ PlaybackOutcome.kMemoryMismatch)
    (hr : make_result.player_result.outcome ≠ PlaybackOutcome.kRegisterStateMismatch) :
    ∃ message, SnapMaker.Make_finish env copy make_result
      = Result.error (InternalError message) := by
  cases hstop : SnapMaker.Make_stop_reason env copy make_result.player_result.outcome
      actual_end_state.endpoint with
  | error status =>
    refine ⟨status.message, ?_⟩
    rw [Make_finish_switch_error env copy make_result actual_end_state status hsuccess hsome hstop]
    revert hstop
    unfold SnapMaker.Make_stop_reason
    cases make_result.player_result.outcome <;> simp
    all_goals first
      | (intro h; rw [← h]; rfl)
      | (split_ifs <;> first | simp | (split <;> simp))
  | ok stop_reason =>
    have hne : stop_reason ≠ MakerStopReason.kEndpoint := by
      intro h
      rw [h] at hstop
      rcases Make_stop_reason_kEndpoint hstop with h | h
      · exact hm h
      · exact hr h
    exact ⟨_, Make_finish_stop_reason env copy make_result actual_end_state stop_reason
      hsuccess hsome hstop hne⟩

/-- C12: for the runner result "no success, outcome `PlatformMismatch`, no
actual end state" the method `Make` reads the endpoint of the absent end state,
which is undefined behaviour, where the claim has it return an error; with an
actual end state in the result it returns the Internal error "Unsupported
outcome". -/
theorem Make_platform_mismatch_without_end_state :
    SnapMaker.Make (accepting ⟨false, ⟨PlaybackOutcome.kPlatformMismatch, none⟩⟩)
        runner_options int3_snapshot = Result.undefined_behavior ∧
    SnapMaker.Make
        (accepting ⟨false, ⟨PlaybackOutcome.kPlatformMismatch, some wrote_page_end_state⟩⟩)
        runner_options int3_snapshot
      = Result.error (InternalError "Unsupported outcome PlatformMismatch") := by
  constructor <;> rfl

/-- C13: for the runner result "no success, outcome `ExecutionRunaway`, no
actual end state" the method `Make` reads the endpoint of the absent end state,
which is undefined behaviour, where the claim has it fail with an Internal
error that names `TimeBudget`; with an actual end state in the result it
returns that error. -/
theorem Make_runaway_without_end_state :
    SnapMaker.Make (accepting ⟨false, ⟨PlaybackOutcome.kExecutionRunaway, none⟩⟩)
        runner_options int3_snapshot = Result.undefined_behavior ∧
    SnapMaker.Make
        (accepting ⟨false, ⟨PlaybackOutcome.kExecutionRunaway, some wrote_page_end_state⟩⟩)
        runner_options int3_snapshot
      = Result.error (InternalError "TimeBudget isn't Snap-compatible.") := by
  constructor <;> rfl

/-- C14 as stated fails: when the runner reports a memory mismatch at a signal
endpoint, `Make` returns a snapshot whose expected end state has an endpoint
that is not of type Instruction. -/
theorem Make_returns_signal_endpoint :
    ∃ result,
      SnapMaker.Make (accepting ⟨false, ⟨PlaybackOutcome.kMemoryMismatch, some segv_end_state⟩⟩)
        runner_options int3_snapshot = Result.value result ∧
      ∃ es ∈ result.expected_end_states, es.endpoint.type ≠ EndpointType.kInstruction :=
  ⟨_, rfl, EndState.ofEndpoint segv_end_state.endpoint, List.mem_singleton.2 rfl, by decide⟩

/-- C14, amended: every snapshot returned by `Make` has exactly one expected end
state; that end state is undefined (no register state, no memory bytes) and its
endpoint is the endpoint the runner observed, so it is of type Instruction
whenever the observed endpoint is. -/
theorem Make_one_undefined_end_state (env : Env) (opts : SnapMaker.Options)
    (snapshot result : Snapshot)
    (h : SnapMaker.Make env opts snapshot = Result.value result) :
    ∃ copy make_result actual_end_state es,
      SnapMaker.Make_run env opts snapshot = Result.value (copy, make_result) ∧
      make_result.player_result.actual_end_state = some actual_end_state ∧
      result.expected_end_states = [es] ∧
      es.registers = none ∧ es.memory_bytes = [] ∧
      es.endpoint = actual_end_state.endpoint ∧
      (actual_end_state.endpoint.type = EndpointType.kInstruction →
        es.endpoint.type = EndpointType.kInstruction) := by
  obtain ⟨copy, make_result, hrun, hfinish⟩ := Make_value_run h
  obtain ⟨-, -, actual_end_state, hsome, -, hresult⟩ := Make_finish_value hfinish
  refine ⟨copy, make_result, actual_end_state, EndState.ofEndpoint actual_end_state.endpoint,
    hrun, hsome, ?_, rfl, rfl, rfl, fun ht => ht⟩
  rw [hresult]
  rfl

theorem Make_one_undefined_end_state_witness :
    ∃ result copy make_result actual_end_state es,
      SnapMaker.Make
        (accepting ⟨false, ⟨PlaybackOutcome.kRegisterStateMismatch, some wrote_page_end_state⟩⟩)
        runner_options int3_snapshot = Result.value result ∧
      SnapMaker.Make_run
        (accepting ⟨false, ⟨PlaybackOutcome.kRegisterStateMismatch, some wrote_page_end_state⟩⟩)
        runner_options int3_snapshot = Result.value (copy, make_result) ∧
      make_result.player_result.actual_end_state = some actual_end_state ∧
      result.expected_end_states = [es] ∧
      es.registers = none ∧ es.memory_bytes = [] ∧
      es.endpoint = actual_end_state.endpoint ∧
      (actual_end_state.endpoint.type = EndpointType.kInstruction →
        es.endpoint.type = EndpointType.kInstruction) :=
  have h : SnapMaker.Make
      (accepting ⟨false, ⟨PlaybackOutcome.kRegisterStateMismatch, some wrote_page_end_state⟩⟩)
      runner_options int3_snapshot = Result.value int3_snapshot_with_page := by decide!
  let ⟨copy, make_result, actual_end_state, es, p⟩ :=
    Make_one_undefined_end_state _ _ _ _ h
  ⟨_, copy, make_result, actual_end_state, es, h, p⟩

/-- C15: whenever the result of `MakeOne` reports success, `Make` returns the
Internal error whose message holds the id of the snapshot that was run,
whatever the outcome and the actual end state in the result are. -/
theorem Make_success_is_internal_error (env : Env) (opts : SnapMaker.Options)
    (snapshot copy : Snapshot) (make_result : RunResult)
    (hrun : SnapMaker.Make_run env opts snapshot = Result.value (copy, make_result))
    (hsuccess : make_result.success = true) :
    SnapMaker.Make env opts snapshot =
      Result.error (InternalError ("Unlikely: snapshot " ++ copy.id
        ++ " had an undefined end state yet ran successfully")) ∧
    ∀ player_result : PlayerResult,
      SnapMaker.Make_finish env copy ⟨true, player_result⟩ =
        SnapMaker.Make_finish env copy make_result := by
  refine ⟨?_, fun player_result => ?_⟩
  · rw [Make_of_run hrun]
    exact Make_finish_success env copy make_result hsuccess
  · rw [Make_finish_success env copy make_result hsuccess,
      Make_finish_success env copy ⟨true, player_result⟩ rfl]

theorem Make_success_is_internal_error_witness :
    SnapMaker.Make (accepting ⟨true, ⟨PlaybackOutcome.kAsExpected, none⟩⟩) runner_options
        int3_snapshot =
      Result.error (InternalError ("Unlikely: snapshot " ++ int3_snapshot.id
        ++ " had an undefined end state yet ran successfully")) ∧
    ∀ player_result : PlayerResult,
      SnapMaker.Make_finish (accepting ⟨true, ⟨PlaybackOutcome.kAsExpected, none⟩⟩)
          int3_snapshot ⟨true, player_result⟩ =
        SnapMaker.Make_finish (accepting ⟨true, ⟨PlaybackOutcome.kAsExpected, none⟩⟩)
          int3_snapshot ⟨true, ⟨PlaybackOutcome.kAsExpected, none⟩⟩ :=
  Make_success_is_internal_error (accepting ⟨true, ⟨PlaybackOutcome.kAsExpected, none⟩⟩)
    runner_options int3_snapshot int3_snapshot ⟨true, ⟨PlaybackOutcome.kAsExpected, none⟩⟩
    rfl rfl

/-- C20: for a runner result without success and without an actual end state,
whatever its outcome, `Make` reads the endpoint of the absent end state, which
is undefined behaviour and no Internal error; `RecordEndState` returns the
Internal error for the same runner result. -/
theorem Make_reads_absent_actual_end_state (env : Env) (copy : Snapshot)
    (outcome : PlaybackOutcome) :
    SnapMaker.Make_finish env copy ⟨false, ⟨outcome, none⟩⟩ = Result.undefined_behavior ∧
    SnapMaker.RecordEndState_finish env copy ⟨false, ⟨outcome, none⟩⟩ =
      Result.error (InternalError "The runner didn't report actual_end_state") :=
  ⟨rfl, rfl⟩

/-! ## `SnapMaker::RecordEndState` -/

theorem RecordEndState_value_run {env : Env} {opts : SnapMaker.Options}
    {snapshot result : Snapshot}
    (h : SnapMaker.RecordEndState env opts snapshot = Result.value result) :
    ∃ snapified record_result,
      SnapMaker.RecordEndState_run env opts snapshot = Result.value (snapified, record_result) ∧
      SnapMaker.RecordEndState_finish env snapified record_result = Result.value result := by
  unfold SnapMaker.RecordEndState at h
  split at h
  · next snapified record_result hrun => exact ⟨snapified, record_result, hrun, h⟩
  · exact Result.noConfusion h
  · exact Result.noConfusion h
  · exact Result.noConfusion h

theorem RecordEndState_run_snapify {env : Env} {opts : SnapMaker.Options}
    {snapshot snapified : Snapshot} {record_result : RunResult}
    (h : SnapMaker.RecordEndState_run env opts snapshot
      = Result.value (snapified, record_result)) :
    env.Snapify snapshot (SnapifyOptions.V2InputMakeOpts snapshot.architecture_id)
      = Except.ok snapified := by
  unfold SnapMaker.RecordEndState_run at h
  simp only at h
  split at h
  · exact Result.noConfusion h
  · next s hs =>
    split at h
    · exact Result.noConfusion h
    · split at h
      · exact Result.noConfusion h
      · rw [hs, (Prod.mk.inj (Result.value.inj h)).1]

/-- The number of expected end states on the path where the runner reports
success is the one `Snapify` left: `RecordEndState` itself does not change it
there.  With a `Snapify` that returned a snapshot with two expected end states,
both would come back. -/
theorem RecordEndState_keeps_two_end_states :
    ∃ result,
      SnapMaker.RecordEndState (accepting ⟨true, ⟨PlaybackOutcome.kAsExpected, none⟩⟩)
        runner_options two_end_states_snapshot = Result.value result ∧
      result.expected_end_states.length = 2 :=
  ⟨_, rfl, rfl⟩

/-- The two paths of `RecordEndState`.  Every snapshot returned satisfies
`IsComplete()`; on the path where the actual end state is recorded it has
exactly one expected end state, that end state, and on the path where the
runner reports success it is the snapshot that `Snapify` returned. -/
theorem RecordEndState_complete (env : Env) (opts : SnapMaker.Options)
    (snapshot result : Snapshot)
    (h : SnapMaker.RecordEndState env opts snapshot = Result.value result) :
    (env.IsComplete result).ok = true ∧
    ∃ snapified record_result,
      SnapMaker.RecordEndState_run env opts snapshot = Result.value (snapified, record_result) ∧
      env.Snapify snapshot (SnapifyOptions.V2InputMakeOpts snapshot.architecture_id)
        = Except.ok snapified ∧
      ((record_result.success = true ∧ result = snapified) ∨
       (record_result.success = false ∧
        ∃ actual_end_state,
          record_result.player_result.actual_end_state = some actual_end_state ∧
          result.expected_end_states =
            [actual_end_state.set_platforms [env.CurrentPlatformId]])) := by
  obtain ⟨snapified, record_result, hrun, hfinish⟩ := RecordEndState_value_run h
  have hsnap := RecordEndState_run_snapify hrun
  unfold SnapMaker.RecordEndState_finish at hfinish
  split_ifs at hfinish with hs hc
  · have e := Result.value.inj hfinish
    subst e
    exact ⟨by simpa using hc, _, _, hrun, hsnap, Or.inl ⟨hs, rfl⟩⟩
  · have hs' : record_result.success = false := by simpa using hs
    split at hfinish
    · exact Result.noConfusion hfinish
    · next actual_end_state hsome =>
      simp only at hfinish
      split at hfinish
      · exact Result.noConfusion hfinish
      · next negative hneg =>
        split_ifs at hfinish with hcan hc
        have e := Result.value.inj hfinish
        subst e
        exact ⟨by simpa using hc, _, _, hrun, hsnap,
          Or.inr ⟨hs', actual_end_state, hsome, rfl⟩⟩

theorem RecordEndState_complete_witness :
    ∃ result,
      SnapMaker.RecordEndState
        (accepting ⟨false, ⟨PlaybackOutcome.kRegisterStateMismatch, some wrote_page_end_state⟩⟩)
        runner_options int3_snapshot = Result.value result ∧
      ((accepting ⟨false, ⟨PlaybackOutcome.kRegisterStateMismatch,
        some wrote_page_end_state⟩⟩).IsComplete result).ok = true :=
  have h : SnapMaker.RecordEndState
      (accepting ⟨false, ⟨PlaybackOutcome.kRegisterStateMismatch, some wrote_page_end_state⟩⟩)
      runner_options int3_snapshot = Result.value _ := rfl
  ⟨_, h, (RecordEndState_complete _ _ _ _ h).1⟩

theorem MemoryBytesSet.contains_nil (address : Nat) :
    ¬ MemoryBytesSet.Contains [] address := by
  rintro ⟨a, ha, -⟩
  exact absurd ha (List.not_mem_nil a)

theorem MemoryBytesSet.contains_cons (lo hi : Nat) (rest : MemoryBytesSet) (address : Nat) :
    MemoryBytesSet.Contains ((lo, hi) :: rest) address ↔
      (lo ≤ address ∧ address < hi) ∨ MemoryBytesSet.Contains rest address := by
  simp [MemoryBytesSet.Contains]

theorem MemoryBytesSet.contains_insert (start limit : Nat) (s : MemoryBytesSet) (address : Nat) :
    MemoryBytesSet.Contains (MemoryBytesSet.insert start limit s) address ↔
      (start ≤ address ∧ address < limit) ∨ MemoryBytesSet.Contains s address := by
  induction s generalizing start limit with
  | nil =>
    simp [MemoryBytesSet.insert, MemoryBytesSet.Contains]
  | cons x rest ih =>
    obtain ⟨lo, hi⟩ := x
    unfold MemoryBytesSet.insert
    split_ifs with h1 h2
    · rw [MemoryBytesSet.contains_cons, ih, MemoryBytesSet.contains_cons]
      tauto
    · rw [MemoryBytesSet.contains_cons, MemoryBytesSet.contains_cons]
    · rw [ih, MemoryBytesSet.contains_cons]
      constructor
      · rintro (⟨ha, hb⟩ | h)
        · by_cases hc : start ≤ address ∧ address < limit
          · exact Or.inl hc
          · refine Or.inr (Or.inl ?_)
            rw [min_le_iff] at ha
            rw [lt_max_iff] at hb
            omega
        · exact Or.inr (Or.inr h)
      · rintro (⟨ha, hb⟩ | ⟨ha, hb⟩ | h)
        · exact Or.inl ⟨le_trans (Nat.min_le_left _ _) ha,
            lt_of_lt_of_le hb (Nat.le_max_left _ _)⟩
        · exact Or.inl ⟨le_trans (Nat.min_le_right _ _) ha,
            lt_of_lt_of_le hb (Nat.le_max_right _ _)⟩
        · exact Or.inr h

theorem MemoryBytesSet.insert_first_ge (k start limit : Nat) (s : MemoryBytesSet)
    (hk : k ≤ start) (hs : ∀ c ∈ s, k ≤ c.1) :
    ∀ b ∈ MemoryBytesSet.insert start limit s, k ≤ b.1 := by
  induction s generalizing start limit with
  | nil =>
    intro b hb
    simp [MemoryBytesSet.insert] at hb
    subst hb
    exact hk
  | cons x rest ih =>
    obtain ⟨lo, hi⟩ := x
    have hlo : k ≤ lo := hs (lo, hi) (List.mem_cons_self _ _)
    have hrest : ∀ c ∈ rest, k ≤ c.1 := fun c hc => hs c (List.mem_cons_of_mem _ hc)
    unfold MemoryBytesSet.insert
    split_ifs with h1 h2
    · intro b hb
      rcases List.mem_cons.1 hb with rfl | hb
      · exact hlo
      · exact ih start limit hk hrest b hb
    · intro b hb
      rcases List.mem_cons.1 hb with rfl | hb
      · exact hk
      · exact hs b hb
    · exact ih _ _ (Nat.le_min.2 ⟨hk, hlo⟩) hrest

theorem MemoryBytesSet.ascending_nil : MemoryBytesSet.Ascending [] :=
  ⟨List.Pairwise.nil, fun a ha => absurd ha (List.not_mem_nil a)⟩

theorem MemoryBytesSet.ascending_cons (lo hi : Nat) (rest : MemoryBytesSet) :
    MemoryBytesSet.Ascending ((lo, hi) :: rest) ↔
      lo < hi ∧ (∀ c ∈ rest, hi < c.1) ∧ MemoryBytesSet.Ascending rest := by
  simp only [MemoryBytesSet.Ascending, List.pairwise_cons, List.mem_cons, forall_eq_or_imp]
  tauto

theorem MemoryBytesSet.ascending_insert (start limit : Nat) (s : MemoryBytesSet)
    (h : start < limit) (hs : MemoryBytesSet.Ascending s) :
    MemoryBytesSet.Ascending (MemoryBytesSet.insert start limit s) := by
  induction s generalizing start limit with
  | nil =>
    unfold MemoryBytesSet.insert
    rw [MemoryBytesSet.ascending_cons]
    exact ⟨h, fun c hc => absurd hc (List.not_mem_nil c), MemoryBytesSet.ascending_nil⟩
  | cons x rest ih =>
    obtain ⟨lo, hi⟩ := x
    obtain ⟨hlohi, hsep, hrest⟩ := (MemoryBytesSet.ascending_cons lo hi rest).1 hs
    unfold MemoryBytesSet.insert
    split_ifs with h1 h2
    · rw [MemoryBytesSet.ascending_cons]
      refine ⟨hlohi, ?_, ih start limit h hrest⟩
      exact MemoryBytesSet.insert_first_ge (hi + 1) start limit rest h1 hsep
    · rw [MemoryBytesSet.ascending_cons]
      refine ⟨h, ?_, hs⟩
      intro c hc
      rcases List.mem_cons.1 hc with rfl | hc
      · exact h2
      · have := hsep c hc
        omega
    · apply ih _ _ _ hrest
      exact lt_of_le_of_lt (Nat.min_le_left _ _) (lt_of_lt_of_le h (Nat.le_max_left _ _))

theorem MemoryBytesSet.contains_erase (start limit : Nat) (s : MemoryBytesSet) (address : Nat) :
    MemoryBytesSet.Contains (MemoryBytesSet.erase start limit s) address ↔
      MemoryBytesSet.Contains s address ∧ ¬ (start ≤ address ∧ address < limit) := by
  induction s with
  | nil =>
    simp [MemoryBytesSet.erase, MemoryBytesSet.Contains]
  | cons x rest ih =>
    obtain ⟨lo, hi⟩ := x
    have happ : ∀ xs ys : MemoryBytesSet, MemoryBytesSet.Contains (xs ++ ys) address ↔
        MemoryBytesSet.Contains xs address ∨ MemoryBytesSet.Contains ys address := by
      intro xs ys
      simp only [MemoryBytesSet.Contains, List.mem_append]
      constructor
      · rintro ⟨a, ha | ha, h⟩
        · exact Or.inl ⟨a, ha, h⟩
        · exact Or.inr ⟨a, ha, h⟩
      · rintro (⟨a, ha, h⟩ | ⟨a, ha, h⟩)
        · exact ⟨a, Or.inl ha, h⟩
        · exact ⟨a, Or.inr ha, h⟩
    have h1 : MemoryBytesSet.Contains
        (if lo < min hi start then [(lo, min hi start)] else []) address ↔
        lo ≤ address ∧ address < hi ∧ address < start := by
      split_ifs with hc
      · rw [MemoryBytesSet.contains_cons, lt_min_iff]
        simp only [MemoryBytesSet.contains_nil, or_false]
      · rw [lt_min_iff] at hc
        simp only [MemoryBytesSet.contains_nil, false_iff]
        omega
    have h2 : MemoryBytesSet.Contains
        (if max lo limit < hi then [(max lo limit, hi)] else []) address ↔
        lo ≤ address ∧ limit ≤ address ∧ address < hi := by
      split_ifs with hc
      · rw [MemoryBytesSet.contains_cons, max_le_iff]
        simp only [MemoryBytesSet.contains_nil, or_false]
        tauto
      · rw [max_lt_iff] at hc
        simp only [MemoryBytesSet.contains_nil, false_iff]
        omega
    unfold MemoryBytesSet.erase
    rw [happ, happ, h1, h2, ih, MemoryBytesSet.contains_cons]
    constructor
    · rintro (h | h | h)
      · exact ⟨Or.inl ⟨h.1, h.2.1⟩, by omega⟩
      · exact ⟨Or.inl ⟨h.1, h.2.2⟩, by omega⟩
      · exact ⟨Or.inr h.1, h.2⟩
    · rintro ⟨h | h, hn⟩
      · by_cases hc : address < start
        · exact Or.inl ⟨h.1, h.2, hc⟩
        · exact Or.inr (Or.inl ⟨h.1, by omega, h.2⟩)
      · exact Or.inr (Or.inr ⟨h, hn⟩)

theorem MemoryBytesSet.erase_first_ge (k start limit : Nat) (s : MemoryBytesSet)
    (hs : ∀ c ∈ s, k ≤ c.1) :
    ∀ b ∈ MemoryBytesSet.erase start limit s, k ≤ b.1 := by
  induction s with
  | nil =>
    intro b hb
    simp [MemoryBytesSet.erase] at hb
  | cons x rest ih =>
    obtain ⟨lo, hi⟩ := x
    have hlo : k ≤ lo := hs (lo, hi) (List.mem_cons_self _ _)
    have hrest : ∀ c ∈ rest, k ≤ c.1 := fun c hc => hs c (List.mem_cons_of_mem _ hc)
    intro b hb
    unfold MemoryBytesSet.erase at hb
    rcases List.mem_append.1 hb with hb | hb
    · split_ifs at hb
      · rw [List.mem_singleton] at hb
        subst hb
        exact hlo
      · exact absurd hb (List.not_mem_nil b)
    · rcases List.mem_append.1 hb with hb | hb
      · split_ifs at hb
        · rw [List.mem_singleton] at hb
          subst hb
          exact le_trans hlo (Nat.le_max_left _ _)
        · exact absurd hb (List.not_mem_nil b)
      · exact ih hrest b hb

theorem MemoryBytesSet.ascending_erase (start limit : Nat) (s : MemoryBytesSet)
    (h : start < limit) (hs : MemoryBytesSet.Ascending s) :
    MemoryBytesSet.Ascending (MemoryBytesSet.erase start limit s) := by
  induction s with
  | nil => exact MemoryBytesSet.ascending_nil
  | cons x rest ih =>
    obtain ⟨lo, hi⟩ := x
    obtain ⟨hlohi, hsep, hrest⟩ := (MemoryBytesSet.ascending_cons lo hi rest).1 hs
    have htail := ih hrest
    have hge : ∀ b ∈ MemoryBytesSet.erase start limit rest, hi < b.1 :=
      MemoryBytesSet.erase_first_ge (hi + 1) start limit rest hsep
    have hsecond : MemoryBytesSet.Ascending
        ((if max lo limit < hi then [(max lo limit, hi)] else [])
          ++ MemoryBytesSet.erase start limit rest) := by
      split_ifs with hc
      · rw [List.singleton_append, MemoryBytesSet.ascending_cons]
        exact ⟨hc, hge, htail⟩
      · rw [List.nil_append]
        exact htail
    have hge2 : ∀ b ∈ (if max lo limit < hi then [(max lo limit, hi)] else [])
          ++ MemoryBytesSet.erase start limit rest, min hi start < b.1 := by
      intro b hb
      rcases List.mem_append.1 hb with hb | hb
      · split_ifs at hb
        · rw [List.mem_singleton] at hb
          subst hb
          exact lt_of_le_of_lt (Nat.min_le_right _ _)
            (lt_of_lt_of_le h (Nat.le_max_right _ _))
        · exact absurd hb (List.not_mem_nil b)
      · exact lt_of_le_of_lt (Nat.min_le_left _ _) (hge b hb)
    have hdef : MemoryBytesSet.erase start limit ((lo, hi) :: rest) =
        (if lo < min hi start then [(lo, min hi start)] else [])
          ++ ((if max lo limit < hi then [(max lo limit, hi)] else [])
          ++ MemoryBytesSet.erase start limit rest) := rfl
    rw [hdef]
    by_cases hc : lo < min hi start
    · rw [if_pos hc, List.singleton_append, MemoryBytesSet.ascending_cons]
      exact ⟨hc, hge2, hsecond⟩
    · rw [if_neg hc, List.nil_append]
      exact hsecond

theorem MemoryBytesSet.contains_Add (s : MemoryBytesSet) (start limit address : Nat) :
    MemoryBytesSet.Contains (s.Add start limit) address ↔
      (start ≤ address ∧ address < limit) ∨ MemoryBytesSet.Contains s address := by
  unfold MemoryBytesSet.Add
  split_ifs with h
  · exact MemoryBytesSet.contains_insert start limit s address
  · constructor
    · exact Or.inr
    · rintro (h' | h')
      · omega
      · exact h'

theorem MemoryBytesSet.ascending_Add (s : MemoryBytesSet) (start limit : Nat)
    (hs : MemoryBytesSet.Ascending s) : MemoryBytesSet.Ascending (s.Add start limit) := by
  unfold MemoryBytesSet.Add
  split_ifs with h
  · exact MemoryBytesSet.ascending_insert start limit s h hs
  · exact hs

theorem MemoryBytesSet.contains_Remove (s : MemoryBytesSet) (start limit address : Nat) :
    MemoryBytesSet.Contains (s.Remove start limit) address ↔
      MemoryBytesSet.Contains s address ∧ ¬ (start ≤ address ∧ address < limit) := by
  unfold MemoryBytesSet.Remove
  split_ifs with h
  · exact MemoryBytesSet.contains_erase start limit s address
  · constructor
    · intro h'
      exact ⟨h', by omega⟩
    · exact fun h' => h'.1

theorem MemoryBytesSet.ascending_Remove (s : MemoryBytesSet) (start limit : Nat)
    (hs : MemoryBytesSet.Ascending s) : MemoryBytesSet.Ascending (s.Remove start limit) := by
  unfold MemoryBytesSet.Remove
  split_ifs with h
  · exact MemoryBytesSet.ascending_erase start limit s h hs
  · exact hs

/-! ## `SnapMaker::AddWritableMemoryForEndState`: the intervals that are visited -/

theorem foldl_Add_contains (bs : List MemoryBytes) (init : MemoryBytesSet) (address : Nat) :
    MemoryBytesSet.Contains
        (bs.foldl (fun set b => MemoryBytesSet.Add set b.start_address b.limit_address) init)
        address ↔
      MemoryBytesSet.Contains init address ∨
        ∃ b ∈ bs, b.start_address ≤ address ∧ address < b.limit_address := by
  induction bs generalizing init with
  | nil => simp
  | cons b rest ih =>
    rw [List.foldl_cons, ih, MemoryBytesSet.contains_Add]
    simp only [List.mem_cons, exists_eq_or_imp]
    tauto

theorem foldl_Add_ascending (bs : List MemoryBytes) (init : MemoryBytesSet)
    (h : MemoryBytesSet.Ascending init) :
    MemoryBytesSet.Ascending
      (bs.foldl (fun set b => MemoryBytesSet.Add set b.start_address b.limit_address) init) := by
  induction bs generalizing init with
  | nil => exact h
  | cons b rest ih =>
    rw [List.foldl_cons]
    exact ih _ (MemoryBytesSet.ascending_Add init _ _ h)

theorem foldl_Remove_contains (ms : List MemoryMapping) (init : MemoryBytesSet)
    (address : Nat) :
    MemoryBytesSet.Contains
        (ms.foldl (fun set m => MemoryBytesSet.Remove set m.start_address m.limit_address) init)
        address ↔
      MemoryBytesSet.Contains init address ∧
        ¬ ∃ m ∈ ms, m.start_address ≤ address ∧ address < m.limit_address := by
  induction ms generalizing init with
  | nil => simp
  | cons m rest ih =>
    rw [List.foldl_cons, ih, MemoryBytesSet.contains_Remove]
    simp only [List.mem_cons, exists_eq_or_imp]
    constructor
    · rintro ⟨⟨h1, h2⟩, h3⟩
      exact ⟨h1, fun h => h.elim h2 h3⟩
    · rintro ⟨h1, h2⟩
      exact ⟨⟨h1, fun h => h2 (Or.inl h)⟩, fun h => h2 (Or.inr h)⟩

theorem foldl_Remove_ascending (ms : List MemoryMapping) (init : MemoryBytesSet)
    (h : MemoryBytesSet.Ascending init) :
    MemoryBytesSet.Ascending
      (ms.foldl (fun set m => MemoryBytesSet.Remove set m.start_address m.limit_address)
        init) := by
  induction ms generalizing init with
  | nil => exact h
  | cons m rest ih =>
    rw [List.foldl_cons]
    exact ih _ (MemoryBytesSet.ascending_Remove init _ _ h)

/-- The set that is iterated holds the addresses of the memory bytes of the end
state that lie in no mapping of the snapshot. -/
theorem new_memory_contains (snapshot : Snapshot) (end_state : EndState) (address : Nat) :
    MemoryBytesSet.Contains (SnapMaker.new_memory snapshot end_state) address ↔
      (∃ b ∈ end_state.memory_bytes, b.start_address ≤ address ∧ address < b.limit_address) ∧
      ¬ ∃ m ∈ snapshot.memory_mappings,
        m.start_address ≤ address ∧ address < m.limit_address := by
  unfold SnapMaker.new_memory
  simp only
  rw [foldl_Remove_contains, foldl_Add_contains]
  simp [MemoryBytesSet.contains_nil]

theorem new_memory_ascending (snapshot : Snapshot) (end_state : EndState) :
    MemoryBytesSet.Ascending (SnapMaker.new_memory snapshot end_state) := by
  unfold SnapMaker.new_memory
  exact foldl_Remove_ascending _ _ (foldl_Add_ascending _ _ MemoryBytesSet.ascending_nil)

/-! ## `SnapMaker::AddWritableMemoryForEndState`: one interval -/

/-- The three ways a call of `add_mapping` ends: nothing added and an error;
the mapping added and an error; the mapping and its zero bytes added and Ok. -/
theorem add_mapping_cases (env : Env) (s : Snapshot) (a b : Nat) :
    ((SnapMaker.add_mapping env s a b).2 = s ∧ (SnapMaker.add_mapping env s a b).1.ok = false) ∨
    (IsPageAligned env a = true ∧ IsPageAligned env b = true ∧
      env.ReservedMemoryMappings.Overlaps a b = false ∧
      (((SnapMaker.add_mapping env s a b).2 =
            s.add_memory_mapping (MemoryMapping.MakeRanged a b MemoryPerms.RW) ∧
          (SnapMaker.add_mapping env s a b).1.ok = false) ∨
        ((SnapMaker.add_mapping env s a b).2 =
            (s.add_memory_mapping (MemoryMapping.MakeRanged a b MemoryPerms.RW)).add_memory_bytes
              ⟨a, List.replicate (b - a) 0⟩ ∧
          (SnapMaker.add_mapping env s a b).1 = OkStatus))) := by
  unfold SnapMaker.add_mapping
  simp only []
  split_ifs with h1 h2 h3 h4 h5
  · exact Or.inl ⟨rfl, rfl⟩
  · exact Or.inl ⟨rfl, rfl⟩
  · exact Or.inl ⟨rfl, by simpa using h3⟩
  · exact Or.inl ⟨rfl, by simpa using h4⟩
  · refine Or.inr ⟨?_, ?_, ?_, Or.inl ⟨rfl, by simpa using h5⟩⟩
    · by_contra hc; exact h1 (by simp [hc])
    · by_contra hc; exact h1 (by simp [hc])
    · simpa using h2
  · refine Or.inr ⟨?_, ?_, ?_, Or.inr ⟨rfl, rfl⟩⟩
    · by_contra hc; exact h1 (by simp [hc])
    · by_contra hc; exact h1 (by simp [hc])
    · simpa using h2

theorem Iterate_nil {σ : Type} (f : σ → Nat → Nat → σ) (init : σ) :
    MemoryBytesSet.Iterate [] f init = init := rfl

theorem Iterate_cons {σ : Type} (a b : Nat) (rest : MemoryBytesSet) (f : σ → Nat → Nat → σ)
    (init : σ) :
    MemoryBytesSet.Iterate ((a, b) :: rest) f init = MemoryBytesSet.Iterate rest f (f init a b) :=
  rfl

theorem Iterate_append {σ : Type} (xs ys : MemoryBytesSet) (f : σ → Nat → Nat → σ) (init : σ) :
    MemoryBytesSet.Iterate (xs ++ ys) f init =
      MemoryBytesSet.Iterate ys f (MemoryBytesSet.Iterate xs f init) := by
  unfold MemoryBytesSet.Iterate
  rw [List.foldl_append]

/-- Once a status is not ok, it is the status at the end of the iteration. -/
theorem Iterate_visit_not_ok (env : Env) (ivs : MemoryBytesSet) (status : Status) (s : Snapshot)
    (h : status.ok = false) :
    (MemoryBytesSet.Iterate ivs (SnapMaker.visit env) (status, s)).1 = status := by
  induction ivs generalizing s with
  | nil => rfl
  | cons iv rest ih =>
    obtain ⟨a, b⟩ := iv
    rw [Iterate_cons]
    unfold SnapMaker.visit
    simp only
    rw [Status.Update_of_not_ok h]
    exact ih _

/-- The mappings and memory bytes at the end of the iteration: those at its
start, then the ones added, in the order of the intervals. -/
theorem Iterate_visit_shape (env : Env) (ivs : MemoryBytesSet) (status : Status) (s : Snapshot) :
    ∃ (added : List MemoryMapping) (added_bytes : List MemoryBytes),
      (MemoryBytesSet.Iterate ivs (SnapMaker.visit env) (status, s)).2.memory_mappings
        = s.memory_mappings ++ added ∧
      (MemoryBytesSet.Iterate ivs (SnapMaker.visit env) (status, s)).2.memory_bytes
        = s.memory_bytes ++ added_bytes ∧
      List.Sublist (added.map fun m => (m.start_address, m.limit_address)) ivs ∧
      (∀ m ∈ added, m.perms = MemoryPerms.RW ∧ IsPageAligned env m.start_address = true ∧
        IsPageAligned env m.limit_address = true ∧
        env.ReservedMemoryMappings.Overlaps m.start_address m.limit_address = false) ∧
      (∀ z ∈ added_bytes, ∃ m ∈ added,
        z = ⟨m.start_address, List.replicate (m.limit_address - m.start_address) 0⟩) ∧
      ((MemoryBytesSet.Iterate ivs (SnapMaker.visit env) (status, s)).1.ok = true →
        status.ok = true ∧ (added.map fun m => (m.start_address, m.limit_address)) = ivs) := by
  induction ivs generalizing status s with
  | nil =>
    exact ⟨[], [], by simp [Iterate_nil], by simp [Iterate_nil], List.Sublist.slnil,
      fun m hm => absurd hm (List.not_mem_nil m), fun z hz => absurd hz (List.not_mem_nil z),
      fun h => ⟨h, rfl⟩⟩
  | cons iv rest ih =>
    obtain ⟨a, b⟩ := iv
    rw [Iterate_cons]
    have hvisit : SnapMaker.visit env (status, s) a b =
        (status.Update (SnapMaker.add_mapping env s a b).1, (SnapMaker.add_mapping env s a b).2) :=
      rfl
    rw [hvisit]
    obtain ⟨added, added_bytes, hm, hb, hsub, hprop, hbytes, hok⟩ :=
      ih (status.Update (SnapMaker.add_mapping env s a b).1) (SnapMaker.add_mapping env s a b).2
    rcases add_mapping_cases env s a b with ⟨h2, h1⟩ | ⟨ha, hb', hres, ⟨h2, h1⟩ | ⟨h2, h1⟩⟩
    · refine ⟨added, added_bytes, ?_, ?_, List.Sublist.cons _ hsub, hprop, hbytes, ?_⟩
      · rw [hm, h2]
      · rw [hb, h2]
      · intro h
        have := ((Status.Update_ok_iff _ _).1 (hok h).1).2
        rw [h1] at this
        exact absurd this (by decide)
    · refine ⟨MemoryMapping.MakeRanged a b MemoryPerms.RW :: added, added_bytes, ?_, ?_, ?_, ?_,
        ?_, ?_⟩
      · rw [hm, h2]
        simp [Snapshot.add_memory_mapping]
      · rw [hb, h2]
        rfl
      · exact List.Sublist.cons₂ _ hsub
      · intro m hmem
        rcases List.mem_cons.1 hmem with rfl | hmem
        · exact ⟨rfl, ha, hb', hres⟩
        · exact hprop m hmem
      · intro z hz
        obtain ⟨m, hmem, hz⟩ := hbytes z hz
        exact ⟨m, List.mem_cons_of_mem _ hmem, hz⟩
      · intro h
        have := ((Status.Update_ok_iff _ _).1 (hok h).1).2
        rw [h1] at this
        exact absurd this (by decide)
    · refine ⟨MemoryMapping.MakeRanged a b MemoryPerms.RW :: added,
        ⟨a, List.replicate (b - a) 0⟩ :: added_bytes, ?_, ?_, ?_, ?_, ?_, ?_⟩
      · rw [hm, h2]
        simp [Snapshot.add_memory_mapping, Snapshot.add_memory_bytes]
      · rw [hb, h2]
        simp [Snapshot.add_memory_mapping, Snapshot.add_memory_bytes]
      · exact List.Sublist.cons₂ _ hsub
      · intro m hmem
        rcases List.mem_cons.1 hmem with rfl | hmem
        · exact ⟨rfl, ha, hb', hres⟩
        · exact hprop m hmem
      · intro z hz
        rcases List.mem_cons.1 hz with rfl | hz
        · exact ⟨_, List.mem_cons_self _ _, rfl⟩
        · obtain ⟨m, hmem, hz⟩ := hbytes z hz
          exact ⟨m, List.mem_cons_of_mem _ hmem, hz⟩
      · intro h
        obtain ⟨hu, hmap⟩ := hok h
        refine ⟨((Status.Update_ok_iff _ _).1 hu).1, ?_⟩
        rw [List.map_cons, hmap]
        rfl

/-! ## `SnapMaker::AddWritableMemoryForEndState`: the whole iteration -/

/-- The status at the end of the iteration is ok exactly when the status at its
start is and every call of `add_mapping` returns an ok status. -/
theorem Iterate_visit_ok_iff (env : Env) (ivs : MemoryBytesSet) (status : Status)
    (s : Snapshot) :
    (MemoryBytesSet.Iterate ivs (SnapMaker.visit env) (status, s)).1.ok = true ↔
      status.ok = true ∧
      ∀ before a b after, ivs = before ++ (a, b) :: after →
        (SnapMaker.add_mapping env
          (MemoryBytesSet.Iterate before (SnapMaker.visit env) (status, s)).2 a b).1.ok
          = true := by
  induction ivs generalizing status s with
  | nil =>
    rw [Iterate_nil]
    constructor
    · intro h
      refine ⟨h, fun before a b after hsplit => ?_⟩
      exact absurd hsplit.symm (by simp)
    · exact fun h => h.1
  | cons iv rest ih =>
    obtain ⟨a₀, b₀⟩ := iv
    rw [Iterate_cons]
    have hvisit : SnapMaker.visit env (status, s) a₀ b₀ =
        (status.Update (SnapMaker.add_mapping env s a₀ b₀).1,
          (SnapMaker.add_mapping env s a₀ b₀).2) := rfl
    rw [hvisit, ih, Status.Update_ok_iff]
    constructor
    · rintro ⟨⟨hs, hr⟩, hall⟩
      refine ⟨hs, fun before a b after hsplit => ?_⟩
      rcases List.cons_eq_append_iff.1 hsplit with ⟨hb, ha⟩ | ⟨before', hb, hrest⟩
      · subst hb
        obtain ⟨h1, -⟩ := List.cons.inj ha
        obtain ⟨rfl, rfl⟩ := Prod.mk.inj h1
        exact hr
      · subst hb
        rw [Iterate_cons, hvisit]
        exact hall before' a b after hrest
    · rintro ⟨hs, hall⟩
      refine ⟨⟨hs, hall [] a₀ b₀ rest rfl⟩, fun before a b after hsplit => ?_⟩
      have := hall ((a₀, b₀) :: before) a b after (by rw [hsplit]; rfl)
      rw [Iterate_cons, hvisit] at this
      exact this

theorem MemoryMapping.Overlaps_comm (m n : MemoryMapping) : m.Overlaps n ↔ n.Overlaps m := by
  unfold MemoryMapping.Overlaps
  rw [max_comm, min_comm]

/-- C16: when `AddWritableMemoryForEndState` returns Ok, every address of the
memory bytes of the end state lies in some mapping of the snapshot that
results, and every mapping the call added has the permissions RW (not X), a
page-aligned start and limit, and no overlap with `ReservedMemoryMappings()`. -/
theorem AddWritableMemoryForEndState_covers (env : Env) (snapshot : Snapshot)
    (end_state : EndState)
    (hok : (SnapMaker.AddWritableMemoryForEndState env snapshot end_state).1.ok = true) :
    (∀ b ∈ end_state.memory_bytes, ∀ address,
      b.start_address ≤ address → address < b.limit_address →
      ∃ m ∈ (SnapMaker.AddWritableMemoryForEndState env snapshot end_state).2.memory_mappings,
        m.start_address ≤ address ∧ address < m.limit_address) ∧
    ∃ added,
      (SnapMaker.AddWritableMemoryForEndState env snapshot end_state).2.memory_mappings
        = snapshot.memory_mappings ++ added ∧
      ∀ m ∈ added, m.perms = MemoryPerms.RW ∧ m.perms.x = false ∧
        IsPageAligned env m.start_address = true ∧ IsPageAligned env m.limit_address = true ∧
        env.ReservedMemoryMappings.Overlaps m.start_address m.limit_address = false := by
  obtain ⟨added, added_bytes, hm, -, -, hprop, -, hall⟩ :=
    Iterate_visit_shape env (SnapMaker.new_memory snapshot end_state) OkStatus snapshot
  have hmap := (hall hok).2
  refine ⟨fun b hb address h1 h2 => ?_, added, hm, fun m hmem => ?_⟩
  · by_cases hin : ∃ m ∈ snapshot.memory_mappings,
        m.start_address ≤ address ∧ address < m.limit_address
    · obtain ⟨m, hmem, hlo, hhi⟩ := hin
      refine ⟨m, ?_, hlo, hhi⟩
      unfold SnapMaker.AddWritableMemoryForEndState
      rw [hm]
      exact List.mem_append_left _ hmem
    · have hc : MemoryBytesSet.Contains (SnapMaker.new_memory snapshot end_state) address :=
        (new_memory_contains snapshot end_state address).2 ⟨⟨b, hb, h1, h2⟩, hin⟩
      obtain ⟨iv, hiv, hlo, hhi⟩ := hc
      rw [← hmap] at hiv
      obtain ⟨m, hmem, rfl⟩ := List.mem_map.1 hiv
      refine ⟨m, ?_, hlo, hhi⟩
      unfold SnapMaker.AddWritableMemoryForEndState
      rw [hm]
      exact List.mem_append_right _ hmem
  · obtain ⟨hp, ha, hb, hr⟩ := hprop m hmem
    exact ⟨hp, by rw [hp]; rfl, ha, hb, hr⟩

theorem AddWritableMemoryForEndState_covers_witness :
    (SnapMaker.AddWritableMemoryForEndState
        (accepting ⟨false, ⟨PlaybackOutcome.kMemoryMismatch, some wrote_page_end_state⟩⟩)
        int3_snapshot wrote_page_end_state).1.ok = true ∧
    (∀ b ∈ wrote_page_end_state.memory_bytes, ∀ address,
      b.start_address ≤ address → address < b.limit_address →
      ∃ m ∈ (SnapMaker.AddWritableMemoryForEndState
          (accepting ⟨false, ⟨PlaybackOutcome.kMemoryMismatch, some wrote_page_end_state⟩⟩)
          int3_snapshot wrote_page_end_state).2.memory_mappings,
        m.start_address ≤ address ∧ address < m.limit_address) :=
  ⟨by decide!,
    (AddWritableMemoryForEndState_covers
      (accepting ⟨false, ⟨PlaybackOutcome.kMemoryMismatch, some wrote_page_end_state⟩⟩)
      int3_snapshot wrote_page_end_state (by decide!)).1⟩

/-- C17: the iteration of `AddWritableMemoryForEndState` goes through the
intervals in ascending order; every interval is visited, whatever the status
is by then; the status returned is that of the first interval whose
`add_mapping` failed, and it is Ok exactly when none failed; the mapping and
the zero bytes of every interval that succeeded are in the snapshot at the
end, be it before or after a failure. -/
theorem AddWritableMemoryForEndState_first_error (env : Env) (snapshot : Snapshot)
    (end_state : EndState) :
    (SnapMaker.new_memory snapshot end_state).Pairwise (fun a b => a.2 < b.1) ∧
    (∀ before a b after,
      SnapMaker.new_memory snapshot end_state = before ++ (a, b) :: after →
      SnapMaker.AddWritableMemoryForEndState env snapshot end_state =
        MemoryBytesSet.Iterate after (SnapMaker.visit env)
          (SnapMaker.visit env
            (MemoryBytesSet.Iterate before (SnapMaker.visit env) (OkStatus, snapshot)) a b) ∧
      ((∀ before₁ a₁ b₁ after₁, before = before₁ ++ (a₁, b₁) :: after₁ →
          (SnapMaker.add_mapping_after env snapshot before₁ a₁ b₁).1.ok = true) →
        (SnapMaker.add_mapping_after env snapshot before a b).1.ok = false →
        (SnapMaker.AddWritableMemoryForEndState env snapshot end_state).1 =
          (SnapMaker.add_mapping_after env snapshot before a b).1) ∧
      ((SnapMaker.add_mapping_after env snapshot before a b).1.ok = true →
        MemoryMapping.MakeRanged a b MemoryPerms.RW ∈
          (SnapMaker.AddWritableMemoryForEndState env snapshot end_state).2.memory_mappings ∧
        (⟨a, List.replicate (b - a) 0⟩ : MemoryBytes) ∈
          (SnapMaker.AddWritableMemoryForEndState env snapshot end_state).2.memory_bytes)) ∧
    ((SnapMaker.AddWritableMemoryForEndState env snapshot end_state).1.ok = true ↔
      ∀ before a b after,
        SnapMaker.new_memory snapshot end_state = before ++ (a, b) :: after →
        (SnapMaker.add_mapping_after env snapshot before a b).1.ok = true) := by
  refine ⟨(new_memory_ascending snapshot end_state).1, ?_, ?_⟩
  · intro before a b after hsplit
    have hrun : SnapMaker.AddWritableMemoryForEndState env snapshot end_state =
        MemoryBytesSet.Iterate after (SnapMaker.visit env)
          (SnapMaker.visit env
            (MemoryBytesSet.Iterate before (SnapMaker.visit env) (OkStatus, snapshot)) a b) := by
      unfold SnapMaker.AddWritableMemoryForEndState
      rw [hsplit, Iterate_append, Iterate_cons]
    have hvisit : SnapMaker.visit env
          (MemoryBytesSet.Iterate before (SnapMaker.visit env) (OkStatus, snapshot)) a b =
        ((MemoryBytesSet.Iterate before (SnapMaker.visit env) (OkStatus, snapshot)).1.Update
            (SnapMaker.add_mapping_after env snapshot before a b).1,
          (SnapMaker.add_mapping_after env snapshot before a b).2) := rfl
    refine ⟨hrun, fun hbefore hfail => ?_, fun hgood => ?_⟩
    · have hb : (MemoryBytesSet.Iterate before (SnapMaker.visit env)
          (OkStatus, snapshot)).1.ok = true :=
        (Iterate_visit_ok_iff env before OkStatus snapshot).2 ⟨rfl, hbefore⟩
      rw [hrun, hvisit, Status.Update_of_ok hb]
      exact Iterate_visit_not_ok env after _ _ hfail
    · obtain ⟨added, added_bytes, hm, hbytes, -⟩ :=
        Iterate_visit_shape env after
          ((MemoryBytesSet.Iterate before (SnapMaker.visit env) (OkStatus, snapshot)).1.Update
            (SnapMaker.add_mapping_after env snapshot before a b).1)
          (SnapMaker.add_mapping_after env snapshot before a b).2
      rw [hrun, hvisit, hm, hbytes]
      have hcases := add_mapping_cases env
        (MemoryBytesSet.Iterate before (SnapMaker.visit env) (OkStatus, snapshot)).2 a b
      have hgood' : (SnapMaker.add_mapping env
          (MemoryBytesSet.Iterate before (SnapMaker.visit env) (OkStatus, snapshot)).2 a b).1.ok
          = true := hgood
      have hdef : SnapMaker.add_mapping_after env snapshot before a b =
          SnapMaker.add_mapping env
            (MemoryBytesSet.Iterate before (SnapMaker.visit env) (OkStatus, snapshot)).2 a b :=
        rfl
      rw [hdef]
      rcases hcases with ⟨-, h1⟩ | ⟨-, -, -, ⟨-, h1⟩ | ⟨h2, -⟩⟩
      · rw [hgood'] at h1
        exact absurd h1 (by decide)
      · rw [hgood'] at h1
        exact absurd h1 (by decide)
      · rw [h2]
        constructor
        · apply List.mem_append_left
          simp [Snapshot.add_memory_mapping, Snapshot.add_memory_bytes]
        · apply List.mem_append_left
          simp [Snapshot.add_memory_mapping, Snapshot.add_memory_bytes]
  · unfold SnapMaker.AddWritableMemoryForEndState
    rw [Iterate_visit_ok_iff]
    constructor
    · exact fun h => h.2
    · exact fun h => ⟨rfl, h⟩

theorem AddWritableMemoryForEndState_first_error_witness :
    (SnapMaker.AddWritableMemoryForEndState
        (accepting ⟨false, ⟨PlaybackOutcome.kMemoryMismatch, none⟩⟩)
        int3_snapshot wrote_byte_and_page_end_state).1 =
      InternalError "New memory bytes not page-aligned: [20001, 20002)" ∧
    MemoryMapping.MakeRanged 0x30000 0x31000 MemoryPerms.RW ∈
      (SnapMaker.AddWritableMemoryForEndState
        (accepting ⟨false, ⟨PlaybackOutcome.kMemoryMismatch, none⟩⟩)
        int3_snapshot wrote_byte_and_page_end_state).2.memory_mappings :=
  ⟨((((AddWritableMemoryForEndState_first_error
        (accepting ⟨false, ⟨PlaybackOutcome.kMemoryMismatch, none⟩⟩)
        int3_snapshot wrote_byte_and_page_end_state).2.1
      [] 0x20001 0x20002 [(0x30000, 0x31000)] (by decide!)).2.1
      (fun before₁ a₁ b₁ after₁ h => absurd h (by simp)) (by decide!)).trans (by decide!)),
    ((((AddWritableMemoryForEndState_first_error
        (accepting ⟨false, ⟨PlaybackOutcome.kMemoryMismatch, none⟩⟩)
        int3_snapshot wrote_byte_and_page_end_state).2.1
      [(0x20001, 0x20002)] 0x30000 0x31000 [] (by decide!)).2.2 (by decide!)).1)⟩

/-- C18: the method `AddWritableMemoryForEndState` preserves (P1) and (P2): when
the mappings of the snapshot are pairwise disjoint and page-aligned and every
region of its memory bytes lies inside a mapping, the same holds afterwards;
each mapping added is disjoint from every mapping there was and from every
other mapping added, and each memory-bytes region added is zero-filled and
covers exactly the mapping added with it. -/
theorem AddWritableMemoryForEndState_preserves_invariants (env : Env) (snapshot : Snapshot)
    (end_state : EndState) (hP1 : snapshot.P1 env) (hP2 : snapshot.P2) :
    (SnapMaker.AddWritableMemoryForEndState env snapshot end_state).2.P1 env ∧
    (SnapMaker.AddWritableMemoryForEndState env snapshot end_state).2.P2 ∧
    ∃ (added : List MemoryMapping) (added_bytes : List MemoryBytes),
      (SnapMaker.AddWritableMemoryForEndState env snapshot end_state).2.memory_mappings
        = snapshot.memory_mappings ++ added ∧
      (SnapMaker.AddWritableMemoryForEndState env snapshot end_state).2.memory_bytes
        = snapshot.memory_bytes ++ added_bytes ∧
      (∀ m ∈ added, ∀ n ∈ snapshot.memory_mappings, ¬ m.Overlaps n) ∧
      added.Pairwise (fun m n => ¬ m.Overlaps n) ∧
      (∀ z ∈ added_bytes, (∀ v ∈ z.byte_values, v = 0) ∧
        ∃ m ∈ added, z.start_address = m.start_address ∧
          z.limit_address = m.limit_address) := by
  obtain ⟨added, added_bytes, hm, hb, hsub, hprop, hbytes, -⟩ :=
    Iterate_visit_shape env (SnapMaker.new_memory snapshot end_state) OkStatus snapshot
  obtain ⟨hpair, hnonempty⟩ := new_memory_ascending snapshot end_state
  have hiv : ∀ m ∈ added,
      (m.start_address, m.limit_address) ∈ SnapMaker.new_memory snapshot end_state :=
    fun m hmem => hsub.subset (List.mem_map.2 ⟨m, hmem, rfl⟩)
  have hlt : ∀ m ∈ added, m.start_address < m.limit_address :=
    fun m hmem => hnonempty _ (hiv m hmem)
  have hold : ∀ m ∈ added, ∀ n ∈ snapshot.memory_mappings, ¬ m.Overlaps n := by
    intro m hmem n hn hov
    unfold MemoryMapping.Overlaps at hov
    rw [max_lt_iff, lt_min_iff, lt_min_iff] at hov
    have hc : MemoryBytesSet.Contains (SnapMaker.new_memory snapshot end_state)
        (max m.start_address n.start_address) :=
      ⟨_, hiv m hmem, le_max_left _ _, max_lt hov.1.1 hov.2.1⟩
    exact ((new_memory_contains snapshot end_state _).1 hc).2
      ⟨n, hn, le_max_right _ _, max_lt hov.1.2 hov.2.2⟩
  have hnew : added.Pairwise (fun m n => ¬ m.Overlaps n) := by
    have h1 := hpair.sublist hsub
    rw [List.pairwise_map] at h1
    refine h1.imp ?_
    intro m n hmn hov
    unfold MemoryMapping.Overlaps at hov
    rw [max_lt_iff, lt_min_iff, lt_min_iff] at hov
    simp only at hmn
    omega
  have hzero : ∀ z ∈ added_bytes, (∀ v ∈ z.byte_values, v = 0) ∧
      ∃ m ∈ added, z.start_address = m.start_address ∧
        z.limit_address = m.limit_address := by
    intro z hz
    obtain ⟨m, hmem, rfl⟩ := hbytes z hz
    refine ⟨fun v hv => List.eq_of_mem_replicate hv, m, hmem, rfl, ?_⟩
    have := hlt m hmem
    simp only [MemoryBytes.limit_address, List.length_replicate]
    omega
  refine ⟨⟨?_, ?_⟩, ?_, added, added_bytes, hm, hb, hold, hnew, hzero⟩
  · unfold SnapMaker.AddWritableMemoryForEndState
    rw [hm, List.pairwise_append]
    refine ⟨hP1.1, hnew, fun n hn m hmem hov => ?_⟩
    exact hold m hmem n hn ((MemoryMapping.Overlaps_comm n m).1 hov)
  · intro m hmem
    unfold SnapMaker.AddWritableMemoryForEndState at hmem
    rw [hm] at hmem
    rcases List.mem_append.1 hmem with h | h
    · exact hP1.2 m h
    · exact ⟨(hprop m h).2.1, (hprop m h).2.2.1⟩
  · intro z hz
    unfold SnapMaker.AddWritableMemoryForEndState at hz ⊢
    rw [hb] at hz
    rw [hm]
    rcases List.mem_append.1 hz with h | h
    · obtain ⟨m, hmem, hle⟩ := hP2 z h
      exact ⟨m, List.mem_append_left _ hmem, hle⟩
    · obtain ⟨-, m, hmem, h1, h2⟩ := hzero z h
      exact ⟨m, List.mem_append_right _ hmem, by omega, by omega⟩

theorem AddWritableMemoryForEndState_preserves_invariants_witness :
    int3_snapshot.P1 (accepting ⟨false, ⟨PlaybackOutcome.kMemoryMismatch, none⟩⟩) ∧
    int3_snapshot.P2 ∧
    (SnapMaker.AddWritableMemoryForEndState
      (accepting ⟨false, ⟨PlaybackOutcome.kMemoryMismatch, none⟩⟩)
      int3_snapshot wrote_page_end_state).2.P1
        (accepting ⟨false, ⟨PlaybackOutcome.kMemoryMismatch, none⟩⟩) ∧
    (SnapMaker.AddWritableMemoryForEndState
      (accepting ⟨false, ⟨PlaybackOutcome.kMemoryMismatch, none⟩⟩)
      int3_snapshot wrote_page_end_state).2.P2 :=
  ⟨by decide, by decide,
    (AddWritableMemoryForEndState_preserves_invariants
      (accepting ⟨false, ⟨PlaybackOutcome.kMemoryMismatch, none⟩⟩)
      int3_snapshot wrote_page_end_state (by decide) (by decide)).1,
    (AddWritableMemoryForEndState_preserves_invariants
      (accepting ⟨false, ⟨PlaybackOutcome.kMemoryMismatch, none⟩⟩)
      int3_snapshot wrote_page_end_state (by decide) (by decide)).2.1⟩

/-! ## `SnapMaker::VerifyPlaysDeterministically` -/

/-- The method `VerifyPlaysDeterministically` returns Ok exactly when `Snapify`
with the run options succeeds, the driver is built and `VerifyOneRepeatedly`,
called with `num_verify_attempts`, returns a result with `success()`. -/
theorem VerifyPlaysDeterministically_ok_iff (env : Env) (opts : SnapMaker.Options)
    (snapshot : Snapshot) :
    SnapMaker.VerifyPlaysDeterministically env opts snapshot = Result.value () ↔
      ∃ snapified driver verify_result,
        env.Snapify snapshot (SnapifyOptions.V2InputRunOpts snapshot.architecture_id)
          = Except.ok snapified ∧
        env.RunnerDriverFromSnapshot snapified opts.runner_path = Except.ok driver ∧
        env.VerifyOneRepeatedly driver snapified.id opts.num_verify_attempts
          = Except.ok verify_result ∧
        verify_result.success = true := by
  unfold SnapMaker.VerifyPlaysDeterministically
  simp only []
  constructor
  · intro h
    split at h
    · exact Result.noConfusion h
    · next snapified hs =>
      split at h
      · exact Result.noConfusion h
      · next driver hd =>
        split at h
        · exact Result.noConfusion h
        · next verify_result hv =>
          refine ⟨snapified, driver, verify_result, hs, hd, hv, ?_⟩
          cases hf : verify_result.success with
          | true => rfl
          | false =>
            rw [hf] at h
            simp only [Bool.not_false, if_true] at h
            split_ifs at h
            split at h <;> exact Result.noConfusion h
  · rintro ⟨snapified, driver, verify_result, hs, hd, hv, hok⟩
    simp [hs, hd, hv, hok]

/-- C21: with the verbose log on, for a result of `VerifyOneRepeatedly` without
success and without an actual end state, `VerifyPlaysDeterministically` reads
the absent end state to print it, which is undefined behaviour, where the claim
has it return the Internal error "Verify() failed, non-deterministic
snapshot?"; with the verbose log off it returns that error. -/
theorem VerifyPlaysDeterministically_verbose_without_end_state :
    SnapMaker.VerifyPlaysDeterministically (verbose (accepting failed_run_without_end_state))
        runner_options int3_snapshot = Result.undefined_behavior ∧
    SnapMaker.VerifyPlaysDeterministically (accepting failed_run_without_end_state)
        runner_options int3_snapshot =
      Result.error (InternalError "Verify() failed, non-deterministic snapshot?") :=
  ⟨rfl, rfl⟩

/-! ## `SnapMaker::CheckTrace` -/

/-- C22: whenever `CheckTrace` succeeds, the snapshot it returns is the input
snapshot in every field but `trace_data`: compiled without tracing (not for
x86_64) it is the input itself, and compiled with tracing its `trace_data` is
one `TraceData` with the `instructions_executed` of the tracer, the lines of
its disassembly joined with a newline, and the one platform
`CurrentPlatformId()`. -/
theorem CheckTrace_frame (env : Env) (opts : SnapMaker.Options) (snapshot : Snapshot)
    (trace_options : TraceOptions) (result : Snapshot)
    (h : SnapMaker.CheckTrace env opts snapshot trace_options = Result.value result) :
    (env.x86_64 = false → result = snapshot) ∧
    (env.x86_64 = true →
      ∃ driver run_result trace_result,
        env.RunnerDriverFromSnapshot snapshot opts.runner_path = Except.ok driver ∧
        env.TraceOne driver snapshot.id snapshot trace_options
          = (Except.ok run_result, trace_result) ∧
        run_result.success = true ∧
        result = { snapshot with
          trace_data := [⟨trace_result.instructions_executed,
            String.intercalate "\n" trace_result.disassembly, [env.CurrentPlatformId]⟩] }) := by
  unfold SnapMaker.CheckTrace at h
  simp only [] at h
  split_ifs at h with hx
  · refine ⟨fun hc => absurd hx (by simp [hc]), fun _ => ?_⟩
    split at h
    · exact Result.noConfusion h
    · next driver hd =>
      split at h
      · exact Result.noConfusion h
      · next run_result hr =>
        split_ifs at h with hs
        refine ⟨driver, run_result, (env.TraceOne driver snapshot.id snapshot trace_options).2,
          hd, ?_, by simpa using hs, (Result.value.inj h).symm⟩
        rw [← hr]
  · exact ⟨fun _ => (Result.value.inj h).symm, fun hc => absurd hc hx⟩

theorem CheckTrace_frame_witness :
    SnapMaker.CheckTrace (accepting successful_run) runner_options int3_snapshot ⟨1000⟩ =
      Result.value { int3_snapshot with trace_data := [⟨1, "int3", [1]⟩] } ∧
    SnapMaker.CheckTrace (aarch64 (accepting successful_run)) runner_options int3_snapshot
      ⟨1000⟩ = Result.value int3_snapshot :=
  have h : SnapMaker.CheckTrace (accepting successful_run) runner_options int3_snapshot ⟨1000⟩ =
      Result.value { int3_snapshot with trace_data := [⟨1, "int3", [1]⟩] } := by decide
  have h' : SnapMaker.CheckTrace (aarch64 (accepting successful_run)) runner_options
      int3_snapshot ⟨1000⟩ = Result.value int3_snapshot := by decide
  have e := (CheckTrace_frame (aarch64 (accepting successful_run)) runner_options int3_snapshot
    ⟨1000⟩ int3_snapshot h').1 rfl
  ⟨h, e ▸ h'⟩

/-! ## `SnapMaker::RecordEndState`: the run without success -/

/-- C24: when the result of `MakeOne` in `RecordEndState` is not successful,
then, if it has no actual end state, `RecordEndState` returns the Internal
error "The runner didn't report actual_end_state", and otherwise the expected
end states of a snapshot it returns are the one-element list of the actual end
state of the runner with its platforms replaced by `CurrentPlatformId()`. -/
theorem RecordEndState_unsuccessful (env : Env) (opts : SnapMaker.Options)
    (snapshot snapified : Snapshot) (record_result : RunResult)
    (hrun : SnapMaker.RecordEndState_run env opts snapshot
      = Result.value (snapified, record_result))
    (hsuccess : record_result.success = false) :
    (record_result.player_result.actual_end_state = none →
      SnapMaker.RecordEndState env opts snapshot =
        Result.error (InternalError "The runner didn't report actual_end_state")) ∧
    (∀ actual_end_state result,
      record_result.player_result.actual_end_state = some actual_end_state →
      SnapMaker.RecordEndState env opts snapshot = Result.value result →
      result.expected_end_states =
        [{ actual_end_state with platforms := [env.CurrentPlatformId] }]) := by
  have hdef : SnapMaker.RecordEndState env opts snapshot =
      SnapMaker.RecordEndState_finish env snapified record_result := by
    simp [SnapMaker.RecordEndState, hrun]
  rw [hdef]
  refine ⟨fun hnone => ?_, fun actual_end_state result hsome h => ?_⟩
  · simp [SnapMaker.RecordEndState_finish, hsuccess, hnone]
  · unfold SnapMaker.RecordEndState_finish at h
    rw [if_neg (by simp [hsuccess])] at h
    simp only [hsome] at h
    split at h
    · exact Result.noConfusion h
    · split_ifs at h
      rw [← Result.value.inj h]
      rfl

theorem RecordEndState_unsuccessful_witness :
    SnapMaker.RecordEndState (accepting failed_run_without_end_state) runner_options
        int3_snapshot =
      Result.error (InternalError "The runner didn't report actual_end_state") ∧
    ∃ result,
      SnapMaker.RecordEndState
        (accepting ⟨false, ⟨PlaybackOutcome.kRegisterStateMismatch, some wrote_page_end_state⟩⟩)
        runner_options int3_snapshot = Result.value result ∧
      result.expected_end_states = [{ wrote_page_end_state with platforms := [1] }] :=
  ⟨(RecordEndState_unsuccessful (accepting failed_run_without_end_state) runner_options
      int3_snapshot int3_snapshot failed_run_without_end_state rfl rfl).1 rfl,
    _, rfl,
    (RecordEndState_unsuccessful
      (accepting ⟨false, ⟨PlaybackOutcome.kRegisterStateMismatch, some wrote_page_end_state⟩⟩)
      runner_options int3_snapshot int3_snapshot _ rfl rfl).2 wrote_page_end_state _ rfl rfl⟩

/-! ## `SnapMaker::AddWritableMemoryForEndState`: what is left as it was -/

theorem MemoryBytesSet.eq_nil_of_ascending (s : MemoryBytesSet)
    (hs : MemoryBytesSet.Ascending s) (h : ∀ address, ¬ MemoryBytesSet.Contains s address) :
    s = [] := by
  cases s with
  | nil => rfl
  | cons x rest =>
    obtain ⟨lo, hi⟩ := x
    have hlt := ((MemoryBytesSet.ascending_cons lo hi rest).1 hs).1
    exact absurd ((MemoryBytesSet.contains_cons lo hi rest lo).2 (Or.inl ⟨le_refl lo, hlt⟩))
      (h lo)

/-- The snapshot at the end of the iteration is the one at its start with
mappings and memory bytes appended. -/
theorem Iterate_visit_frame (env : Env) (ivs : MemoryBytesSet) (status : Status) (s : Snapshot) :
    ∃ (added : List MemoryMapping) (added_bytes : List MemoryBytes),
      (MemoryBytesSet.Iterate ivs (SnapMaker.visit env) (status, s)).2 =
        { s with
          memory_mappings := s.memory_mappings ++ added
          memory_bytes := s.memory_bytes ++ added_bytes } := by
  induction ivs generalizing status s with
  | nil => exact ⟨[], [], by simp [Iterate_nil]⟩
  | cons iv rest ih =>
    obtain ⟨a, b⟩ := iv
    rw [Iterate_cons]
    have hvisit : SnapMaker.visit env (status, s) a b =
        (status.Update (SnapMaker.add_mapping env s a b).1, (SnapMaker.add_mapping env s a b).2) :=
      rfl
    rw [hvisit]
    obtain ⟨added, added_bytes, hfinal⟩ :=
      ih (status.Update (SnapMaker.add_mapping env s a b).1) (SnapMaker.add_mapping env s a b).2
    rw [hfinal]
    rcases add_mapping_cases env s a b with ⟨h2, -⟩ | ⟨-, -, -, ⟨h2, -⟩ | ⟨h2, -⟩⟩
    · exact ⟨added, added_bytes, by rw [h2]⟩
    · refine ⟨MemoryMapping.MakeRanged a b MemoryPerms.RW :: added, added_bytes, ?_⟩
      rw [h2]
      simp [Snapshot.add_memory_mapping]
    · refine ⟨MemoryMapping.MakeRanged a b MemoryPerms.RW :: added,
        ⟨a, List.replicate (b - a) 0⟩ :: added_bytes, ?_⟩
      rw [h2]
      simp [Snapshot.add_memory_mapping, Snapshot.add_memory_bytes]

/-- C27: the method `AddWritableMemoryForEndState` only appends: the snapshot
afterwards is the snapshot before with mappings appended to its memory
mappings and regions appended to its memory bytes; and when every address of
the memory bytes of the end state lies in a mapping of the snapshot, as it
does when the end state has no memory bytes, the call returns Ok and the
snapshot is left as it was. -/
theorem AddWritableMemoryForEndState_only_appends (env : Env) (snapshot : Snapshot)
    (end_state : EndState) :
    (∃ (added : List MemoryMapping) (added_bytes : List MemoryBytes),
      (SnapMaker.AddWritableMemoryForEndState env snapshot end_state).2 =
        { snapshot with
          memory_mappings := snapshot.memory_mappings ++ added
          memory_bytes := snapshot.memory_bytes ++ added_bytes }) ∧
    ((∀ b ∈ end_state.memory_bytes, ∀ address,
        b.start_address ≤ address → address < b.limit_address →
        ∃ m ∈ snapshot.memory_mappings,
          m.start_address ≤ address ∧ address < m.limit_address) →
      SnapMaker.AddWritableMemoryForEndState env snapshot end_state = (OkStatus, snapshot)) ∧
    (end_state.memory_bytes = [] →
      SnapMaker.AddWritableMemoryForEndState env snapshot end_state = (OkStatus, snapshot)) := by
  have hcovered : (∀ b ∈ end_state.memory_bytes, ∀ address,
        b.start_address ≤ address → address < b.limit_address →
        ∃ m ∈ snapshot.memory_mappings,
          m.start_address ≤ address ∧ address < m.limit_address) →
      SnapMaker.AddWritableMemoryForEndState env snapshot end_state = (OkStatus, snapshot) := by
    intro hall
    have hnil : SnapMaker.new_memory snapshot end_state = [] := by
      apply MemoryBytesSet.eq_nil_of_ascending _ (new_memory_ascending snapshot end_state)
      intro address hc
      obtain ⟨⟨b, hb, h1, h2⟩, hnot⟩ := (new_memory_contains snapshot end_state address).1 hc
      exact hnot (hall b hb address h1 h2)
    unfold SnapMaker.AddWritableMemoryForEndState
    rw [hnil, Iterate_nil]
  refine ⟨Iterate_visit_frame env _ OkStatus snapshot, hcovered, fun hempty => ?_⟩
  apply hcovered
  intro b hb
  rw [hempty] at hb
  exact absurd hb (List.not_mem_nil b)

theorem AddWritableMemoryForEndState_only_appends_witness :
    (∀ b ∈ touched_code_end_state.memory_bytes, ∀ address,
      b.start_address ≤ address → address < b.limit_address →
      ∃ m ∈ int3_snapshot.memory_mappings,
        m.start_address ≤ address ∧ address < m.limit_address) ∧
    SnapMaker.AddWritableMemoryForEndState (accepting successful_run) int3_snapshot
      touched_code_end_state = (OkStatus, int3_snapshot) :=
  have h : ∀ b ∈ touched_code_end_state.memory_bytes, ∀ address,
      b.start_address ≤ address → address < b.limit_address →
      ∃ m ∈ int3_snapshot.memory_mappings,
        m.start_address ≤ address ∧ address < m.limit_address := by
    intro b hb address h1 h2
    have hb' : b = ⟨0x10000, [0xCC, 0x90]⟩ := by
      simpa [touched_code_end_state] using hb
    subst hb'
    refine ⟨⟨0x10000, 0x11000, ⟨true, false, true⟩⟩, by simp [int3_snapshot], h1, ?_⟩
    have h3 : address < 0x10000 + 2 := h2
    show address < 0x11000
    omega
  ⟨h, (AddWritableMemoryForEndState_only_appends (accepting successful_run) int3_snapshot
    touched_code_end_state).2.1 h⟩

/-! ## Snapshot ids -/

theorem hex_digit_mem (x : Nat) (h : x < 16) : hex_digit x ∈ "0123456789abcdef".toList := by
  interval_cases x <;> decide

theorem hex32_length (x : Nat) : (hex32 x).length = 8 := rfl

theorem hex32_mem (x : Nat) : ∀ c ∈ hex32 x, c ∈ "0123456789abcdef".toList := by
  intro c hc
  simp only [hex32, List.mem_cons, List.mem_singleton, List.not_mem_nil, or_false] at hc
  rcases hc with rfl | rfl | rfl | rfl | rfl | rfl | rfl | rfl <;>
    exact hex_digit_mem _ (Nat.mod_lt _ (by decide))

/-- The SHA-1 of the 56 bytes of the two-block message of FIPS 180. -/
theorem SHA1_two_blocks :
    InstructionsToSnapshotId (ascii "abcdbcdecdefdefgefghfghighijhijkijkljklmklmnlmnomnopnopq")
      = "84983e441c3bd26ebaae4aa1f95129e5e54670f1" := by decide!

/-- The SHA-1 of the message "abc" of FIPS 180 and of the empty message. -/
theorem SHA1_abc :
    InstructionsToSnapshotId (ascii "abc") = "a9993e364706816aba3e25717850c26c9cd0d89d" ∧
    InstructionsToSnapshotId [] = "da39a3ee5e6b4b0d3255bfef95601890afd80709" := by decide!

/-- C23: the function `InstructionsToSnapshotId` returns, for every sequence of
bytes, a string of 40 lowercase hexadecimal digits, the five words of the
SHA-1 of the bytes; for the bytes of "Silifuzz" it returns
"679016f223a6925ba69f055f513ea8aa0e0720ed". -/
theorem InstructionsToSnapshotId_sha1 (code : List Nat) :
    (InstructionsToSnapshotId code).length = 40 ∧
    (∀ c ∈ (InstructionsToSnapshotId code).toList, c ∈ "0123456789abcdef".toList) ∧
    InstructionsToSnapshotId code =
      String.mk (hex32 (SHA1 code).a ++ hex32 (SHA1 code).b ++ hex32 (SHA1 code).c
        ++ hex32 (SHA1 code).d ++ hex32 (SHA1 code).e) ∧
    InstructionsToSnapshotId (ascii "Silifuzz") = "679016f223a6925ba69f055f513ea8aa0e0720ed" := by
  refine ⟨?_, ?_, rfl, by decide!⟩
  · simp [InstructionsToSnapshotId, String.length, hex32_length]
  · intro c hc
    simp only [InstructionsToSnapshotId, String.toList, List.mem_append] at hc
    rcases hc with (((hc | hc) | hc) | hc) | hc <;> exact hex32_mem _ c hc

/-! ## `AdjustPointer`: all or nothing, and the wrap of `offset + start` -/

theorem u64_wrapped_lt_start {o start : Nat} (ho : o < 18446744073709551616)
    (hwrap : 18446744073709551616 ≤ o + start) : u64 (o + start) < start := by
  unfold u64
  omega

theorem ValidateRelocatedAddress_cases (start limit : Nat) (T : CType) (a : Nat) :
    ValidateRelocatedAddress start limit T a = Error.kOk ∨
    ValidateRelocatedAddress start limit T a = Error.kOutOfBound ∨
    ValidateRelocatedAddress start limit T a = Error.kAlignment := by
  unfold ValidateRelocatedAddress
  split_ifs
  · exact Or.inr (Or.inl rfl)
  · exact Or.inr (Or.inr rfl)
  · exact Or.inl rfl

/-- C25: the function `AdjustPointer` does all or nothing.  It returns `kOk`,
`kOutOfBound` or `kAlignment`; when it returns `kOk` the pointer stored is the
offset that was there plus `start`, as a sum of integers, and this address
passed `ValidateRelocatedAddress<T>`; when it returns `kOutOfBound` or
`kAlignment` the memory, and with it the pointer, is as it was. -/
theorem AdjustPointer_atomic (start limit : Nat) (T : CType) (ptr : Nat) (s : State) :
    ((AdjustPointer start limit T ptr s).1 = Error.kOk →
      read64 (AdjustPointer start limit T ptr s).2.mem ptr = read64 s.mem ptr + start ∧
      ValidateRelocatedAddress start limit T (read64 s.mem ptr + start) = Error.kOk) ∧
    ((AdjustPointer start limit T ptr s).1 = Error.kOutOfBound ∨
        (AdjustPointer start limit T ptr s).1 = Error.kAlignment →
      (AdjustPointer start limit T ptr s).2.mem = s.mem ∧
      read64 (AdjustPointer start limit T ptr s).2.mem ptr = read64 s.mem ptr) ∧
    ((AdjustPointer start limit T ptr s).1 = Error.kOk ∨
      (AdjustPointer start limit T ptr s).1 = Error.kOutOfBound ∨
      (AdjustPointer start limit T ptr s).1 = Error.kAlignment) := by
  rw [AdjustPointer_eq]
  split_ifs with hv
  · have hge : start ≤ u64 (read64 s.mem ptr + start) := ((Validate_kOk_iff _ _ _ _).1 hv).1
    have hsum : u64 (read64 s.mem ptr + start) = read64 s.mem ptr + start := by
      by_contra hne
      have hwrap : 18446744073709551616 ≤ read64 s.mem ptr + start := by
        by_contra hlt
        exact hne (u64_of_lt (by omega))
      have := u64_wrapped_lt_start (read64_lt s.mem ptr) hwrap
      omega
    refine ⟨fun _ => ⟨?_, ?_⟩, fun h => ?_, Or.inl rfl⟩
    · show read64 (write64 s.mem ptr (u64 (read64 s.mem ptr + start))) ptr = _
      rw [read64_write64_same _ _ (u64_lt _), hsum]
    · rw [← hsum]
      exact hv
    · rcases h with h | h <;> exact absurd h (by simp)
  · refine ⟨fun h => absurd h hv, fun _ => ⟨rfl, rfl⟩, ?_⟩
    exact ValidateRelocatedAddress_cases _ _ _ _

theorem AdjustPointer_atomic_witness :
    (AdjustPointer 4096 8192 CType.pointer 4136 (image 4096 [(40, 4088)])).1 = Error.kOk ∧
    read64 (AdjustPointer 4096 8192 CType.pointer 4136 (image 4096 [(40, 4088)])).2.mem 4136
      = read64 (image 4096 [(40, 4088)]).mem 4136 + 4096 ∧
    (AdjustPointer 4096 8192 CType.pointer 4136 (image 4096 [(40, 4089)])).1
      = Error.kOutOfBound ∧
    (AdjustPointer 4096 8192 CType.pointer 4136 (image 4096 [(40, 4089)])).2.mem
      = (image 4096 [(40, 4089)]).mem :=
  ⟨by decide,
    ((AdjustPointer_atomic 4096 8192 CType.pointer 4136 (image 4096 [(40, 4088)])).1
      (by decide)).1,
    by decide,
    ((AdjustPointer_atomic 4096 8192 CType.pointer 4136 (image 4096 [(40, 4089)])).2.1
      (Or.inl (by decide))).1⟩

/-- C26: for every stored offset and every `start`, when the sum of the offset
and `start` is `2^64` or more, the 64-bit sum is below `start` and
`AdjustPointer` returns `kOutOfBound`, leaving the memory as it was. -/
theorem AdjustPointer_rejects_wrapped_sum (start limit : Nat) (T : CType) (ptr : Nat)
    (s : State) (hwrap : 18446744073709551616 ≤ read64 s.mem ptr + start) :
    u64 (read64 s.mem ptr + start) < start ∧
    (AdjustPointer start limit T ptr s).1 = Error.kOutOfBound ∧
    (AdjustPointer start limit T ptr s).2.mem = s.mem := by
  have hlt := u64_wrapped_lt_start (read64_lt s.mem ptr) hwrap
  have hv : ValidateRelocatedAddress start limit T (u64 (read64 s.mem ptr + start))
      = Error.kOutOfBound := (Validate_kOutOfBound_iff _ _ _ _).2 (Or.inl hlt)
  refine ⟨hlt, ?_, ?_⟩
  · rw [AdjustPointer_eq, if_neg (by rw [hv]; simp), hv]
  · rw [AdjustPointer_eq, if_neg (by rw [hv]; simp)]
    rfl

theorem AdjustPointer_rejects_wrapped_sum_witness :
    18446744073709551616 ≤
      read64 (image 4096 [(40, 18446744073709551608)]).mem 4136 + 4096 ∧
    u64 (read64 (image 4096 [(40, 18446744073709551608)]).mem 4136 + 4096) < 4096 ∧
    (AdjustPointer 4096 8192 CType.pointer 4136
      (image 4096 [(40, 18446744073709551608)])).1 = Error.kOutOfBound ∧
    (AdjustPointer 4096 8192 CType.pointer 4136
      (image 4096 [(40, 18446744073709551608)])).2.mem
      = (image 4096 [(40, 18446744073709551608)]).mem :=
  ⟨by decide,
    AdjustPointer_rejects_wrapped_sum 4096 8192 CType.pointer 4136
      (image 4096 [(40, 18446744073709551608)]) (by decide)⟩

end silifuzz
